import Mathlib

/-!
# OpenTESArena distant sky: a shallow embedding

Embedding of `OpenTESArena/src/World/DistantSky.cpp` and of the string utilities
of `components/utilities/String.cpp` (`toUppercase`, `split`, `trimFront`,
`trimFrontInPlace`, `replace`, `distributeNewlines`).

Conventions of the embedding:

* `double` values live in an ordered field `α` (exact arithmetic); theorems
  instantiate it with `ℚ` or `ℝ`. `AnimatedLandObject::update`, whose number of
  iterations depends on the rounding, is embedded on the type `Double` of IEEE 754
  binary64 values as well (`updateDouble`).
* `int` values are `Int`; C++ `%` on `int` is `Int.tmod` (truncation). Signed
  overflow is undefined behaviour in C++: where an `int` sum can leave the range of
  `int` on an input (the day plus 14), the sum is `addInt` and the overflow an error.
  `uint32_t` values are `Nat` reduced modulo `2 ^ 32`, and the conversions between
  `int`, `uint32_t`, `int16_t` and `size_t` are explicit.
* `std::string` is `List Char`; `std::toupper` is the "C" locale mapping.
* A C++ exception or failed `assert` is an `Except` error; the error of
  `DistantSky::init` carries the catalog as it is when the exception leaves.
  A call that leaves defined behaviour (`front()` of an empty string) is an error too.
* Loops whose termination depends on the data take a `fuel` argument.
-/

namespace OpenTESArena

/-! ## Collaborator types -/

/-- Modelled from the spec: `Surface` (Rendering/Surface.h) is not among the
sources; the catalog only stores references to images owned by the texture
manager, so an image is represented by an identifier. -/
structure Surface where
  id : Nat
deriving DecidableEq, Repr

/-! ## Machine integers and the standard library -/

/-- Conversion of an `int` to `uint32_t` (reduction modulo `2 ^ 32`). -/
def toUInt32 (v : Int) : Nat :=
  (v % 2 ^ 32).toNat

/-- Conversion of a `uint32_t` to `int` (values from `2 ^ 31` on become negative). -/
def toInt32 (n : Nat) : Int :=
  if n % 2 ^ 32 < 2 ^ 31 then ((n % 2 ^ 32 : Nat) : Int) else ((n % 2 ^ 32 : Nat) : Int) - 2 ^ 32

/-- The conversion `static_cast<int16_t>` of a `uint32_t`. -/
def toInt16 (n : Nat) : Int :=
  if n % 2 ^ 16 < 2 ^ 15 then ((n % 2 ^ 16 : Nat) : Int) else ((n % 2 ^ 16 : Nat) : Int) - 2 ^ 16

/-- Conversion of an `int` to `size_t` (reduction modulo `2 ^ 64`). -/
def toSizeT (v : Int) : Nat :=
  (v % 2 ^ 64).toNat

/-- The function `std::to_string(int)` of the C++ standard library. -/
def to_string (v : Int) : List Char :=
  if v < 0 then '-' :: Nat.toDigits 10 v.natAbs else Nat.toDigits 10 v.toNat

/-- The method `std::string::find(char)`: the first position of `c`, `none` for `npos`. -/
def find : List Char → Char → Option Nat
  | [], _ => none
  | d :: ds, c => if d = c then some 0 else (find ds c).map (· + 1)

/-! ## `components/utilities/String.cpp` -/

/-- The function `String::toUppercase` (`std::toupper` in the "C" locale on every character). -/
def String.toUppercase (str : List Char) : List Char :=
  str.map Char.toUpper

/-- How a call of a string utility can leave defined behaviour. -/
inductive StringError where
  /-- The call `front()` on an empty `std::string`: undefined behaviour. -/
  | frontOfEmpty
deriving DecidableEq, Repr

/-- The body of the loop of `String::split(str, separator)` (lines 33-42): `strings` is the
vector built so far, `c` the character read. -/
def String.splitStep (separator : Char) (strings : List (List Char)) (c : Char) :
    List (List Char) :=
  if c = separator then strings ++ [[]]
  else strings.dropLast ++ [strings.getLastD [] ++ [c]]

/-- The function `String::split(const std::string&, char)` (lines 23-46). -/
def String.split (str : List Char) (separator : Char) : List (List Char) :=
  str.foldl (String.splitStep separator) [[]]

/-- The function `String::split(const std::string&)` (lines 48-51). -/
def String.splitSpaces (str : List Char) : List (List Char) :=
  String.split str ' '

/-- The function `String::trimFront` (lines 71-84): the loop reads `trimmed.front()` before
every test, without a test of the size. -/
def String.trimFront : List Char → Except StringError (List Char)
  | [] => .error .frontOfEmpty
  | c :: cs => if c = ' ' ∨ c = '\t' then String.trimFront cs else .ok (c :: cs)

/-- The function `String::trimFrontInPlace` (lines 86-92): the loop tests the size before it
reads `str.front()`. -/
def String.trimFrontInPlace : List Char → List Char
  | [] => []
  | c :: cs => if c = ' ' then String.trimFrontInPlace cs else c :: cs

/-- The search of `std::string::find(a, pos)` from a position on: `rest` is the string from
the position `index` on. -/
def findAt (a : List Char) : List Char → Nat → Option Nat
  | [], index => if a.isPrefixOf [] then some index else none
  | c :: cs, index => if a.isPrefixOf (c :: cs) then some index else findAt a cs (index + 1)

/-- The method `std::string::find(const std::string&, size_t pos)`: the first position from
`pos` on where `a` occurs, `none` for `npos`. -/
def findString (s a : List Char) (pos : Nat) : Option Nat :=
  if pos ≤ s.length then findAt a (s.drop pos) pos else none

/-- The loop of `String::replace(str, a, b)` on strings (lines 236-241): `found` is the
result of the last `find`; `none` when `fuel` iterations do not reach the exit. -/
def String.replaceLoop (a b : List Char) : Nat → List Char → Option Nat → Option (List Char)
  | _, newStr, none => some newStr
  | 0, _, some _ => none
  | fuel + 1, newStr, some index =>
    String.replaceLoop a b fuel
      (newStr.take index ++ b ++ newStr.drop (index + a.length))
      (findString (newStr.take index ++ b ++ newStr.drop (index + a.length)) a
        (index + b.length))

/-- The function `String::replace(const std::string&, const std::string&,
const std::string&)` (lines 231-244). -/
def String.replace (fuel : Nat) (str a b : List Char) : Option (List Char) :=
  String.replaceLoop a b fuel str (findString str a 0)

/-- The loop of `String::distributeNewlines` (lines 166-188), from the test of the loop
condition on; `none` when `fuel` iterations do not reach the exit. -/
def String.distributeLoop (charLimit : Int) :
    Nat → List Char → Int → Int → Nat → Option (List Char)
  | 0, newStr, _, _, i => if i < newStr.length then none else some newStr
  | fuel + 1, newStr, mostRecentSpace, currentLineLength, i =>
    if i < newStr.length then
      let mostRecentSpace₁ : Int := if newStr[i]? = some ' ' then (i : Int) else mostRecentSpace
      if currentLineLength = charLimit ∧ (i : Int) ≠ ((newStr.length - 1 : Nat) : Int) then
        if mostRecentSpace₁ = -1 then
          String.distributeLoop charLimit fuel (newStr.insertIdx (i + 1) '\n')
            mostRecentSpace₁ (0 + 1) (i + 1)
        else
          String.distributeLoop charLimit fuel (newStr.set mostRecentSpace₁.toNat '\n')
            (-1) (0 + 1) (i + 1)
      else
        String.distributeLoop charLimit fuel newStr mostRecentSpace₁ (currentLineLength + 1)
          (i + 1)
    else
      some newStr

/-- The function `String::distributeNewlines` (lines 159-191). -/
def String.distributeNewlines (fuel : Nat) (str : List Char) (charLimit : Int) :
    Option (List Char) :=
  String.distributeLoop charLimit fuel str (-1) 0 0

/-- Specification of `String::replace`, written from the words "replace all instances of
`a` with `b`" and not from the loop of the source: scan `s` from left to right; at an
occurrence of `a` write `b` and skip the occurrence; otherwise copy the character. `skip`
counts the characters of an occurrence still to be skipped. -/
def replaceScan (a b : List Char) : Nat → List Char → List Char
  | _, [] => []
  | skip + 1, _ :: cs => replaceScan a b skip cs
  | 0, c :: cs =>
    if a.isPrefixOf (c :: cs) then b ++ replaceScan a b (a.length - 1) cs
    else c :: replaceScan a b 0 cs

/-- Specification: the number of occurrences of `a` the left-to-right, non-overlapping scan
of `s` finds. -/
def countScan (a : List Char) : Nat → List Char → Nat
  | _, [] => 0
  | skip + 1, _ :: cs => countScan a skip cs
  | 0, c :: cs =>
    if a.isPrefixOf (c :: cs) then 1 + countScan a (a.length - 1) cs
    else countScan a 0 cs

/-! ## Collaborators of `DistantSky::init` -/

/-- Modelled from the spec: `ArenaRandom` (Math/Random.h) is not among the sources.
The spec gives the generator a 32-bit seed, an operation producing the next
value (it mutates the state and returns an integer) and an unconditional
reseed. The recurrence `seed ↦ (returned value, new seed)` is a parameter. -/
structure ArenaRandom where
  recurrence : Nat → Nat × Nat
  seed : Nat

namespace ArenaRandom

/-- The method `next`: the returned `uint32_t` and the generator after the call. -/
def next (random : ArenaRandom) : Nat × ArenaRandom :=
  ((random.recurrence random.seed).1 % 2 ^ 32,
    { random with seed := (random.recurrence random.seed).2 % 2 ^ 32 })

/-- The method `srand`. -/
def srand (random : ArenaRandom) (seed : Nat) : ArenaRandom :=
  { random with seed := seed % 2 ^ 32 }

/-- The method `getSeed`. -/
def getSeed (random : ArenaRandom) : Nat :=
  random.seed

end ArenaRandom

/-- Modelled from the spec: `ClimateType` (World/ClimateType.h) is not among the
sources. The spec names Temperate, Desert and Mountain; `other` stands for any
other value of the enumeration's underlying `int`. -/
inductive ClimateType where
  | Temperate
  | Desert
  | Mountain
  | other (raw : Int)
deriving DecidableEq, Repr

/-- Modelled from the spec: `WeatherType` (World/WeatherType.h) is not among the
sources. `init` only tests for `Clear`; `other` stands for every other value. -/
inductive WeatherType where
  | Clear
  | other (raw : Int)
deriving DecidableEq, Repr

/-- The class `Int2` (Math/Vector2.h), an integer point. -/
structure Int2 where
  x : Int
  y : Int
deriving DecidableEq, Repr

/-- The class `Double3` (Math/Vector3.h), a vector of three `double`s. -/
structure Double3 (α : Type) where
  x : α
  y : α
  z : α

/-- Modelled from the spec: `Double3::normalized` (Math/Vector3.h) is not among the
sources. The spec normalizes `(x, y, z)` to a unit direction: every component is
divided by the length `sqrt (x² + y² + z²)`; the square root is a parameter. -/
def Double3.normalized {α : Type} [LinearOrderedField α] (sqrt : α → α) (v : Double3 α) :
    Double3 α :=
  let len := sqrt (v.x * v.x + v.y * v.y + v.z * v.z)
  { x := v.x / len, y := v.y / len, z := v.z / len }

/-- Modelled from the spec: `Constants::TwoPi` (Math/Constants.h) is not among the
sources; it is `2π`, with `π` a parameter. -/
def Constants.TwoPi {α : Type} [LinearOrderedField α] (pi : α) : α := 2 * pi

/-- Modelled from the spec: `Constants::HalfPi` (Math/Constants.h) is not among the
sources; it is `π / 2`, with `π` a parameter. -/
def Constants.HalfPi {α : Type} [LinearOrderedField α] (pi : α) : α := pi / 2

/-- The services `DistantSky::init` reads: `Location::getCityClimateType`, the
filename tables of `exeData.locations`, the city data file, the recurrence of
`ArenaRandom`, the texture manager (`none` when an image cannot be loaded), the
daytime palette (packed ARGB value of every entry), and `π`, `std::atan2`,
`sqrt` on `double`. None of them is among the sources. -/
structure InitEnv (α : Type) where
  getCityClimateType : Int → Int → ClimateType
  distantMountainFilenames : List (List Char)
  cloudFilename : List Char
  animDistantMountainFilenames : List (List Char)
  moonFilenames : List (List Char)
  starFilename : List Char
  sunFilename : List Char
  getDistantSkySeed : Int → Int → Nat
  getCitySeed : Int → Int → Nat
  getLocalCityPoint : Nat → Int2
  getDistance : Int2 → Int2 → Int
  recurrence : Nat → Nat × Nat
  getSurface : List Char → Option Surface
  getSurfaces : List Char → Option (List Surface)
  palette : List Nat
  pi : α
  atan2 : α → α → α
  sqrt : α → α

/-! ## The type `double` -/

/-- A value of the C++ type `double` (IEEE 754 binary64): a finite value, given by the
rational it denotes (the two zeros are one value), an infinity, or a NaN. -/
inductive Double where
  | finite (value : ℚ)
  | posInf
  | negInf
  | nan
deriving DecidableEq

namespace Double

/-- Rounding of a non-negative rational to the nearest integer, a tie to the even one. -/
def nearestEven (s : ℚ) : Int :=
  if s - (⌊s⌋ : ℚ) < 1 / 2 then ⌊s⌋
  else if 1 / 2 < s - (⌊s⌋ : ℚ) then ⌊s⌋ + 1
  else if ⌊s⌋ % 2 = 0 then ⌊s⌋ else ⌊s⌋ + 1

/-- The exponent of the grid of `double` values around a positive rational `a`: 53
significant bits, so `2 ^ (⌊log₂ a⌋ - 52)`, and the subnormal spacing `2 ^ (-1074)` at the
bottom of the range. -/
def gridExponent (a : ℚ) : Int :=
  max (Int.log 2 a - 52) (-1074)

/-- The `double` an exact result is rounded to, in the default rounding mode (to nearest,
ties to even): the nearest multiple of the grid spacing, and an infinity when that is
`2 ^ 1024` or more in size. -/
def round (q : ℚ) : Double :=
  if q = 0 then .finite 0
  else
    let r : ℚ := (nearestEven (|q| / 2 ^ gridExponent |q|) : ℚ) * 2 ^ gridExponent |q|
    if 2 ^ (1024 : Int) ≤ r then (if q < 0 then .negInf else .posInf)
    else .finite (if q < 0 then -r else r)

/-- The negation of a `double`. -/
def neg : Double → Double
  | .finite q => .finite (-q)
  | .posInf => .negInf
  | .negInf => .posInf
  | .nan => .nan

/-- The sum of two `double` values: the rounded exact sum of finite values; a NaN for a NaN
operand and for the sum of opposite infinities; else the infinity. -/
def add : Double → Double → Double
  | .finite a, .finite b => round (a + b)
  | .nan, _ => .nan
  | _, .nan => .nan
  | .posInf, .negInf => .nan
  | .negInf, .posInf => .nan
  | .posInf, _ => .posInf
  | _, .posInf => .posInf
  | .negInf, _ => .negInf
  | _, .negInf => .negInf

/-- The difference of two `double` values. -/
def sub (a b : Double) : Double :=
  add a (neg b)

/-- The comparison `a >= b` of two `double` values: false when an operand is a NaN. -/
def ge : Double → Double → Bool
  | .finite a, .finite b => decide (b ≤ a)
  | .nan, _ => false
  | _, .nan => false
  | .posInf, _ => true
  | _, .negInf => true
  | .negInf, _ => false
  | _, .posInf => false

/-- The rationals that are finite `double` values: at most 53 significant bits on a grid
not finer than `2 ^ (-1074)`, below `2 ^ 1024` in size. -/
def Representable (q : ℚ) : Prop :=
  ∃ m e : Int, |m| < 2 ^ 53 ∧ -1074 ≤ e ∧ e + 53 ≤ 1024 ∧ q = (m : ℚ) * 2 ^ e

end Double

/-! ## `DistantSky::AnimatedLandObject` -/

/-- Fields of `DistantSky::AnimatedLandObject`, as used by DistantSky.cpp. -/
structure AnimatedLandObject (α : Type) where
  surfaces : List Surface
  angleRadians : α
  targetFrameTime : α
  currentFrameTime : α
  index : Int

namespace AnimatedLandObject

variable {α : Type} [LinearOrderedField α]

/-- The constant `AnimatedLandObject::DEFAULT_FRAME_TIME` of DistantSky.h. -/
def DEFAULT_FRAME_TIME : α := 1 / 18

/-- The constructor `AnimatedLandObject(double angleRadians, double frameTime)`.
The source asserts `frameTime > 0.0`; callers are expected to respect it. -/
def construct (angleRadians frameTime : α) : AnimatedLandObject α :=
  { surfaces := []
    angleRadians := angleRadians
    targetFrameTime := frameTime
    currentFrameTime := 0
    index := 0 }

/-- The constructor `AnimatedLandObject(double angleRadians)`. -/
def constructDefault (angleRadians : α) : AnimatedLandObject α :=
  construct angleRadians DEFAULT_FRAME_TIME

/-- The method `getSurfaceCount`. -/
def getSurfaceCount (obj : AnimatedLandObject α) : Int :=
  (obj.surfaces.length : Int)

/-- The method `getFrameTime`. -/
def getFrameTime (obj : AnimatedLandObject α) : α :=
  obj.targetFrameTime

/-- The method `getIndex`. -/
def getIndex (obj : AnimatedLandObject α) : Int :=
  obj.index

/-- The method `addSurface`. -/
def addSurface (obj : AnimatedLandObject α) (surface : Surface) : AnimatedLandObject α :=
  { obj with surfaces := obj.surfaces ++ [surface] }

/-- The method `setFrameTime`. The source asserts `frameTime > 0.0`. -/
def setFrameTime (obj : AnimatedLandObject α) (frameTime : α) : AnimatedLandObject α :=
  { obj with targetFrameTime := frameTime }

/-- The method `setIndex`. -/
def setIndex (obj : AnimatedLandObject α) (index : Int) : AnimatedLandObject α :=
  { obj with index := index }

/-- The `while` loop of `update` in exact arithmetic (the loop without rounding): `none`
when `fuel` iterations do not reach the exit. The loop on `double` values is
`updateLoopDouble`. -/
def updateLoop (surfaceCount : Int) : Nat → AnimatedLandObject α → Option (AnimatedLandObject α)
  | 0, _ => none
  | fuel + 1, obj =>
    if obj.currentFrameTime ≥ obj.targetFrameTime then
      updateLoop surfaceCount fuel
        { obj with
          currentFrameTime := obj.currentFrameTime - obj.targetFrameTime
          index := if obj.index < surfaceCount - 1 then obj.index + 1 else 0 }
    else
      some obj

/-- The method `update(double dt)` in exact arithmetic (without rounding). The method on
`double` values is `updateDouble`. -/
def update (fuel : Nat) (obj : AnimatedLandObject α) (dt : α) : Option (AnimatedLandObject α) :=
  let surfaceCount := obj.getSurfaceCount
  if surfaceCount > 0 then
    updateLoop surfaceCount fuel { obj with currentFrameTime := obj.currentFrameTime + dt }
  else
    some obj

/-- The `while` loop of `update` in `double` arithmetic: `none` when `fuel` iterations do
not reach the exit. -/
def updateLoopDouble (surfaceCount : Int) :
    Nat → AnimatedLandObject Double → Option (AnimatedLandObject Double)
  | 0, _ => none
  | fuel + 1, obj =>
    if Double.ge obj.currentFrameTime obj.targetFrameTime then
      updateLoopDouble surfaceCount fuel
        { obj with
          currentFrameTime := Double.sub obj.currentFrameTime obj.targetFrameTime
          index := if obj.index < surfaceCount - 1 then obj.index + 1 else 0 }
    else
      some obj

/-- The method `update(double dt)` in `double` arithmetic; `surfaceCount` is the value of
`getSurfaceCount()`. -/
def updateDouble (fuel : Nat) (obj : AnimatedLandObject Double) (dt : Double) :
    Option (AnimatedLandObject Double) :=
  let surfaceCount : Int := (obj.surfaces.length : Int)
  if surfaceCount > 0 then
    updateLoopDouble surfaceCount fuel
      { obj with currentFrameTime := Double.add obj.currentFrameTime dt }
  else
    some obj

end AnimatedLandObject

/-! ## The catalog of `DistantSky` -/

/-- The class `DistantSky::LandObject`. -/
structure LandObject (α : Type) where
  surface : Surface
  angleRadians : α

/-- The class `DistantSky::AirObject`. -/
structure AirObject (α : Type) where
  surface : Surface
  angleRadians : α
  height : α

/-- The enumeration `DistantSky::MoonObject::Type`. -/
inductive MoonObjectType where
  | First
  | Second
deriving DecidableEq, Repr

/-- The conversion `static_cast<int>(type)` of a moon type. -/
def MoonObjectType.toInt : MoonObjectType → Int
  | .First => 0
  | .Second => 1

/-- The class `DistantSky::MoonObject`. -/
structure MoonObject where
  surface : Surface
  type : MoonObjectType
deriving DecidableEq, Repr

/-- The class `DistantSky::StarObject`: the tag with the member of the union it selects. -/
inductive StarObject (α : Type) where
  | makeSmall (color : Nat) (direction : Double3 α)
  | makeLarge (surface : Surface) (direction : Double3 α)

/-- The data members of `DistantSky`. -/
structure DistantSky (α : Type) where
  landObjects : List (LandObject α)
  animLandObjects : List (AnimatedLandObject α)
  airObjects : List (AirObject α)
  moonObjects : List MoonObject
  starObjects : List (StarObject α)
  sunSurface : Option Surface

/-- The constructor `DistantSky::DistantSky()`. -/
def DistantSky.construct {α : Type} : DistantSky α :=
  { landObjects := []
    animLandObjects := []
    airObjects := []
    moonObjects := []
    starObjects := []
    sunSurface := none }

namespace DistantSky

variable {α : Type}

/-- The method `getLandObjectCount`. -/
def getLandObjectCount (sky : DistantSky α) : Int := (sky.landObjects.length : Int)

/-- The method `getAnimatedLandObjectCount`. -/
def getAnimatedLandObjectCount (sky : DistantSky α) : Int := (sky.animLandObjects.length : Int)

/-- The method `getAirObjectCount`. -/
def getAirObjectCount (sky : DistantSky α) : Int := (sky.airObjects.length : Int)

/-- The method `getMoonObjectCount`. -/
def getMoonObjectCount (sky : DistantSky α) : Int := (sky.moonObjects.length : Int)

/-- The method `getStarObjectCount`. -/
def getStarObjectCount (sky : DistantSky α) : Int := (sky.starObjects.length : Int)

end DistantSky

/-- How `DistantSky::init` can fail. -/
inductive InitError where
  /-- The `DebugException` "Invalid climate type". -/
  | invalidClimate
  /-- A `std::out_of_range` thrown by `at`. -/
  | outOfRange
  /-- The texture manager could not provide the image of this filename. -/
  | missingAsset (filename : List Char)
  /-- A failed `assert`. -/
  | assertFailed
  /-- An `int` sum outside the range of `int`: signed overflow, undefined behaviour. -/
  | signedOverflow
  /-- Not a failure of the program: the rejection loop ran out of `fuel`. -/
  | outOfFuel
deriving DecidableEq, Repr

/-- The result of a step of `init`: a value, or the error with the catalog as
it is when the exception leaves `init`. -/
abbrev InitM (α : Type) (β : Type) := Except (InitError × DistantSky α) β

/-! ## `DistantSky::init` -/

section Init

variable {α : Type} [LinearOrderedField α]

/-- The constant `DistantSky::UNIQUE_ANGLES`. -/
def UNIQUE_ANGLES : Int := 512

/-- The lambda `arenaAngleToRadians` of `init` (lines 307-315). -/
def arenaAngleToRadians (pi : α) (angle : Int) : α :=
  let arenaRadians := Constants.TwoPi pi * ((angle : α) / (UNIQUE_ANGLES : α))
  let flippedArenaRadians := Constants.TwoPi pi - arenaRadians
  flippedArenaRadians - Constants.HalfPi pi

/-- The value the `digits` lambda prints (lines 326-327), for the generator output `r`:
`randVal = r % var` in `uint32_t` arithmetic, then `(randVal == 0) ? var : randVal`. -/
def variantValue (r : Nat) (var : Int) : Int :=
  let randVal : Int := toInt32 (r % toUInt32 var)
  if randVal = 0 then var else randVal

/-- The lambda producing `digits` in `placeStaticObjects` (lines 324-328). -/
def digits (random : ArenaRandom) (var : Int) : List Char × ArenaRandom :=
  (to_string (variantValue random.next.1 var), random.next.2)

/-- The loop of the `filename` lambda (lines 341-344): `name.at(pos + offset + index) =
digits.at(index)` for the digits from `index` on; `start` is `pos + offset`. -/
def writeDigits (start : Int) : List Char → Nat → List Char → Except InitError (List Char)
  | [], _, name => .ok name
  | c :: cs, index, name =>
    if toSizeT (start + (index : Int)) < name.length then
      writeDigits start cs (index + 1) (name.set (toSizeT (start + (index : Int))) c)
    else
      .error .outOfRange

/-- The lambda producing `filename` in `placeStaticObjects` (lines 333-347). -/
def filename (baseFilename : List Char) (pos maxDigits : Int) (digits : List Char) :
    Except InitError (List Char) :=
  let digitCount : Int := (digits.length : Int)
  let offset := maxDigits - digitCount
  match writeDigits (pos + offset) digits 0 baseFilename with
  | .ok name => .ok (String.toUppercase name)
  | .error e => .error e

/-- One iteration of the loop of `placeStaticObjects` (lines 323-373). -/
def placeStaticObject (env : InitEnv α) (baseFilename : List Char) (pos var maxDigits : Int)
    (randomHeight : Bool) (sky : DistantSky α) (random : ArenaRandom) :
    InitM α (DistantSky α × ArenaRandom) :=
  let dr := digits random var
  if dr.1.length ≤ toSizeT maxDigits then
    match filename baseFilename pos maxDigits dr.1 with
    | .error e => .error (e, sky)
    | .ok name =>
      match env.getSurface name with
      | none => .error (.missingAsset name, sky)
      | some surface =>
        let yr : Int × ArenaRandom :=
          if randomHeight then (toInt32 (dr.2.next.1 % 64), dr.2.next.2) else (0, dr.2)
        let arenaAngle : Int := toInt32 (yr.2.next.1 % toUInt32 UNIQUE_ANGLES)
        let angleRadians : α := arenaAngleToRadians env.pi arenaAngle
        let isLand := !randomHeight
        if isLand then
          .ok ({ sky with landObjects := sky.landObjects ++ [⟨surface, angleRadians⟩] },
            yr.2.next.2)
        else
          let height : α := (yr.1 : α) / ((64 : Int) : α)
          .ok ({ sky with airObjects := sky.airObjects ++ [⟨surface, angleRadians, height⟩] },
            yr.2.next.2)
  else
    .error (.assertFailed, sky)

/-- The loop of `placeStaticObjects`, for the iterations that remain. -/
def placeStaticObjectsLoop (env : InitEnv α) (baseFilename : List Char) (pos var maxDigits : Int)
    (randomHeight : Bool) : Nat → DistantSky α → ArenaRandom → InitM α (DistantSky α × ArenaRandom)
  | 0, sky, random => .ok (sky, random)
  | remaining + 1, sky, random =>
    match placeStaticObject env baseFilename pos var maxDigits randomHeight sky random with
    | .error e => .error e
    | .ok sr =>
      placeStaticObjectsLoop env baseFilename pos var maxDigits randomHeight remaining sr.1 sr.2

/-- The lambda `placeStaticObjects` of `init` (lines 318-375). -/
def placeStaticObjects (env : InitEnv α) (count : Int) (baseFilename : List Char)
    (pos var maxDigits : Int) (randomHeight : Bool) (sky : DistantSky α) (random : ArenaRandom) :
    InitM α (DistantSky α × ArenaRandom) :=
  placeStaticObjectsLoop env baseFilename pos var maxDigits randomHeight count.toNat sky random

/-- The method `at` of a standard container, with an index already converted to `size_t`. -/
def at? {β : Type} (xs : List β) (index : Nat) : Except InitError β :=
  match xs.get? index with
  | some x => .ok x
  | none => .error .outOfRange

/-- The climate selection of `init` (lines 273-299): base filename, `pos`, `var`, `maxDigits`. -/
def climateParameters (env : InitEnv α) (climateType : ClimateType) :
    Except InitError (List Char × Int × Int × Int) :=
  match climateType with
  | .Temperate =>
    match at? env.distantMountainFilenames 2 with
    | .ok baseFilename => .ok (baseFilename, 4, 10, 2)
    | .error e => .error e
  | .Desert =>
    match at? env.distantMountainFilenames 1 with
    | .ok baseFilename => .ok (baseFilename, 6, 4, 1)
    | .error e => .error e
  | .Mountain =>
    match at? env.distantMountainFilenames 0 with
    | .ok baseFilename => .ok (baseFilename, 6, 11, 2)
    | .error e => .error e
  | .other _ => .error .invalidClimate

/-- The cloud phase of `init` (lines 380-393). -/
def placeClouds (env : InitEnv α) (weatherType : WeatherType) (currentDay : Int)
    (sky : DistantSky α) (random : ArenaRandom) : InitM α (DistantSky α × ArenaRandom) :=
  let hasClouds := decide (weatherType = WeatherType.Clear)
  if hasClouds then
    let cloudSeed : Nat := (random.getSeed + toUInt32 (Int.tmod currentDay 32)) % 2 ^ 32
    placeStaticObjects env 7 env.cloudFilename 5 17 2 true sky (random.srand cloudSeed)
  else
    .ok (sky, random)

/-- The lambda computing `animIndex` (lines 415-429). -/
def animIndex (dist : Int) : Int :=
  if dist < 80 then 0
  else if dist < 150 then 1
  else 2

/-- The animated land phase of `init` (lines 395-455). -/
def placeAnimLand (env : InitEnv α) (localCityID provinceID : Int) (sky : DistantSky α) :
    InitM α (DistantSky α) :=
  let hasAnimLand := decide (provinceID = 3)
  if hasAnimLand then
    let citySeed := env.getCitySeed localCityID provinceID
    let animLandGlobalPos : Int2 := ⟨132, 52⟩
    let locationGlobalPos := env.getLocalCityPoint citySeed
    let dist := env.getDistance locationGlobalPos animLandGlobalPos
    let angle : α := env.atan2
      ((locationGlobalPos.y - animLandGlobalPos.y : Int) : α)
      ((animLandGlobalPos.x - locationGlobalPos.x : Int) : α)
    match at? env.animDistantMountainFilenames (toSizeT (animIndex dist)) with
    | .error e => .error (e, sky)
    | .ok animTemplate =>
      let animFilename := String.toUppercase animTemplate
      let hasMultipleFrames := decide (".DFA".toList <:+: animFilename)
      let animLandObj : AnimatedLandObject α := AnimatedLandObject.constructDefault angle
      if hasMultipleFrames then
        match env.getSurfaces animFilename with
        | none => .error (.missingAsset animFilename, sky)
        | some animSurfaces =>
          .ok { sky with
                animLandObjects := sky.animLandObjects ++
                  [animSurfaces.foldl AnimatedLandObject.addSurface animLandObj] }
      else
        match env.getSurface animFilename with
        | none => .error (.missingAsset animFilename, sky)
        | some surface =>
          .ok { sky with
                animLandObjects := sky.animLandObjects ++ [animLandObj.addSurface surface] }
  else
    .ok sky

/-- The sum `a + b` of two `int` values: a result outside `[-2 ^ 31, 2 ^ 31)` is signed
overflow, which is undefined behaviour. -/
def addInt (a b : Int) : Except InitError Int :=
  if -2 ^ 31 ≤ a + b ∧ a + b < 2 ^ 31 then .ok (a + b) else .error .signedOverflow

/-- The lambda computing `phaseIndex` in `makeMoon` (lines 460-475), with the `int` sum
`currentDay + 14` of the second branch. The last branch of the source, a throw for a type
that is neither `First` nor `Second`, has no value to reach it. -/
def phaseIndex (currentDay : Int) (type : MoonObjectType) : Except InitError Int :=
  match type with
  | .First => .ok (Int.tmod currentDay 32)
  | .Second =>
    match addInt currentDay 14 with
    | .error e => .error e
    | .ok sum => .ok (Int.tmod sum 32)

/-- The lambda `makeMoon` of `init` (lines 458-483): the phase index, then the filename,
the image set and the frame at the phase index. -/
def makeMoon (env : InitEnv α) (currentDay : Int) (type : MoonObjectType) :
    Except InitError MoonObject :=
  match phaseIndex currentDay type with
  | .error e => .error e
  | .ok index =>
    let moonIndex := type.toInt
    match at? env.moonFilenames (toSizeT moonIndex) with
    | .error e => .error e
    | .ok moonTemplate =>
      let name := String.toUppercase moonTemplate
      match env.getSurfaces name with
      | none => .error (.missingAsset name)
      | some surfaces =>
        match at? surfaces (toSizeT index) with
        | .error e => .error e
        | .ok surface => .ok ⟨surface, type⟩

/-- The moon phase of `init` (lines 485-486). -/
def placeMoons (env : InitEnv α) (currentDay : Int) (sky : DistantSky α) :
    InitM α (DistantSky α) :=
  match makeMoon env currentDay .First with
  | .error e => .error (e, sky)
  | .ok first =>
    let sky1 := { sky with moonObjects := sky.moonObjects ++ [first] }
    match makeMoon env currentDay .Second with
    | .error e => .error (e, sky1)
    | .ok second => .ok { sky1 with moonObjects := sky1.moonObjects ++ [second] }

end Init

section InitStars

variable {α : Type} [LinearOrderedField α]

/-- The local struct `SubStar` of `init`. -/
structure SubStar where
  dx : Int
  dy : Int
  color : Nat
deriving DecidableEq, Repr

/-- The local struct `Star` of `init`. -/
structure Star where
  x : Int
  y : Int
  z : Int
  subList : List SubStar
  type : Int
deriving DecidableEq, Repr

/-- The lambda `getRndCoord` of `init` (lines 502-506). The masked value is below `2 ^ 12`,
so its conversion to `int16_t` leaves it unchanged. -/
def getRndCoord (random : ArenaRandom) : Int × ArenaRandom :=
  let d : Nat := ((0x800 + random.next.1) % 2 ^ 32) &&& 0x0FFF
  (if d &&& 2 = 0 then (d : Int) else -(d : Int), random.next.2)

/-- The body of the sub-star loop (lines 532-536). The shifted values lie in `[-64, 63]`,
so their conversion to `int8_t` leaves them unchanged. -/
def makeSubStar (random : ArenaRandom) : SubStar × ArenaRandom :=
  let r1 := random.next
  let r2 := r1.2.next
  let r3 := r2.2.next
  ({ dx := toInt16 r1.1 >>> 9
     dy := toInt16 r2.1 >>> 9
     color := ((r3.1 % 10 + 64) % 2 ^ 32) % 2 ^ 8 }, r3.2)

/-- The sub-star loop of a constellation (lines 529-537), for `n` iterations. -/
def makeSubStars : Nat → ArenaRandom → List SubStar × ArenaRandom
  | 0, random => ([], random)
  | n + 1, random =>
    let s := makeSubStar random
    let rest := makeSubStars n s.2
    (s.1 :: rest.1, rest.2)

/-- The `do ... while` loop drawing the type of a large star (lines 545-548). -/
def drawStarValue (planets : List Bool) : Nat → ArenaRandom → Except InitError (Int × ArenaRandom)
  | 0, _ => .error .outOfFuel
  | fuel + 1, random =>
    let value : Int := ((random.next.1 % 8 : Nat) : Int)
    if value ≥ 5 then
      match at? planets (toSizeT (value - 5)) with
      | .error e => .error e
      | .ok used =>
        if used then drawStarValue planets fuel random.next.2
        else .ok (value, random.next.2)
    else
      .ok (value, random.next.2)

/-- The body of the star loop (lines 516-558): the star, the planet flags and the generator
after it. -/
def makeStar (fuel : Nat) (planets : List Bool) (random : ArenaRandom) :
    Except InitError (Star × List Bool × ArenaRandom) :=
  let cx := getRndCoord random
  let cy := getRndCoord cx.2
  let cz := getRndCoord cy.2
  let selection : Nat := (cz.2.next.1 % 4) % 2 ^ 8
  if selection ≠ 0 then
    let n : Int := toInt32 ((2 + cz.2.next.2.next.1 % 4) % 2 ^ 32)
    let subs := makeSubStars n.toNat cz.2.next.2.next.2
    .ok ({ x := cx.1, y := cy.1, z := cz.1, subList := subs.1, type := -1 }, planets, subs.2)
  else
    match drawStarValue planets fuel cz.2.next.2 with
    | .error e => .error e
    | .ok vr =>
      if vr.1 ≥ 5 then
        if toSizeT (vr.1 - 5) < planets.length then
          .ok ({ x := cx.1, y := cy.1, z := cz.1, subList := [], type := vr.1 },
            planets.set (toSizeT (vr.1 - 5)) true, vr.2)
        else
          .error .outOfRange
      else
        .ok ({ x := cx.1, y := cy.1, z := cz.1, subList := [], type := vr.1 }, planets, vr.2)

/-- The star loop (lines 514-559), for the iterations that remain. -/
def makeStarsLoop (fuel : Nat) : Nat → List Star → List Bool → ArenaRandom →
    Except InitError (List Star × List Bool × ArenaRandom)
  | 0, stars, planets, random => .ok (stars, planets, random)
  | remaining + 1, stars, planets, random =>
    match makeStar fuel planets random with
    | .error e => .error e
    | .ok spr => makeStarsLoop fuel remaining (stars ++ [spr.1]) spr.2.1 spr.2.2

/-- The star generation of `init` (lines 508-559): reseed, then 40 stars. -/
def makeStars (fuel : Nat) (random : ArenaRandom) : Except InitError (List Star) :=
  match makeStarsLoop fuel 40 [] [false, false, false] (random.srand 0x12345679) with
  | .error e => .error e
  | .ok spr => .ok spr.1

/-- The lambda `starFilename` (lines 595-604). -/
def starFilename (env : InitEnv α) (star : Star) : Except InitError (List Char) :=
  let typeStr := to_string (star.type + 1)
  match find env.starFilename '1' with
  | none => .error .assertFailed
  | some index =>
    .ok (String.toUppercase
      (env.starFilename.take index ++ typeStr ++ env.starFilename.drop (index + 1)))

/-- The loop over the sub-stars of a constellation (lines 579-591). -/
def convertSubStars (env : InitEnv α) (direction : Double3 α) :
    List SubStar → DistantSky α → InitM α (DistantSky α)
  | [], sky => .ok sky
  | subStar :: rest, sky =>
    match at? env.palette subStar.color with
    | .error e => .error (e, sky)
    | .ok color =>
      convertSubStars env direction rest
        { sky with starObjects := sky.starObjects ++ [StarObject.makeSmall color direction] }

/-- The body of the conversion loop (lines 571-608). -/
def convertStar (env : InitEnv α) (star : Star) (sky : DistantSky α) : InitM α (DistantSky α) :=
  let direction : Double3 α :=
    Double3.normalized env.sqrt ⟨(star.x : α), (star.y : α), (star.z : α)⟩
  let isSmallStar := decide (star.type = -1)
  if isSmallStar then
    convertSubStars env direction star.subList sky
  else
    match starFilename env star with
    | .error e => .error (e, sky)
    | .ok name =>
      match env.getSurface name with
      | none => .error (.missingAsset name, sky)
      | some surface =>
        .ok { sky with starObjects := sky.starObjects ++ [StarObject.makeLarge surface direction] }

/-- The conversion loop (lines 569-609). -/
def convertStars (env : InitEnv α) : List Star → DistantSky α → InitM α (DistantSky α)
  | [], sky => .ok sky
  | star :: rest, sky =>
    match convertStar env star sky with
    | .error e => .error e
    | .ok sky1 => convertStars env rest sky1

/-- The sun phase of `init` (lines 612-613). -/
def placeSun (env : InitEnv α) (sky : DistantSky α) : InitM α (DistantSky α) :=
  let name := String.toUppercase env.sunFilename
  match env.getSurface name with
  | none => .error (.missingAsset name, sky)
  | some surface => .ok { sky with sunSurface := some surface }

/-- The method `DistantSky::init` (lines 258-614). -/
def init (env : InitEnv α) (fuel : Nat) (localCityID provinceID : Int)
    (weatherType : WeatherType) (currentDay : Int) (sky : DistantSky α) :
    InitM α (DistantSky α) :=
  let climateType := env.getCityClimateType localCityID provinceID
  match climateParameters env climateType with
  | .error e => .error (e, sky)
  | .ok params =>
    let skySeed := env.getDistantSkySeed localCityID provinceID
    let random : ArenaRandom := { recurrence := env.recurrence, seed := skySeed % 2 ^ 32 }
    let count : Int := toInt32 ((random.next.1 % 4 + 2) % 2 ^ 32)
    match placeStaticObjects env count params.1 params.2.1 params.2.2.1 params.2.2.2 false sky
        random.next.2 with
    | .error e => .error e
    | .ok sr1 =>
      match placeClouds env weatherType currentDay sr1.1 sr1.2 with
      | .error e => .error e
      | .ok sr2 =>
        match placeAnimLand env localCityID provinceID sr2.1 with
        | .error e => .error e
        | .ok sky3 =>
          match placeMoons env currentDay sky3 with
          | .error e => .error e
          | .ok sky4 =>
            match makeStars fuel sr2.2 with
            | .error e => .error (e, sky4)
            | .ok stars =>
              match convertStars env stars sky4 with
              | .error e => .error e
              | .ok sky5 => placeSun env sky5

/-- The loop of `DistantSky::tick` over the animated land objects. -/
def tickLoop (fuel : Nat) (dt : α) :
    List (AnimatedLandObject α) → Option (List (AnimatedLandObject α))
  | [] => some []
  | anim :: rest =>
    match anim.update fuel dt with
    | none => none
    | some anim' =>
      match tickLoop fuel dt rest with
      | none => none
      | some rest' => some (anim' :: rest')

/-- The method `DistantSky::tick` (lines 616-623): `none` when an update runs out of `fuel`. -/
def tick (fuel : Nat) (sky : DistantSky α) (dt : α) : Option (DistantSky α) :=
  match tickLoop fuel dt sky.animLandObjects with
  | none => none
  | some anims => some { sky with animLandObjects := anims }

end InitStars

/-! ## Reachable objects and example inputs -/

/-- The `AnimatedLandObject`s a client can reach: built by a constructor with a positive
frame time, then changed by `addSurface`, `setFrameTime` (positive argument), `setIndex`
and returning calls of `update` with `dt ≥ 0`. -/
inductive AnimatedLandObject.Reachable {α : Type} [LinearOrderedField α] :
    AnimatedLandObject α → Prop where
  | construct (angleRadians frameTime : α) (h : 0 < frameTime) :
      Reachable (AnimatedLandObject.construct angleRadians frameTime)
  | constructDefault (angleRadians : α) :
      Reachable (AnimatedLandObject.constructDefault angleRadians)
  | addSurface (obj : AnimatedLandObject α) (surface : Surface) :
      Reachable obj → Reachable (obj.addSurface surface)
  | setFrameTime (obj : AnimatedLandObject α) (frameTime : α) (h : 0 < frameTime) :
      Reachable obj → Reachable (obj.setFrameTime frameTime)
  | setIndex (obj : AnimatedLandObject α) (index : Int) :
      Reachable obj → Reachable (obj.setIndex index)
  | update (obj obj' : AnimatedLandObject α) (fuel : Nat) (dt : α) (h : 0 ≤ dt) :
      Reachable obj → obj.update fuel dt = some obj' → Reachable obj'

/-- The `AnimatedLandObject`s a client can reach when `setIndex` is only given the index of
an existing frame: built by a constructor, then changed by `addSurface`, `setFrameTime`,
`setIndex` with `0 ≤ index < getSurfaceCount()` and returning calls of `update`. -/
inductive AnimatedLandObject.ReachableInRange {α : Type} [LinearOrderedField α] :
    AnimatedLandObject α → Prop where
  | construct (angleRadians frameTime : α) :
      ReachableInRange (AnimatedLandObject.construct angleRadians frameTime)
  | constructDefault (angleRadians : α) :
      ReachableInRange (AnimatedLandObject.constructDefault angleRadians)
  | addSurface (obj : AnimatedLandObject α) (surface : Surface) :
      ReachableInRange obj → ReachableInRange (obj.addSurface surface)
  | setFrameTime (obj : AnimatedLandObject α) (frameTime : α) :
      ReachableInRange obj → ReachableInRange (obj.setFrameTime frameTime)
  | setIndex (obj : AnimatedLandObject α) (index : Int) (h0 : 0 ≤ index)
      (h1 : index < obj.getSurfaceCount) :
      ReachableInRange obj → ReachableInRange (obj.setIndex index)
  | update (obj obj' : AnimatedLandObject α) (fuel : Nat) (dt : α) :
      ReachableInRange obj → obj.update fuel dt = some obj' → ReachableInRange obj'

/-- The invariant of the star loop: three planet flags; every star is a constellation
(no type assigned: `type` keeps its initial `-1`) or has a type in `[0, 8)`; the types from
`5` on are pairwise distinct and each of them has its flag set. -/
def StarInv (stars : List Star) (planets : List Bool) : Prop :=
  planets.length = 3 ∧
  (∀ s ∈ stars, s.type = -1 ∨ (0 ≤ s.type ∧ s.type < 8)) ∧
  ((stars.map Star.type).filter (fun t => decide (5 ≤ t))).Nodup ∧
  (∀ s ∈ stars, 5 ≤ s.type → planets[(s.type - 5).toNat]? = some true)

/-- The two shapes of a generated star: a constellation (`type` keeps `-1`) with 2 to 5
sub-stars, or a large star with a type in `[0, 8)` and no sub-star. -/
def StarShape (s : Star) : Prop :=
  (s.type = -1 ∧ 2 ≤ s.subList.length ∧ s.subList.length ≤ 5) ∨
  (0 ≤ s.type ∧ s.type < 8 ∧ s.subList = [])

/-- The `StarObject`s the conversion loop appends for one star: for a constellation one
small star per sub-star, for a large star one large star; all carry the normalized
direction of the star. -/
def StarExpansion {α : Type} [LinearOrderedField α] (env : InitEnv α) (star : Star)
    (group : List (StarObject α)) : Prop :=
  (star.type = -1 ∧ group.length = star.subList.length ∧
    ∀ o ∈ group, ∃ color, o = StarObject.makeSmall color
      (Double3.normalized env.sqrt ⟨(star.x : α), (star.y : α), (star.z : α)⟩)) ∨
  (star.type ≠ -1 ∧ ∃ surface, group = [StarObject.makeLarge surface
      (Double3.normalized env.sqrt ⟨(star.x : α), (star.y : α), (star.z : α)⟩)])

/-- The catalog `sky'` extends the catalog `sky`: every collection of `sky` is a prefix of
the same collection of `sky'`, and the sun reference is the same. -/
def DistantSky.Extends {α : Type} (sky sky' : DistantSky α) : Prop :=
  sky.landObjects <+: sky'.landObjects ∧
  sky.animLandObjects <+: sky'.animLandObjects ∧
  sky.airObjects <+: sky'.airObjects ∧
  sky.moonObjects <+: sky'.moonObjects ∧
  sky.starObjects <+: sky'.starObjects ∧
  sky'.sunSurface = sky.sunSurface

/-- An error of `init` that is not the invalid-climate error and that, when it is a missing
asset, names a file the texture manager could not load. -/
def LoaderError {α : Type} (env : InitEnv α) (e : InitError) : Prop :=
  e ≠ InitError.invalidClimate ∧
  ∀ name, e = InitError.missingAsset name →
    env.getSurface name = none ∨ env.getSurfaces name = none

/-- A generator for the examples: a multiplicative congruential recurrence whose `next`
returns the high half of the new seed. -/
def exampleRandom (seed : Nat) : ArenaRandom :=
  { recurrence := fun s => ((s * 7143469 % 2 ^ 32) / 65536, s * 7143469 % 2 ^ 32)
    seed := seed }

/-- A generator for the examples whose `next` always returns `value`. -/
def constantRandom (value : Nat) : ArenaRandom :=
  { recurrence := fun s => (value, s)
    seed := 0 }

/-- An environment for the examples, over the rationals: every image can be loaded, image
sets have 32 frames, and the palette has 256 entries. -/
def exampleEnv : InitEnv ℚ :=
  { getCityClimateType := fun _ _ => .Temperate
    distantMountainFilenames := ["mountain.img".toList, "desert1.img".toList, "temp00.img".toList]
    cloudFilename := "cloud00.img".toList
    animDistantMountainFilenames :=
      ["volcano1.dfa".toList, "volcano2.dfa".toList, "volcano3.img".toList]
    moonFilenames := ["moon1.dfa".toList, "moon2.dfa".toList]
    starFilename := "star1.img".toList
    sunFilename := "sun.img".toList
    getDistantSkySeed := fun c p => (c + p).toNat
    getCitySeed := fun c p => (c * p).toNat
    getLocalCityPoint := fun s => ⟨s % 320, s % 200⟩
    getDistance := fun a b => (a.x - b.x).natAbs + (a.y - b.y).natAbs
    recurrence := (exampleRandom 0).recurrence
    getSurface := fun name => some ⟨name.length⟩
    getSurfaces := fun name => some ((List.range 32).map (fun i => ⟨100 * name.length + i⟩))
    palette := List.range 256
    pi := 3
    atan2 := fun y x => y + x
    sqrt := fun x => x }

/-- The example environment with a climate that is none of Temperate, Desert, Mountain. -/
def exampleEnvNoClimate : InitEnv ℚ :=
  { exampleEnv with getCityClimateType := fun _ _ => .other 7 }

/-- An animated land object in `double` arithmetic, as the constructor with the default
frame time leaves it after 32 images were added: the frame time is the `double` of
`1.0 / 18.0`, the time and the index are `0`. -/
def exampleAnimDouble : AnimatedLandObject Double :=
  { surfaces := (List.range 32).map Surface.mk
    angleRadians := .finite 0
    targetFrameTime := Double.round (1 / 18)
    currentFrameTime := .finite 0
    index := 0 }

/-- Two calls of `init`, each with its own services and city, read the same inputs: the same
sky seed, generator recurrence, climate, filename tables, palette and image loader, the same
`π`, `atan2` and square root, and, in the province of the animated land, the same position of
the city and the same distance to the animated land. The city identifier, the seed tables,
the climate table and the city data may differ. -/
def InitEnv.SameInputs {α : Type} (env₁ env₂ : InitEnv α) (city₁ city₂ provinceID : Int) :
    Prop :=
  env₁.getDistantSkySeed city₁ provinceID = env₂.getDistantSkySeed city₂ provinceID ∧
  env₁.recurrence = env₂.recurrence ∧
  env₁.getCityClimateType city₁ provinceID = env₂.getCityClimateType city₂ provinceID ∧
  env₁.distantMountainFilenames = env₂.distantMountainFilenames ∧
  env₁.cloudFilename = env₂.cloudFilename ∧
  env₁.animDistantMountainFilenames = env₂.animDistantMountainFilenames ∧
  env₁.moonFilenames = env₂.moonFilenames ∧
  env₁.starFilename = env₂.starFilename ∧
  env₁.sunFilename = env₂.sunFilename ∧
  env₁.palette = env₂.palette ∧
  env₁.getSurface = env₂.getSurface ∧
  env₁.getSurfaces = env₂.getSurfaces ∧
  env₁.pi = env₂.pi ∧ env₁.atan2 = env₂.atan2 ∧ env₁.sqrt = env₂.sqrt ∧
  (provinceID = 3 →
    env₁.getLocalCityPoint (env₁.getCitySeed city₁ provinceID) =
      env₂.getLocalCityPoint (env₂.getCitySeed city₂ provinceID) ∧
    env₁.getDistance (env₁.getLocalCityPoint (env₁.getCitySeed city₁ provinceID)) ⟨132, 52⟩ =
      env₂.getDistance (env₂.getLocalCityPoint (env₂.getCitySeed city₂ provinceID)) ⟨132, 52⟩)

/-- The example environment with a sky seed that depends on the province only: two cities
of a province have the same sky seed. -/
def exampleEnvProvinceSeed : InitEnv ℚ :=
  { exampleEnv with getDistantSkySeed := fun _ p => p.toNat }

/-- The example environment with other seed tables: every city has the sky seed `8` and the
city seed `15`, the values the example environment gives the city `5` of the province `3`. -/
def exampleEnvOtherTables : InitEnv ℚ :=
  { exampleEnv with getDistantSkySeed := fun _ _ => 8, getCitySeed := fun _ _ => 15 }

set_option maxRecDepth 1000000


section AnimatedLandProofs

variable {α : Type} [LinearOrderedField α]

open AnimatedLandObject

/-- Cyclic advance: for an index inside `[0, n)` the source's conditional is `(i + 1) mod n`. -/
theorem advance_eq_emod (i n : Int) (h0 : 0 ≤ i) (hn : i < n) :
    (if i < n - 1 then i + 1 else 0) = (i + 1) % n := by
  split_ifs with h
  · rw [Int.emod_eq_of_lt (by omega) (by omega)]
  · have : i + 1 = n := by omega
    rw [this, Int.emod_self]

/-- The index after `k` cyclic advances from an index inside `[0, n)`. -/
theorem advance_iterate (n : Int) (k : Nat) :
    ∀ i : Int, 0 ≤ i → i < n →
      (fun j : Int => if j < n - 1 then j + 1 else 0)^[k] i = (i + (k : Int)) % n := by
  induction k with
  | zero =>
    intro i h0 hn
    simp [Int.emod_eq_of_lt h0 hn]
  | succ k ih =>
    intro i h0 hn
    have hnpos : 0 < n := by omega
    rw [Function.iterate_succ_apply, advance_eq_emod i n h0 hn,
      ih _ (Int.emod_nonneg _ (by omega)) (Int.emod_lt_of_pos _ hnpos), Int.emod_add_emod]
    congr 1
    push_cast
    ring

/-- For a non-negative time and a positive frame time, the number of whole frames in the
time is a natural number `k` with `k * T ≤ c < (k + 1) * T`. -/
theorem frames_bounds [FloorRing α] (c T : α) (hc : 0 ≤ c) (hT : 0 < T) :
    0 ≤ ⌊c / T⌋ ∧ ((⌊c / T⌋.toNat : Nat) : α) = ((⌊c / T⌋ : Int) : α) ∧
      ((⌊c / T⌋ : Int) : α) * T ≤ c ∧ c < (((⌊c / T⌋ : Int) : α) + 1) * T := by
  have h0 : 0 ≤ ⌊c / T⌋ := Int.floor_nonneg.mpr (div_nonneg hc hT.le)
  refine ⟨h0, ?_, ?_, ?_⟩
  · have : ((⌊c / T⌋.toNat : Nat) : Int) = ⌊c / T⌋ := Int.toNat_of_nonneg h0
    exact_mod_cast congrArg (fun z : Int => (z : α)) this
  · have := Int.floor_le (c / T)
    calc ((⌊c / T⌋ : Int) : α) * T ≤ c / T * T := mul_le_mul_of_nonneg_right this hT.le
      _ = c := div_mul_cancel₀ c hT.ne'
  · have := Int.lt_floor_add_one (c / T)
    calc c = c / T * T := (div_mul_cancel₀ c hT.ne').symm
      _ < (((⌊c / T⌋ : Int) : α) + 1) * T := mul_lt_mul_of_pos_right this hT

end AnimatedLandProofs

section FilenameProofs

/-- Upper-casing leaves a decimal digit character unchanged. -/
theorem digitChar_toUpper (m : Nat) (hm : m < 10) :
    (Nat.digitChar m).toUpper = Nat.digitChar m := by
  interval_cases m <;> rfl

/-- Every character printed by `Nat.toDigitsCore 10` is fixed by upper-casing when the
accumulator's characters are. -/
theorem toDigitsCore_toUpper (fuel : Nat) :
    ∀ (n : Nat) (ds : List Char), (∀ c ∈ ds, c.toUpper = c) →
      ∀ c ∈ Nat.toDigitsCore 10 fuel n ds, c.toUpper = c := by
  induction fuel with
  | zero =>
    intro n ds h c hc
    exact h c (by simpa [Nat.toDigitsCore] using hc)
  | succ fuel ih =>
    intro n ds h c hc
    have hds : ∀ c ∈ Nat.digitChar (n % 10) :: ds, c.toUpper = c := by
      intro c hc
      rcases List.mem_cons.mp hc with rfl | hc
      · exact digitChar_toUpper _ (Nat.mod_lt _ (by decide))
      · exact h c hc
    simp only [Nat.toDigitsCore] at hc
    split_ifs at hc
    · exact hds c hc
    · exact ih _ _ hds c hc

/-- The decimal string of a non-negative `int` is unchanged by `String::toUppercase`. -/
theorem to_string_toUppercase (v : Int) (hv : 0 ≤ v) :
    String.toUppercase (to_string v) = to_string v := by
  have hneg : ¬ v < 0 := by omega
  simp only [String.toUppercase, to_string, hneg, if_false]
  have hfix : ∀ c ∈ Nat.toDigits 10 v.toNat, c.toUpper = c :=
    fun c hc => toDigitsCore_toUpper _ _ [] (by simp) c hc
  exact (List.map_congr_left hfix).trans (List.map_id _)

/-- For a size inside the range of `size_t`, the conversion of a non-negative `int` sum is
the sum itself. -/
theorem toSizeT_natCast (m : Nat) (hm : m < 2 ^ 64) : toSizeT (m : Int) = m := by
  unfold toSizeT
  have : ((m : Int) % 2 ^ 64) = (m : Int) := Int.emod_eq_of_lt (by omega) (by exact_mod_cast hm)
  rw [this, Int.toNat_ofNat]

/-- The write loop of the `filename` lambda: when the target range lies inside the name it
succeeds, keeps the length, and overwrites exactly the range with the digits. -/
theorem writeDigits_spec (s : Nat) :
    ∀ (ds : List Char) (index : Nat) (name : List Char),
      s + index + ds.length ≤ name.length → name.length < 2 ^ 64 →
      ∃ name', writeDigits (s : Int) ds index name = .ok name' ∧
        name'.length = name.length ∧
        ∀ j : Nat, name'[j]? =
          if s + index ≤ j ∧ j < s + index + ds.length then ds[j - (s + index)]? else name[j]? := by
  intro ds
  induction ds with
  | nil =>
    intro index name _ _
    refine ⟨name, rfl, rfl, fun j => ?_⟩
    have : ¬ (s + index ≤ j ∧ j < s + index + ([] : List Char).length) := by
      simp only [List.length_nil]; omega
    rw [if_neg this]
  | cons c cs ih =>
    intro index name hlen hsize
    simp only [List.length_cons] at hlen
    have hcast : ((s : Int) + (index : Int)) = ((s + index : Nat) : Int) := by push_cast; rfl
    have hconv : toSizeT ((s : Int) + (index : Int)) = s + index := by
      rw [hcast]; exact toSizeT_natCast _ (by omega)
    have hin : s + index < name.length := by omega
    obtain ⟨name', hw, hl, hget⟩ := ih (index + 1) (name.set (s + index) c)
      (by rw [List.length_set]; omega) (by rw [List.length_set]; exact hsize)
    refine ⟨name', ?_, ?_, fun j => ?_⟩
    · simp only [writeDigits, hconv, hin, if_true]
      exact hw
    · rw [hl, List.length_set]
    · rw [hget j]
      by_cases hj : j = s + index
      · subst hj
        have h1 : ¬ (s + (index + 1) ≤ s + index ∧ s + index < s + (index + 1) + cs.length) := by
          omega
        have h2 : s + index ≤ s + index ∧ s + index < s + index + (c :: cs).length := by
          simp only [List.length_cons]; omega
        rw [if_neg h1, if_pos h2]
        simp [List.getElem?_set, hin]
      · by_cases hr : s + (index + 1) ≤ j ∧ j < s + (index + 1) + cs.length
        · have h2 : s + index ≤ j ∧ j < s + index + (c :: cs).length := by
            simp only [List.length_cons]; omega
          rw [if_pos hr, if_pos h2]
          have : j - (s + index) = (j - (s + (index + 1))) + 1 := by omega
          rw [this, List.getElem?_cons_succ]
        · have h2 : ¬ (s + index ≤ j ∧ j < s + index + (c :: cs).length) := by
            simp only [List.length_cons]; omega
          rw [if_neg hr, if_neg h2]
          rw [List.getElem?_set_ne (Ne.symm hj)]

/-- C2: digit substitution of the `filename` lambda of `placeStaticObjects`. For a base
filename (a `std::string`, so shorter than `2 ^ 64`), `pos ≥ 0`, a variant `v ≥ 1` whose
decimal string has `d ≤ maxDigits` digits and `pos + maxDigits ≤ length base`, the lambda
returns a name of the length of the base, which holds the digits of `v` at the positions
`pos + maxDigits - d .. pos + maxDigits - 1` and the upper-cased character of the base at
every other position. -/
theorem filename_digit_substitution (baseFilename : List Char) (pos maxDigits v : Int)
    (hsize : baseFilename.length < 2 ^ 64) (hpos : 0 ≤ pos) (hv : 1 ≤ v)
    (hd : ((to_string v).length : Int) ≤ maxDigits)
    (hlen : pos + maxDigits ≤ (baseFilename.length : Int)) :
    ∃ name, filename baseFilename pos maxDigits (to_string v) = .ok name ∧
      name.length = baseFilename.length ∧
      ∀ j : Nat, j < baseFilename.length →
        name[j]? =
          if pos + maxDigits - ((to_string v).length : Int) ≤ (j : Int) ∧
              (j : Int) < pos + maxDigits then
            (to_string v)[(j - (pos + maxDigits - ((to_string v).length : Int))).toNat]?
          else (String.toUppercase baseFilename)[j]? := by
  obtain ⟨s, hs⟩ : ∃ s : Nat, pos + (maxDigits - ((to_string v).length : Int)) = (s : Int) :=
    ⟨(pos + (maxDigits - ((to_string v).length : Int))).toNat, by omega⟩
  obtain ⟨name', hw, hl, hget⟩ := writeDigits_spec s (to_string v) 0 baseFilename
    (by omega) hsize
  refine ⟨String.toUppercase name', ?_, ?_, fun j _ => ?_⟩
  · simp only [filename, hs, hw]
  · simp only [String.toUppercase, List.length_map, hl]
  · simp only [String.toUppercase, List.getElem?_map, hget j]
    by_cases hr : s + 0 ≤ j ∧ j < s + 0 + (to_string v).length
    · have hr' : pos + maxDigits - ((to_string v).length : Int) ≤ (j : Int) ∧
          (j : Int) < pos + maxDigits := by omega
      rw [if_pos hr, if_pos hr']
      have hidx : (j - (pos + maxDigits - ((to_string v).length : Int))).toNat = j - (s + 0) := by
        omega
      rw [hidx, ← List.getElem?_map]
      have := to_string_toUppercase v (by omega)
      simp only [String.toUppercase] at this
      rw [this]
    · have hr' : ¬ (pos + maxDigits - ((to_string v).length : Int) ≤ (j : Int) ∧
          (j : Int) < pos + maxDigits) := by omega
      rw [if_neg hr, if_neg hr']

/-- The examples of the digit substitution: `"MNT00.IMG"` with `pos = 3`, `maxDigits = 2`
gives `"MNT07.IMG"` for the variant `7` and `"MNT10.IMG"` for the variant `10`. -/
theorem filename_digit_substitution_witness :
    (∃ name, filename "MNT00.IMG".toList 3 2 (to_string 7) = .ok name ∧
      name.length = "MNT00.IMG".toList.length ∧
      ∀ j : Nat, j < "MNT00.IMG".toList.length →
        name[j]? =
          if (3 : Int) + 2 - ((to_string 7).length : Int) ≤ (j : Int) ∧ (j : Int) < 3 + 2 then
            (to_string 7)[(j - ((3 : Int) + 2 - ((to_string 7).length : Int))).toNat]?
          else (String.toUppercase "MNT00.IMG".toList)[j]?) ∧
    filename "MNT00.IMG".toList 3 2 (to_string 7) = .ok "MNT07.IMG".toList ∧
    filename "MNT00.IMG".toList 3 2 (to_string 10) = .ok "MNT10.IMG".toList :=
  ⟨filename_digit_substitution "MNT00.IMG".toList 3 2 7 (by decide) (by decide) (by decide)
    (by decide) (by decide), rfl, rfl⟩

end FilenameProofs

section StarProofs

/-- The type conversion of the planet index: for a value in `[5, 8)` it is `value - 5`. -/
theorem toSizeT_planet (v : Int) (h5 : 5 ≤ v) (h8 : v < 8) : toSizeT (v - 5) = (v - 5).toNat := by
  unfold toSizeT
  rw [Int.emod_eq_of_lt (by omega) (by omega)]

/-- The rejection loop returns a value in `[0, 8)` whose planet flag, if it has one, is not
yet set. -/
theorem drawStarValue_spec (planets : List Bool) (fuel : Nat) :
    ∀ (random : ArenaRandom) (vr : Int × ArenaRandom),
      drawStarValue planets fuel random = .ok vr →
      0 ≤ vr.1 ∧ vr.1 < 8 ∧ (5 ≤ vr.1 → planets[(vr.1 - 5).toNat]? = some false) := by
  induction fuel with
  | zero => intro random vr h; simp [drawStarValue] at h
  | succ fuel ih =>
    intro random vr h
    have hlt : ((random.next.1 % 8 : Nat) : Int) < 8 := by
      have := Nat.mod_lt random.next.1 (show 0 < 8 by decide)
      omega
    have h0 : (0 : Int) ≤ ((random.next.1 % 8 : Nat) : Int) := Int.natCast_nonneg _
    rw [drawStarValue] at h
    generalize ((random.next.1 % 8 : Nat) : Int) = v at h hlt h0
    split_ifs at h with h5
    · rw [toSizeT_planet _ h5 hlt] at h
      simp only [at?, List.get?_eq_getElem?] at h
      cases hp : planets[(v - 5).toNat]? with
      | none => simp [hp] at h
      | some used =>
        simp only [hp] at h
        cases used with
        | true => exact ih _ _ (by simpa using h)
        | false =>
          simp only [Bool.false_eq_true, if_false, Except.ok.injEq] at h
          subst h
          exact ⟨h0, hlt, fun _ => hp⟩
    · simp only [Except.ok.injEq] at h
      subst h
      exact ⟨h0, hlt, fun h => absurd h h5⟩

/-- One star keeps the invariant of the star loop. -/
theorem makeStar_inv (fuel : Nat) (stars : List Star) (planets : List Bool)
    (random : ArenaRandom) (spr : Star × List Bool × ArenaRandom)
    (hinv : StarInv stars planets) (h : makeStar fuel planets random = .ok spr) :
    StarInv (stars ++ [spr.1]) spr.2.1 := by
  obtain ⟨hlen, hrange, hnodup, hflags⟩ := hinv
  simp only [makeStar] at h
  split_ifs at h with hsel
  · -- a constellation
    simp only [Except.ok.injEq] at h
    subst h
    refine ⟨hlen, ?_, ?_, ?_⟩
    · intro s hs
      rcases List.mem_append.mp hs with hs | hs
      · exact hrange s hs
      · simp only [List.mem_singleton] at hs; subst hs; exact Or.inl rfl
    · simpa [List.map_append, List.filter_append] using hnodup
    · intro s hs h5
      rcases List.mem_append.mp hs with hs | hs
      · exact hflags s hs h5
      · simp only [List.mem_singleton] at hs; subst hs; simp at h5
  · -- a large star
    cases hd : drawStarValue planets fuel
      (getRndCoord (getRndCoord (getRndCoord random).2).2).2.next.2 with
    | error e => simp [hd] at h
    | ok vr =>
      obtain ⟨hv0, hv8, hfree⟩ := drawStarValue_spec planets fuel _ vr hd
      simp only [hd] at h
      split_ifs at h with h5 hin
      · simp only [Except.ok.injEq] at h
        subst h
        rw [toSizeT_planet _ h5 hv8]
        refine ⟨by simp [hlen], ?_, ?_, ?_⟩
        · intro s hs
          rcases List.mem_append.mp hs with hs | hs
          · exact hrange s hs
          · simp only [List.mem_singleton] at hs; subst hs; exact Or.inr ⟨hv0, hv8⟩
        · have hnew : ∀ s ∈ stars, 5 ≤ s.type → s.type ≠ vr.1 := by
            intro s hs hs5 heq
            have h1 := hflags s hs hs5
            have h2 := hfree h5
            rw [heq, h2] at h1
            simp at h1
          simp only [List.map_append, List.filter_append, List.map_cons, List.map_nil]
          have hf : List.filter (fun t => decide (5 ≤ t)) [vr.1] = [vr.1] := by
            simp [List.filter, h5]
          rw [hf]
          refine List.Nodup.append hnodup (List.nodup_singleton _) ?_
          intro t ht hts
          simp only [List.mem_singleton] at hts
          subst hts
          obtain ⟨hmem, ht5⟩ := List.mem_filter.mp ht
          obtain ⟨s, hs, hst⟩ := List.mem_map.mp hmem
          exact hnew s hs (by simpa [hst] using ht5) hst
        · intro s hs hs5
          have hidx : (vr.1 - 5).toNat < planets.length := by omega
          rcases List.mem_append.mp hs with hs | hs
          · by_cases heq : (s.type - 5).toNat = (vr.1 - 5).toNat
            · rw [heq, List.getElem?_set_self hidx]
            · rw [List.getElem?_set_ne (Ne.symm heq)]
              exact hflags s hs hs5
          · simp only [List.mem_singleton] at hs
            subst hs
            simp only []
            rw [List.getElem?_set_self hidx]
      · simp only [Except.ok.injEq] at h
        subst h
        refine ⟨hlen, ?_, ?_, ?_⟩
        · intro s hs
          rcases List.mem_append.mp hs with hs | hs
          · exact hrange s hs
          · simp only [List.mem_singleton] at hs; subst hs; exact Or.inr ⟨hv0, hv8⟩
        · simpa [List.map_append, List.filter_append, h5] using hnodup
        · intro s hs hs5
          rcases List.mem_append.mp hs with hs | hs
          · exact hflags s hs hs5
          · simp only [List.mem_singleton] at hs; subst hs; exact absurd hs5 h5

/-- The star loop keeps its invariant and adds one star per iteration. -/
theorem makeStarsLoop_inv (fuel : Nat) :
    ∀ (remaining : Nat) (stars : List Star) (planets : List Bool) (random : ArenaRandom)
      (res : List Star × List Bool × ArenaRandom),
      StarInv stars planets →
      makeStarsLoop fuel remaining stars planets random = .ok res →
      StarInv res.1 res.2.1 ∧ res.1.length = stars.length + remaining := by
  intro remaining
  induction remaining with
  | zero =>
    intro stars planets random res hinv h
    simp only [makeStarsLoop, Except.ok.injEq] at h
    subst h
    exact ⟨hinv, rfl⟩
  | succ remaining ih =>
    intro stars planets random res hinv h
    simp only [makeStarsLoop] at h
    cases hm : makeStar fuel planets random with
    | error e => simp [hm] at h
    | ok spr =>
      simp only [hm] at h
      obtain ⟨h1, h2⟩ := ih _ _ _ res (makeStar_inv fuel stars planets random spr hinv hm) h
      refine ⟨h1, ?_⟩
      rw [h2, List.length_append, List.length_singleton]
      omega

/-- A duplicate-free list of values among `5`, `6`, `7` has at most three entries. -/
theorem planet_slots_le_three (l : List Int) (hn : l.Nodup) (h : ∀ t ∈ l, 5 ≤ t ∧ t < 8) :
    l.length ≤ 3 := by
  have hsub : l ⊆ [5, 6, 7] := by
    intro t ht
    obtain ⟨h5, h8⟩ := h t ht
    have : t = 5 ∨ t = 6 ∨ t = 7 := by omega
    simpa using this
  exact (List.subperm_of_subset hn hsub).length_le

/-- C3: planet uniqueness in the star pass of `init`. Whenever the 40-star loop returns, it
returns 40 stars; the stars whose type is `≥ 5` (planet slots 5, 6, 7) have pairwise
distinct types, so at most 3 stars are planets; and the type of every star is either the
initial `-1` of a constellation (no type assigned) or a value in `[0, 8)`. -/
theorem planet_uniqueness (fuel : Nat) (random : ArenaRandom) (stars : List Star)
    (h : makeStars fuel random = .ok stars) :
    stars.length = 40 ∧
    ((stars.filter (fun s => decide (5 ≤ s.type))).map Star.type).Nodup ∧
    (stars.filter (fun s => decide (5 ≤ s.type))).length ≤ 3 ∧
    (∀ s ∈ stars, s.type = -1 ∨ (0 ≤ s.type ∧ s.type < 8)) := by
  simp only [makeStars] at h
  cases hl : makeStarsLoop fuel 40 [] [false, false, false] (random.srand 0x12345679) with
  | error e => simp [hl] at h
  | ok res =>
    simp only [hl, Except.ok.injEq] at h
    have hinit : StarInv [] [false, false, false] :=
      ⟨rfl, by simp, by simp, by simp⟩
    obtain ⟨⟨_, hrange, hnodup, _⟩, hlen⟩ := makeStarsLoop_inv fuel 40 [] _ _ res hinit hl
    rw [h] at hrange hnodup hlen
    have hmap : (stars.filter (fun s => decide (5 ≤ s.type))).map Star.type =
        (stars.map Star.type).filter (fun t => decide (5 ≤ t)) := by
      rw [List.filter_map]; rfl
    refine ⟨by simpa using hlen, by rw [hmap]; exact hnodup, ?_, hrange⟩
    have hle := planet_slots_le_three _ hnodup (by
      intro t ht
      obtain ⟨hmem, ht5⟩ := List.mem_filter.mp ht
      obtain ⟨s, hs, rfl⟩ := List.mem_map.mp hmem
      have ht5' : 5 ≤ s.type := by simpa using ht5
      rcases hrange s hs with h1 | h1
      · omega
      · exact ⟨ht5', h1.2⟩)
    rw [← hmap, List.length_map] at hle
    exact hle

/-- The star loop returns on the example generator (with planets among its stars), and its
stars satisfy the planet uniqueness statement. -/
theorem planet_uniqueness_witness :
    ∃ stars, makeStars 10 (exampleRandom 0) = .ok stars ∧
      stars.length = 40 ∧
      ((stars.filter (fun s => decide (5 ≤ s.type))).map Star.type).Nodup ∧
      (stars.filter (fun s => decide (5 ≤ s.type))).length ≤ 3 ∧
      (∀ s ∈ stars, s.type = -1 ∨ (0 ≤ s.type ∧ s.type < 8)) := by
  have hok : ∃ stars, makeStars 10 (exampleRandom 0) = .ok stars := by
    cases hm : makeStars 10 (exampleRandom 0) with
    | ok stars => exact ⟨stars, rfl⟩
    | error e =>
      have hne : (makeStars 10 (exampleRandom 0)).toBool = true := rfl
      rw [hm] at hne
      exact absurd hne (by simp [Except.toBool])
  obtain ⟨stars, hs⟩ := hok
  exact ⟨stars, hs, planet_uniqueness 10 (exampleRandom 0) stars hs⟩


end StarProofs

section MoonProofs

variable {α : Type}

/-- The phase index of the moon `First`: no sum is computed. -/
theorem phaseIndex_first (currentDay : Int) :
    phaseIndex currentDay .First = .ok (Int.tmod currentDay 32) := rfl

/-- The phase index of the moon `Second` when `currentDay + 14` is an `int`. -/
theorem phaseIndex_second (currentDay : Int) (hlo : -2 ^ 31 ≤ currentDay + 14)
    (hhi : currentDay + 14 < 2 ^ 31) :
    phaseIndex currentDay .Second = .ok (Int.tmod (currentDay + 14) 32) := by
  simp only [phaseIndex, addInt, if_pos (And.intro hlo hhi)]

/-- The phase index of the moon `Second` when `currentDay + 14` leaves the range of `int`. -/
theorem phaseIndex_second_overflow (currentDay : Int) (h : 2 ^ 31 ≤ currentDay + 14) :
    phaseIndex currentDay .Second = .error .signedOverflow := by
  have hno : ¬ (-2 ^ 31 ≤ currentDay + 14 ∧ currentDay + 14 < 2 ^ 31) := by omega
  simp only [phaseIndex, addInt, if_neg hno]

/-- The phase index of a non-negative day for which `currentDay + 14` is an `int`: the
mathematical remainder, in `[0, 32)`. -/
theorem phaseIndex_nonneg (currentDay : Int) (h0 : 0 ≤ currentDay)
    (hmax : currentDay + 14 < 2 ^ 31) :
    phaseIndex currentDay .First = .ok (currentDay % 32) ∧
    phaseIndex currentDay .Second = .ok ((currentDay + 14) % 32) := by
  constructor
  · rw [phaseIndex_first, Int.tmod_eq_emod h0 (by decide)]
  · rw [phaseIndex_second currentDay (by omega) hmax,
      Int.tmod_eq_emod (by omega) (by decide)]

/-- What a returning `makeMoon` selected: the frame at `phaseIndex` of the image set loaded
for the upper-cased moon filename of the type. -/
theorem makeMoon_ok (env : InitEnv α) (currentDay : Int) (type : MoonObjectType)
    (moon : MoonObject) (h : makeMoon env currentDay type = .ok moon) :
    moon.type = type ∧
    ∃ index moonTemplate surfaces,
      phaseIndex currentDay type = .ok index ∧
      env.moonFilenames[toSizeT type.toInt]? = some moonTemplate ∧
      env.getSurfaces (String.toUppercase moonTemplate) = some surfaces ∧
      surfaces[toSizeT index]? = some moon.surface := by
  simp only [makeMoon, at?, List.get?_eq_getElem?] at h
  cases h0 : phaseIndex currentDay type with
  | error e => simp [h0] at h
  | ok index =>
    simp only [h0] at h
    cases h1 : env.moonFilenames[toSizeT type.toInt]? with
    | none => simp [h1] at h
    | some moonTemplate =>
      simp only [h1] at h
      cases h2 : env.getSurfaces (String.toUppercase moonTemplate) with
      | none => simp [h2] at h
      | some surfaces =>
        simp only [h2] at h
        cases h3 : surfaces[toSizeT index]? with
        | none => simp [h3] at h
        | some surface =>
          simp only [h3, Except.ok.injEq] at h
          subst h
          exact ⟨rfl, index, moonTemplate, surfaces, rfl, rfl, h2, h3⟩

/-- A returning moon phase appends the moon `First`, then the moon `Second`. -/
theorem placeMoons_effect (env : InitEnv α) (currentDay : Int) (sky sky' : DistantSky α)
    (h : placeMoons env currentDay sky = .ok sky') :
    sky'.landObjects = sky.landObjects ∧ sky'.airObjects = sky.airObjects ∧
    sky'.animLandObjects = sky.animLandObjects ∧
    ∃ first second, makeMoon env currentDay .First = .ok first ∧
      makeMoon env currentDay .Second = .ok second ∧
      sky'.moonObjects = sky.moonObjects ++ [first, second] := by
  simp only [placeMoons] at h
  cases h1 : makeMoon env currentDay .First with
  | error e => simp [h1] at h
  | ok first =>
    cases h2 : makeMoon env currentDay .Second with
    | error e => simp [h1, h2] at h
    | ok second =>
      simp only [h1, h2, Except.ok.injEq] at h
      subst h
      exact ⟨rfl, rfl, rfl, first, second, rfl, rfl, by simp⟩

/-- A returning sub-star loop only touches the star collection. -/
theorem convertSubStars_effect (env : InitEnv α) (direction : Double3 α) :
    ∀ (subs : List SubStar) (sky sky' : DistantSky α),
      convertSubStars env direction subs sky = .ok sky' →
      sky'.landObjects = sky.landObjects ∧ sky'.airObjects = sky.airObjects ∧
      sky'.animLandObjects = sky.animLandObjects ∧ sky'.moonObjects = sky.moonObjects := by
  intro subs
  induction subs with
  | nil =>
    intro sky sky' h
    simp only [convertSubStars, Except.ok.injEq] at h
    subst h
    exact ⟨rfl, rfl, rfl, rfl⟩
  | cons subStar rest ih =>
    intro sky sky' h
    simp only [convertSubStars] at h
    split at h
    · exact absurd h (by simp)
    · have hrest := ih _ _ h
      exact hrest

end MoonProofs

section AngleProofs

variable {α : Type} [LinearOrderedField α]

/-- The conversion is the affine map `raw ↦ 3π/2 - π·raw/256`. -/
theorem arenaAngleToRadians_eq (pi : α) (angle : Int) :
    arenaAngleToRadians pi angle = 3 * pi / 2 - pi * (angle : α) / 256 := by
  simp only [arenaAngleToRadians, Constants.TwoPi, Constants.HalfPi, UNIQUE_ANGLES]
  push_cast
  ring

/-- C5, as the code has it: the raw angle `0` (south in Arena's system) is converted to
`3π/2`, the southward direction of the counter-clockwise system whose `0` is east; the raw
angle converted to `0` radians (east) is `384`. -/
theorem arenaAngleToRadians_zero :
    arenaAngleToRadians Real.pi 0 = 3 * Real.pi / 2 ∧ arenaAngleToRadians Real.pi 384 = 0 := by
  constructor
  · rw [arenaAngleToRadians_eq]; push_cast; ring
  · rw [arenaAngleToRadians_eq]; push_cast; ring

/-- C5 as stated fails: the raw angle `0` is not converted to `0` radians. -/
theorem arenaAngleToRadians_zero_ne : arenaAngleToRadians Real.pi 0 ≠ 0 := by
  rw [arenaAngleToRadians_eq]
  have := Real.pi_pos
  intro h
  push_cast at h
  linarith

/-- C6: shape of the angle conversion in exact real arithmetic. The raw angle `128` is
converted to `π` (west); the conversion is strictly monotonic (strictly decreasing) in the
raw angle; and the values at `raw` and `raw + 512` differ by exactly `2π`. -/
theorem arenaAngleToRadians_shape :
    arenaAngleToRadians Real.pi 128 = Real.pi ∧
    StrictAnti (fun raw : Int => arenaAngleToRadians Real.pi raw) ∧
    ∀ raw : Int,
      arenaAngleToRadians Real.pi raw - arenaAngleToRadians Real.pi (raw + 512) = 2 * Real.pi := by
  refine ⟨?_, ?_, ?_⟩
  · rw [arenaAngleToRadians_eq]; push_cast; ring
  · intro a b hab
    simp only [arenaAngleToRadians_eq]
    have hpi := Real.pi_pos
    have hab' : (a : ℝ) < (b : ℝ) := by exact_mod_cast hab
    have : Real.pi * (a : ℝ) < Real.pi * (b : ℝ) := mul_lt_mul_of_pos_left hab' hpi
    linarith
  · intro raw
    simp only [arenaAngleToRadians_eq]
    push_cast
    ring

end AngleProofs

section VariantProofs

/-- C8: variant selection of `placeStaticObjects`. For a generator output `r` and `var ≥ 1`
(an `int`), the value printed into the filename is `r mod var` when that is not `0` and `var`
otherwise; it lies in `[1, var]`; and the `digits` lambda returns its decimal string. -/
theorem variant_selection (r : Nat) (var : Int) (h1 : 1 ≤ var) (h2 : var < 2 ^ 31) :
    variantValue r var = (if (r : Int) % var = 0 then var else (r : Int) % var) ∧
    1 ≤ variantValue r var ∧ variantValue r var ≤ var ∧
    ∀ random : ArenaRandom, random.next.1 = r →
      (digits random var).1 = to_string (variantValue r var) := by
  obtain ⟨m, rfl⟩ : ∃ m : Nat, var = (m : Int) := ⟨var.toNat, by omega⟩
  have hm1 : 1 ≤ m := by omega
  have hm2 : m < 2 ^ 31 := by omega
  have hconv : toUInt32 (m : Int) = m := by
    unfold toUInt32
    rw [Int.emod_eq_of_lt (by omega) (by omega), Int.toNat_ofNat]
  have hlt : r % m < m := Nat.mod_lt _ (by omega)
  have hto : toInt32 (r % m) = ((r % m : Nat) : Int) := by
    unfold toInt32
    have : r % m % 2 ^ 32 = r % m := Nat.mod_eq_of_lt (by omega)
    rw [this, if_pos (by omega)]
  have hval : variantValue r (m : Int) =
      (if (r : Int) % (m : Int) = 0 then (m : Int) else (r : Int) % (m : Int)) := by
    simp only [variantValue, hconv, hto, Int.natCast_mod]
  refine ⟨hval, ?_, ?_, ?_⟩
  · rw [hval]
    split_ifs with h0
    · exact h1
    · have := Int.emod_nonneg (r : Int) (show (m : Int) ≠ 0 by omega)
      omega
  · rw [hval]
    split_ifs with h0
    · exact le_refl _
    · have := Int.emod_lt_of_pos (r : Int) (show (0 : Int) < (m : Int) by omega)
      omega
  · intro random hr
    simp only [digits, hr]

/-- The example of the variant selection: with `var = 10` an output with `r mod 10 = 0`
gives the variant `10`. -/
theorem variant_selection_witness :
    variantValue 20 10 = 10 ∧
    variantValue 20 10 = (if ((20 : Nat) : Int) % 10 = 0 then 10 else ((20 : Nat) : Int) % 10) :=
  ⟨by decide, (variant_selection 20 10 (by decide) (by decide)).1⟩

end VariantProofs

section FrameTimeProofs

variable {α : Type} [LinearOrderedField α]

open AnimatedLandObject

end FrameTimeProofs

section DeterminismProofs

variable {α : Type} [LinearOrderedField α]

/-- The value the rejection loop returns does not depend on the fuel. -/
theorem drawStarValue_fuel (planets : List Bool) (fuel₁ : Nat) :
    ∀ (fuel₂ : Nat) (random : ArenaRandom) (v₁ v₂ : Int × ArenaRandom),
      drawStarValue planets fuel₁ random = .ok v₁ →
      drawStarValue planets fuel₂ random = .ok v₂ → v₁ = v₂ := by
  induction fuel₁ with
  | zero => intro fuel₂ random v₁ v₂ h₁; simp [drawStarValue] at h₁
  | succ fuel₁ ih =>
    intro fuel₂ random v₁ v₂ h₁ h₂
    cases fuel₂ with
    | zero => simp [drawStarValue] at h₂
    | succ fuel₂ =>
      rw [drawStarValue] at h₁ h₂
      generalize ((random.next.1 % 8 : Nat) : Int) = v at h₁ h₂
      by_cases h5 : v ≥ 5
      · rw [if_pos h5] at h₁ h₂
        cases hp : at? planets (toSizeT (v - 5)) with
        | error e => simp [hp] at h₁
        | ok used =>
          simp only [hp] at h₁ h₂
          cases used with
          | true =>
            simp only [if_true] at h₁ h₂
            exact ih fuel₂ _ _ _ h₁ h₂
          | false =>
            simp only [Bool.false_eq_true, if_false, Except.ok.injEq] at h₁ h₂
            rw [← h₁, ← h₂]
      · rw [if_neg h5] at h₁ h₂
        simp only [Except.ok.injEq] at h₁ h₂
        rw [← h₁, ← h₂]

/-- The star a returning iteration makes does not depend on the fuel. -/
theorem makeStar_fuel (fuel₁ fuel₂ : Nat) (planets : List Bool) (random : ArenaRandom)
    (s₁ s₂ : Star × List Bool × ArenaRandom)
    (h₁ : makeStar fuel₁ planets random = .ok s₁)
    (h₂ : makeStar fuel₂ planets random = .ok s₂) : s₁ = s₂ := by
  simp only [makeStar] at h₁ h₂
  split_ifs at h₁ h₂ with hsel
  · simp only [Except.ok.injEq] at h₁ h₂
    rw [← h₁, ← h₂]
  · cases hd₁ : drawStarValue planets fuel₁
      (getRndCoord (getRndCoord (getRndCoord random).2).2).2.next.2 with
    | error e => simp [hd₁] at h₁
    | ok v₁ =>
      cases hd₂ : drawStarValue planets fuel₂
        (getRndCoord (getRndCoord (getRndCoord random).2).2).2.next.2 with
      | error e => simp [hd₂] at h₂
      | ok v₂ =>
        have hv := drawStarValue_fuel planets fuel₁ fuel₂ _ v₁ v₂ hd₁ hd₂
        subst hv
        simp only [hd₁] at h₁
        simp only [hd₂] at h₂
        rw [h₁] at h₂
        exact Except.ok.inj h₂

/-- The stars a returning star loop makes do not depend on the fuel. -/
theorem makeStarsLoop_fuel (fuel₁ fuel₂ : Nat) :
    ∀ (remaining : Nat) (stars : List Star) (planets : List Bool) (random : ArenaRandom)
      (r₁ r₂ : List Star × List Bool × ArenaRandom),
      makeStarsLoop fuel₁ remaining stars planets random = .ok r₁ →
      makeStarsLoop fuel₂ remaining stars planets random = .ok r₂ → r₁ = r₂ := by
  intro remaining
  induction remaining with
  | zero =>
    intro stars planets random r₁ r₂ h₁ h₂
    simp only [makeStarsLoop, Except.ok.injEq] at h₁ h₂
    rw [← h₁, ← h₂]
  | succ remaining ih =>
    intro stars planets random r₁ r₂ h₁ h₂
    simp only [makeStarsLoop] at h₁ h₂
    cases hm₁ : makeStar fuel₁ planets random with
    | error e => simp [hm₁] at h₁
    | ok s₁ =>
      cases hm₂ : makeStar fuel₂ planets random with
      | error e => simp [hm₂] at h₂
      | ok s₂ =>
        have hs := makeStar_fuel fuel₁ fuel₂ planets random s₁ s₂ hm₁ hm₂
        subst hs
        simp only [hm₁] at h₁
        simp only [hm₂] at h₂
        exact ih _ _ _ r₁ r₂ h₁ h₂

/-- The star list of a returning star generation does not depend on the fuel. -/
theorem makeStars_fuel (fuel₁ fuel₂ : Nat) (random : ArenaRandom) (stars₁ stars₂ : List Star)
    (h₁ : makeStars fuel₁ random = .ok stars₁) (h₂ : makeStars fuel₂ random = .ok stars₂) :
    stars₁ = stars₂ := by
  simp only [makeStars] at h₁ h₂
  cases hl₁ : makeStarsLoop fuel₁ 40 [] [false, false, false] (random.srand 0x12345679) with
  | error e => simp [hl₁] at h₁
  | ok r₁ =>
    cases hl₂ : makeStarsLoop fuel₂ 40 [] [false, false, false] (random.srand 0x12345679) with
    | error e => simp [hl₂] at h₂
    | ok r₂ =>
      have hr := makeStarsLoop_fuel fuel₁ fuel₂ 40 _ _ _ r₁ r₂ hl₁ hl₂
      subst hr
      simp only [hl₁, Except.ok.injEq] at h₁
      simp only [hl₂, Except.ok.injEq] at h₂
      rw [← h₁, ← h₂]

/-- The catalog of a returning `init` does not depend on the fuel: two runs of `init` with
the same services and arguments that both return, each with its own amount of fuel for the
rejection loop, return the same catalog. -/
theorem init_fuel_independent (env : InitEnv α) (fuel₁ fuel₂ : Nat) (localCityID provinceID : Int)
    (weatherType : WeatherType) (currentDay : Int) (sky₁ sky₂ : DistantSky α)
    (h₁ : init env fuel₁ localCityID provinceID weatherType currentDay DistantSky.construct
      = .ok sky₁)
    (h₂ : init env fuel₂ localCityID provinceID weatherType currentDay DistantSky.construct
      = .ok sky₂) :
    sky₁ = sky₂ := by
  simp only [init] at h₁ h₂
  cases hc : climateParameters env (env.getCityClimateType localCityID provinceID) with
  | error e => simp [hc] at h₁
  | ok params =>
    simp only [hc] at h₁ h₂
    split at h₁
    · exact absurd h₁ (by simp)
    · rename_i sr1 hp1
      simp only [hp1] at h₂
      split at h₁
      · exact absurd h₁ (by simp)
      · rename_i sr2 hp2
        simp only [hp2] at h₂
        split at h₁
        · exact absurd h₁ (by simp)
        · rename_i sky3 hp3
          simp only [hp3] at h₂
          split at h₁
          · exact absurd h₁ (by simp)
          · rename_i sky4 hp4
            simp only [hp4] at h₂
            cases hs₁ : makeStars fuel₁ sr2.2 with
            | error e => simp [hs₁] at h₁
            | ok stars₁ =>
              cases hs₂ : makeStars fuel₂ sr2.2 with
              | error e => simp [hs₂] at h₂
              | ok stars₂ =>
                have hst := makeStars_fuel fuel₁ fuel₂ _ stars₁ stars₂ hs₁ hs₂
                subst hst
                simp only [hs₁] at h₁
                simp only [hs₂] at h₂
                rw [h₁] at h₂
                exact Except.ok.inj h₂

end DeterminismProofs

section CountProofs

variable {α : Type} [LinearOrderedField α]

/-- One returning iteration of `placeStaticObjects` adds one land object (`randomHeight`
false) or one air object (`randomHeight` true) and leaves the other collections alone. -/
theorem placeStaticObject_effect (env : InitEnv α) (baseFilename : List Char)
    (pos var maxDigits : Int) (randomHeight : Bool) (sky : DistantSky α) (random : ArenaRandom)
    (sr : DistantSky α × ArenaRandom)
    (h : placeStaticObject env baseFilename pos var maxDigits randomHeight sky random = .ok sr) :
    sr.1.landObjects.length = sky.landObjects.length + (if randomHeight then 0 else 1) ∧
    sr.1.airObjects.length = sky.airObjects.length + (if randomHeight then 1 else 0) ∧
    sr.1.animLandObjects = sky.animLandObjects ∧ sr.1.moonObjects = sky.moonObjects := by
  unfold placeStaticObject at h
  simp only [] at h
  by_cases hassert : (digits random var).1.length ≤ toSizeT maxDigits
  · rw [if_pos hassert] at h
    cases hf : filename baseFilename pos maxDigits (digits random var).1 with
    | error e => simp [hf] at h
    | ok name =>
      simp only [hf] at h
      cases hs : env.getSurface name with
      | none => simp [hs] at h
      | some surface =>
        simp only [hs] at h
        cases randomHeight with
        | true =>
          simp only [Bool.not_true, Bool.false_eq_true, if_false, Except.ok.injEq] at h
          subst h
          simp
        | false =>
          simp only [Bool.not_false, if_true, Except.ok.injEq] at h
          subst h
          simp
  · rw [if_neg hassert] at h
    exact absurd h (by simp)

/-- A returning loop of `placeStaticObjects` adds `remaining` land objects or `remaining`
air objects and leaves the other collections alone. -/
theorem placeStaticObjectsLoop_effect (env : InitEnv α) (baseFilename : List Char)
    (pos var maxDigits : Int) (randomHeight : Bool) :
    ∀ (remaining : Nat) (sky : DistantSky α) (random : ArenaRandom)
      (sr : DistantSky α × ArenaRandom),
      placeStaticObjectsLoop env baseFilename pos var maxDigits randomHeight remaining sky random
        = .ok sr →
      sr.1.landObjects.length =
        sky.landObjects.length + (if randomHeight then 0 else remaining) ∧
      sr.1.airObjects.length =
        sky.airObjects.length + (if randomHeight then remaining else 0) ∧
      sr.1.animLandObjects = sky.animLandObjects ∧ sr.1.moonObjects = sky.moonObjects := by
  intro remaining
  induction remaining with
  | zero =>
    intro sky random sr h
    simp only [placeStaticObjectsLoop, Except.ok.injEq] at h
    subst h
    simp
  | succ remaining ih =>
    intro sky random sr h
    simp only [placeStaticObjectsLoop] at h
    cases hp : placeStaticObject env baseFilename pos var maxDigits randomHeight sky random with
    | error e => simp [hp] at h
    | ok sr1 =>
      simp only [hp] at h
      obtain ⟨a1, a2, a3, a4⟩ := placeStaticObject_effect env _ _ _ _ _ _ _ sr1 hp
      obtain ⟨b1, b2, b3, b4⟩ := ih _ _ sr h
      refine ⟨?_, ?_, b3.trans a3, b4.trans a4⟩
      · rw [b1, a1]; cases randomHeight
        · simp; omega
        · simp
      · rw [b2, a2]; cases randomHeight
        · simp
        · simp; omega

/-- A returning cloud phase adds seven air objects in clear weather and nothing otherwise. -/
theorem placeClouds_effect (env : InitEnv α) (weatherType : WeatherType) (currentDay : Int)
    (sky : DistantSky α) (random : ArenaRandom) (sr : DistantSky α × ArenaRandom)
    (h : placeClouds env weatherType currentDay sky random = .ok sr) :
    sr.1.landObjects.length = sky.landObjects.length ∧
    sr.1.airObjects.length =
      sky.airObjects.length + (if weatherType = WeatherType.Clear then 7 else 0) ∧
    sr.1.animLandObjects = sky.animLandObjects ∧ sr.1.moonObjects = sky.moonObjects := by
  simp only [placeClouds, decide_eq_true_eq] at h
  split_ifs at h with hclear
  · obtain ⟨a1, a2, a3, a4⟩ := placeStaticObjectsLoop_effect env _ _ _ _ _ _ _ _ sr h
    refine ⟨by simpa using a1, ?_, a3, a4⟩
    rw [a2]
    simp [hclear]
  · simp only [Except.ok.injEq] at h
    subst h
    simp [hclear]

/-- A returning animated land phase adds one animated land object in province 3 and
nothing otherwise. -/
theorem placeAnimLand_effect (env : InitEnv α) (localCityID provinceID : Int)
    (sky sky' : DistantSky α) (h : placeAnimLand env localCityID provinceID sky = .ok sky') :
    sky'.landObjects = sky.landObjects ∧ sky'.airObjects = sky.airObjects ∧
    sky'.animLandObjects.length =
      sky.animLandObjects.length + (if provinceID = 3 then 1 else 0) ∧
    sky'.moonObjects = sky.moonObjects := by
  simp only [placeAnimLand, decide_eq_true_eq] at h
  by_cases hprov : provinceID = 3
  · rw [if_pos hprov] at h
    split at h
    · exact absurd h (by simp)
    · split_ifs at h
      all_goals
        split at h
        · exact absurd h (by simp)
        · simp only [Except.ok.injEq] at h
          subst h
          simp [hprov]
  · rw [if_neg hprov] at h
    simp only [Except.ok.injEq] at h
    subst h
    simp [hprov]

/-- A returning star conversion only touches the star collection. -/
theorem convertStars_effect (env : InitEnv α) :
    ∀ (stars : List Star) (sky sky' : DistantSky α),
      convertStars env stars sky = .ok sky' →
      sky'.landObjects = sky.landObjects ∧ sky'.airObjects = sky.airObjects ∧
      sky'.animLandObjects = sky.animLandObjects ∧ sky'.moonObjects = sky.moonObjects := by
  intro stars
  induction stars with
  | nil =>
    intro sky sky' h
    simp only [convertStars, Except.ok.injEq] at h
    subst h
    exact ⟨rfl, rfl, rfl, rfl⟩
  | cons star rest ih =>
    intro sky sky' h
    simp only [convertStars] at h
    cases hc : convertStar env star sky with
    | error e => simp [hc] at h
    | ok sky1 =>
      simp only [hc] at h
      obtain ⟨b1, b2, b3, b4⟩ := ih _ _ h
      have hstar : sky1.landObjects = sky.landObjects ∧ sky1.airObjects = sky.airObjects ∧
          sky1.animLandObjects = sky.animLandObjects ∧ sky1.moonObjects = sky.moonObjects := by
        simp only [convertStar, decide_eq_true_eq] at hc
        split_ifs at hc with hsmall
        · exact convertSubStars_effect env _ _ _ _ hc
        · split at hc
          · exact absurd hc (by simp)
          · split at hc
            · exact absurd hc (by simp)
            · simp only [Except.ok.injEq] at hc
              subst hc
              exact ⟨rfl, rfl, rfl, rfl⟩
      exact ⟨b1.trans hstar.1, b2.trans hstar.2.1, b3.trans hstar.2.2.1, b4.trans hstar.2.2.2⟩

/-- C9: catalog counts after a returning `init` on a freshly constructed `DistantSky`. The
land object count is `(r₀ mod 4) + 2` for the first generator output `r₀`, so it lies in
`[2, 5]`; the air object count is `7` in clear weather and `0` otherwise; the animated land
object count is `1` for province `3` and `0` otherwise; and there are exactly two moons,
of type `First` then `Second`. -/
theorem init_counts (env : InitEnv α) (fuel : Nat) (localCityID provinceID : Int)
    (weatherType : WeatherType) (currentDay : Int) (sky : DistantSky α)
    (h : init env fuel localCityID provinceID weatherType currentDay DistantSky.construct
      = .ok sky) :
    sky.getLandObjectCount =
      ((({ recurrence := env.recurrence
           seed := env.getDistantSkySeed localCityID provinceID % 2 ^ 32 } :
          ArenaRandom).next.1 % 4 + 2 : Nat) : Int) ∧
    2 ≤ sky.getLandObjectCount ∧ sky.getLandObjectCount ≤ 5 ∧
    sky.getAirObjectCount = (if weatherType = WeatherType.Clear then 7 else 0) ∧
    sky.getAnimatedLandObjectCount = (if provinceID = 3 then 1 else 0) ∧
    sky.getMoonObjectCount = 2 ∧
    sky.moonObjects.map MoonObject.type = [MoonObjectType.First, MoonObjectType.Second] := by
  simp only [init] at h
  split at h
  · exact absurd h (by simp)
  · rename_i params hparams
    split at h
    · exact absurd h (by simp)
    · rename_i sr1 hp1
      split at h
      · exact absurd h (by simp)
      · rename_i sr2 hp2
        split at h
        · exact absurd h (by simp)
        · rename_i sky3 hp3
          split at h
          · exact absurd h (by simp)
          · rename_i sky4 hp4
            split at h
            · exact absurd h (by simp)
            · rename_i stars hstars
              split at h
              · exact absurd h (by simp)
              · rename_i sky5 hp5
                obtain ⟨a1, a2, a3, a4⟩ := placeStaticObjectsLoop_effect env _ _ _ _ _ _ _ _ sr1 hp1
                obtain ⟨b1, b2, b3, b4⟩ := placeClouds_effect env _ _ _ _ sr2 hp2
                obtain ⟨c1, c2, c3, c4⟩ := placeAnimLand_effect env _ _ _ sky3 hp3
                obtain ⟨d1, d2, d3, first, second, hfirst, hsecond, d4⟩ :=
                  placeMoons_effect env _ _ sky4 hp4
                obtain ⟨e1, e2, e3, e4⟩ := convertStars_effect env _ _ sky5 hp5
                have hsun : sky.landObjects = sky5.landObjects ∧
                    sky.airObjects = sky5.airObjects ∧
                    sky.animLandObjects = sky5.animLandObjects ∧
                    sky.moonObjects = sky5.moonObjects := by
                  simp only [placeSun] at h
                  split at h
                  · exact absurd h (by simp)
                  · simp only [Except.ok.injEq] at h
                    subst h
                    exact ⟨rfl, rfl, rfl, rfl⟩
                obtain ⟨f1, f2, f3, f4⟩ := hsun
                have hmod : ({ recurrence := env.recurrence
                               seed := env.getDistantSkySeed localCityID provinceID % 2 ^ 32 } :
                    ArenaRandom).next.1 % 4 < 4 := Nat.mod_lt _ (by decide)
                generalize ({ recurrence := env.recurrence
                              seed := env.getDistantSkySeed localCityID provinceID % 2 ^ 32 } :
                    ArenaRandom).next.1 % 4 = m at a1 a2 hmod ⊢
                have hcount : (toInt32 ((m + 2) % 2 ^ 32)).toNat = m + 2 := by
                  unfold toInt32
                  have hm : (m + 2) % 2 ^ 32 % 2 ^ 32 = m + 2 := by omega
                  rw [hm, if_pos (by omega), Int.toNat_ofNat]
                rw [hcount] at a1 a2
                have hland : sky.landObjects.length = m + 2 := by
                  rw [f1, e1, d1, c1, b1, a1]
                  simp [DistantSky.construct]
                have hair : sky.airObjects.length =
                    (if weatherType = WeatherType.Clear then 7 else 0) := by
                  rw [f2, e2, d2, c2, b2, a2]
                  simp [DistantSky.construct]
                have hanim : sky.animLandObjects.length = (if provinceID = 3 then 1 else 0) := by
                  rw [f3, e3, d3, c3, b3, a3]
                  simp [DistantSky.construct]
                have hmoon : sky.moonObjects = [first, second] := by
                  rw [f4, e4, d4, c4, b4, a4]
                  simp [DistantSky.construct]
                have ht1 := (makeMoon_ok env currentDay .First first hfirst).1
                have ht2 := (makeMoon_ok env currentDay .Second second hsecond).1
                refine ⟨?_, ?_, ?_, ?_, ?_, ?_, ?_⟩
                · simp only [DistantSky.getLandObjectCount, hland]
                · simp only [DistantSky.getLandObjectCount, hland]; omega
                · simp only [DistantSky.getLandObjectCount, hland]; omega
                · simp only [DistantSky.getAirObjectCount, hair]; split_ifs <;> rfl
                · simp only [DistantSky.getAnimatedLandObjectCount, hanim]; split_ifs <;> rfl
                · simp only [DistantSky.getMoonObjectCount, hmoon]; rfl
                · simp only [hmoon, List.map_cons, List.map_nil, ht1, ht2]

/-- A returning `init` on the example environment: clear weather in province `3`, where the
first generator output gives two land objects. -/
theorem init_counts_witness :
    ∃ sky : DistantSky ℚ,
      init exampleEnv 10 5 3 .Clear 10 DistantSky.construct = .ok sky ∧
      sky.getLandObjectCount = 2 ∧ sky.getAirObjectCount = 7 ∧
      sky.getAnimatedLandObjectCount = 1 ∧ sky.getMoonObjectCount = 2 ∧
      sky.moonObjects.map MoonObject.type = [MoonObjectType.First, MoonObjectType.Second] := by
  have hok : ∃ sky, init exampleEnv 10 5 3 .Clear 10 DistantSky.construct = .ok sky := by
    cases hm : init exampleEnv 10 5 3 .Clear 10 DistantSky.construct with
    | ok sky => exact ⟨sky, rfl⟩
    | error e =>
      have hb : (init exampleEnv 10 5 3 .Clear 10 DistantSky.construct).toBool = true := rfl
      rw [hm] at hb
      exact absurd hb (by simp [Except.toBool])
  obtain ⟨sky, hs⟩ := hok
  obtain ⟨h1, _, _, h4, h5, h6, h7⟩ := init_counts exampleEnv 10 5 3 .Clear 10 sky hs
  refine ⟨sky, hs, ?_, ?_, ?_, h6, h7⟩
  · rw [h1]; rfl
  · rw [h4]; rfl
  · rw [h5]; rfl

end CountProofs

section FrameIndexProofs

variable {α : Type} [LinearOrderedField α]

open AnimatedLandObject

/-- A returning loop of `update` keeps the frames, and keeps an index inside `[0, n)`
inside `[0, n)`. -/
theorem updateLoop_index (n : Int) (fuel : Nat) :
    ∀ (obj obj' : AnimatedLandObject α), updateLoop n fuel obj = some obj' →
      obj'.surfaces = obj.surfaces ∧
      (0 ≤ obj.index ∧ obj.index < n → 0 ≤ obj'.index ∧ obj'.index < n) := by
  induction fuel with
  | zero => intro obj obj' h; simp [updateLoop] at h
  | succ fuel ih =>
    intro obj obj' h
    rw [updateLoop] at h
    by_cases hge : obj.currentFrameTime ≥ obj.targetFrameTime
    · rw [if_pos hge] at h
      obtain ⟨h1, h2⟩ := ih _ _ h
      refine ⟨h1, fun hr => h2 ?_⟩
      show 0 ≤ (if obj.index < n - 1 then obj.index + 1 else 0) ∧
        (if obj.index < n - 1 then obj.index + 1 else 0) < n
      split_ifs with hlt
      · omega
      · omega
    · rw [if_neg hge] at h
      obtain rfl := Option.some.inj h
      exact ⟨rfl, id⟩

/-- The index of an object reached with in-range `setIndex` calls is `0` or the index of
one of its frames. -/
theorem reachableInRange_invariant (obj : AnimatedLandObject α) (hr : obj.ReachableInRange) :
    obj.index = 0 ∨ (0 ≤ obj.index ∧ obj.index < obj.getSurfaceCount) := by
  induction hr with
  | construct angleRadians frameTime => exact Or.inl rfl
  | constructDefault angleRadians => exact Or.inl rfl
  | addSurface obj surface _ ih =>
    rcases ih with h | h
    · exact Or.inl h
    · refine Or.inr ⟨h.1, ?_⟩
      have := h.2
      simp only [getSurfaceCount, AnimatedLandObject.addSurface, List.length_append,
        List.length_singleton] at this ⊢
      omega
  | setFrameTime obj frameTime _ ih => exact ih
  | setIndex obj index h0 h1 _ _ => exact Or.inr ⟨h0, h1⟩
  | update obj obj' fuel dt _ hu ih =>
    simp only [AnimatedLandObject.update] at hu
    by_cases hcount : obj.getSurfaceCount > 0
    · rw [if_pos hcount] at hu
      obtain ⟨hs, hidx⟩ := updateLoop_index _ fuel _ _ hu
      have hin : 0 ≤ obj.index ∧ obj.index < obj.getSurfaceCount := by
        rcases ih with h | h
        · rw [h]; exact ⟨le_refl _, hcount⟩
        · exact h
      have hcount' : obj'.getSurfaceCount = obj.getSurfaceCount := by
        simp only [getSurfaceCount, hs]
      rw [hcount']
      exact Or.inr (hidx hin)
    · rw [if_neg hcount] at hu
      obtain rfl := Option.some.inj hu
      exact ih

/-- C11, as the code has it: frame-index invariant of `AnimatedLandObject`. For an object
with at least one frame, reached from a constructor by `addSurface`, `setFrameTime`,
`update` and by `setIndex` called with the index of an existing frame, the current index
satisfies `0 ≤ index < getSurfaceCount()`. -/
theorem frame_index_invariant (obj : AnimatedLandObject α) (hr : obj.ReachableInRange)
    (hframes : 1 ≤ obj.getSurfaceCount) :
    0 ≤ obj.index ∧ obj.index < obj.getSurfaceCount := by
  rcases reachableInRange_invariant obj hr with h | h
  · rw [h]; omega
  · exact h

/-- An object for the index invariant: two frames, the index set to `1`. -/
theorem frame_index_invariant_witness :
    0 ≤ ((((AnimatedLandObject.construct (0 : ℚ) (1 / 10)).addSurface ⟨0⟩).addSurface
        ⟨1⟩).setIndex 1).index ∧
    ((((AnimatedLandObject.construct (0 : ℚ) (1 / 10)).addSurface ⟨0⟩).addSurface
        ⟨1⟩).setIndex 1).index <
      ((((AnimatedLandObject.construct (0 : ℚ) (1 / 10)).addSurface ⟨0⟩).addSurface
        ⟨1⟩).setIndex 1).getSurfaceCount :=
  frame_index_invariant _
    (ReachableInRange.setIndex _ 1 (by decide) (by decide)
      (ReachableInRange.addSurface _ ⟨1⟩
        (ReachableInRange.addSurface _ ⟨0⟩ (ReachableInRange.construct 0 (1 / 10)))))
    (by decide)

/-- C11 as stated fails: `setIndex` stores any `int`, so an object with one frame whose index
was set to `5` is reachable by the public operations and its index is not below its frame
count. -/
theorem frame_index_invariant_fails :
    ∃ obj : AnimatedLandObject ℚ, obj.Reachable ∧ 1 ≤ obj.getSurfaceCount ∧
      ¬ (0 ≤ obj.index ∧ obj.index < obj.getSurfaceCount) :=
  ⟨((AnimatedLandObject.construct (0 : ℚ) (1 / 10)).addSurface ⟨0⟩).setIndex 5,
    Reachable.setIndex _ 5
      (Reachable.addSurface _ ⟨0⟩ (Reachable.construct 0 (1 / 10) (by norm_num))),
    by decide, by decide⟩

end FrameIndexProofs

section CoordProofs

/-- Masking with `0x0FFF` after the 32-bit addition of `0x800` is the remainder modulo
`4096`. -/
theorem coord_mask (r : Nat) : ((0x800 + r) % 2 ^ 32) &&& 0x0FFF = (r + 2048) % 4096 := by
  have h := Nat.and_pow_two_sub_one_eq_mod ((0x800 + r) % 2 ^ 32) 12
  have h12 : (2 : Nat) ^ 12 - 1 = 0x0FFF := by norm_num
  rw [h12] at h
  rw [h]
  omega

/-- The test `(d & 2) == 0` holds exactly when `d mod 4` is `0` or `1`. -/
theorem and_two_eq_zero (d : Nat) : d &&& 2 = 0 ↔ d % 4 < 2 := by
  have h := Nat.and_two_pow d 1
  rw [Nat.testBit_to_div_mod] at h
  norm_num at h
  rw [h]
  by_cases hb : d / 2 % 2 = 1
  · simp [hb]; omega
  · simp [hb]; omega

/-- The coordinate `getRndCoord` returns, in terms of remainders: with
`d = (r + 2048) mod 4096`, it is `d` when `d mod 4` is `0` or `1`, and `-d` otherwise. -/
theorem getRndCoord_value (random : ArenaRandom) :
    (getRndCoord random).1 =
      if (random.next.1 + 2048) % 4096 % 4 < 2
      then (((random.next.1 + 2048) % 4096 : Nat) : Int)
      else -(((random.next.1 + 2048) % 4096 : Nat) : Int) := by
  simp only [getRndCoord, coord_mask, and_two_eq_zero]

/-- C13, as the code has it: sign rule of `getRndCoord`. For a generator output `r`, with
`d = (0x800 + r) & 0xFFF` (the remainder of `r + 2048` modulo `4096`), the returned
coordinate is `d` when `(d & 2) == 0` and `-d` otherwise; it lies in `[-4095, 4095]`. -/
theorem getRndCoord_sign (random : ArenaRandom) :
    ((0x800 + random.next.1) % 2 ^ 32) &&& 0x0FFF = (random.next.1 + 2048) % 4096 ∧
    ((getRndCoord random).1 =
      if (((0x800 + random.next.1) % 2 ^ 32) &&& 0x0FFF) &&& 2 = 0
      then (((((0x800 + random.next.1) % 2 ^ 32) &&& 0x0FFF : Nat)) : Int)
      else -(((((0x800 + random.next.1) % 2 ^ 32) &&& 0x0FFF : Nat)) : Int)) ∧
    ((getRndCoord random).1 =
      if (random.next.1 + 2048) % 4096 % 4 < 2
      then (((random.next.1 + 2048) % 4096 : Nat) : Int)
      else -(((random.next.1 + 2048) % 4096 : Nat) : Int)) ∧
    -4095 ≤ (getRndCoord random).1 ∧ (getRndCoord random).1 ≤ 4095 := by
  have hmask := coord_mask random.next.1
  have hval := getRndCoord_value random
  refine ⟨hmask, rfl, hval, ?_, ?_⟩
  · rw [hval]; split_ifs <;> omega
  · rw [hval]; split_ifs <;> omega

/-- C13 as stated fails: for the output `0`, `d = 0x800` has `(d & 2) == 0` and the returned
coordinate is `d = 2048`, not `-d`. -/
theorem getRndCoord_sign_fails :
    (((0x800 + (constantRandom 0).next.1) % 2 ^ 32) &&& 0x0FFF) &&& 2 = 0 ∧
    (getRndCoord (constantRandom 0)).1 = 2048 ∧
    (getRndCoord (constantRandom 0)).1 ≠
      -(((((0x800 + (constantRandom 0).next.1) % 2 ^ 32) &&& 0x0FFF : Nat)) : Int) := by
  decide

end CoordProofs

section AnimIndexProofs

/-- C20: distance bucketing for animated land. The animation index is `0` exactly for
`dist < 80`, `1` exactly for `80 ≤ dist < 150` and `2` exactly for `dist ≥ 150`; it is
always `0`, `1` or `2`, a valid index into three filename templates; and it is
non-decreasing in `dist`. -/
theorem animIndex_buckets :
    (∀ dist : Int,
      (animIndex dist = 0 ↔ dist < 80) ∧
      (animIndex dist = 1 ↔ 80 ≤ dist ∧ dist < 150) ∧
      (animIndex dist = 2 ↔ 150 ≤ dist) ∧
      (animIndex dist = 0 ∨ animIndex dist = 1 ∨ animIndex dist = 2) ∧
      toSizeT (animIndex dist) < 3) ∧
    Monotone animIndex := by
  constructor
  · intro dist
    unfold animIndex
    split_ifs with h1 h2
    · refine ⟨by simp [h1], by simp; omega, by simp; omega, by simp, by decide⟩
    · refine ⟨by simp; omega, by simp; omega, by simp; omega, by simp, by decide⟩
    · refine ⟨by simp; omega, by simp; omega, by simp; omega, by simp, by decide⟩
  · intro a b hab
    unfold animIndex
    split_ifs <;> omega

end AnimIndexProofs

section MoonRangeProofs

/-- The conversion to `size_t` of an `int` in `[0, 32)` is the value itself. -/
theorem toSizeT_small (v : Int) (h0 : 0 ≤ v) (h1 : v < 32) : toSizeT v = v.toNat := by
  unfold toSizeT
  rw [Int.emod_eq_of_lt h0 (by omega)]

/-- The truncating remainder modulo `32` lies strictly between `-32` and `32`. -/
theorem tmod_bounds (v : Int) : -32 < Int.tmod v 32 ∧ Int.tmod v 32 < 32 := by
  rcases v with n | n
  · have : Int.tmod (Int.ofNat n) 32 = ((n % 32 : Nat) : Int) := rfl
    rw [this]; omega
  · have : Int.tmod (Int.negSucc n) 32 = -(((n + 1) % 32 : Nat) : Int) := rfl
    rw [this]; omega

/-- C19, as the code has it: moon phase range. For a day with `0 ≤ currentDay` and
`currentDay + 14` inside the range of `int`, the phase index of either moon is computed and
lies in `[0, 32)`; the lookup `surfaces.at(phaseIndex)` into a 32-frame set returns the frame
at that index; `makeMoon` returns the moon with that frame when the image set of the moon
has 32 frames; and the value `phaseIndex / 32` lies in `[0, 1)`. -/
theorem moon_phase_range {α : Type} (currentDay : Int) (h : 0 ≤ currentDay)
    (hmax : currentDay + 14 < 2 ^ 31) (type : MoonObjectType) :
    ∃ index : Int, phaseIndex currentDay type = .ok index ∧
      (0 ≤ index ∧ index < 32) ∧
      (∀ surfaces : List Surface, surfaces.length = 32 →
        ∃ surface, at? surfaces (toSizeT index) = .ok surface ∧
          surfaces[index.toNat]? = some surface) ∧
      (∀ (env : InitEnv α) (moonTemplate : List Char) (surfaces : List Surface),
        env.moonFilenames[toSizeT type.toInt]? = some moonTemplate →
        env.getSurfaces (String.toUppercase moonTemplate) = some surfaces →
        surfaces.length = 32 →
        ∃ surface, makeMoon env currentDay type = .ok ⟨surface, type⟩ ∧
          surfaces[index.toNat]? = some surface) ∧
      (0 ≤ (index : ℚ) / 32 ∧ (index : ℚ) / 32 < 1) := by
  have hidx : ∃ index : Int, phaseIndex currentDay type = .ok index ∧ 0 ≤ index ∧ index < 32 := by
    obtain ⟨h1, h2⟩ := phaseIndex_nonneg currentDay h hmax
    cases type
    · exact ⟨currentDay % 32, h1, by omega, by omega⟩
    · exact ⟨(currentDay + 14) % 32, h2, by omega, by omega⟩
  obtain ⟨index, hphase, h0, h32⟩ := hidx
  have hat : ∀ surfaces : List Surface, surfaces.length = 32 →
      ∃ surface, at? surfaces (toSizeT index) = .ok surface ∧
        surfaces[index.toNat]? = some surface := by
    intro surfaces hlen
    rw [toSizeT_small _ h0 h32]
    have hlt : index.toNat < surfaces.length := by omega
    exact ⟨surfaces[index.toNat], by simp [at?, List.getElem?_eq_getElem hlt],
      List.getElem?_eq_getElem hlt⟩
  refine ⟨index, hphase, ⟨h0, h32⟩, hat, ?_, ?_⟩
  · intro env moonTemplate surfaces hname hset hlen
    obtain ⟨surface, hsurface, hframe⟩ := hat surfaces hlen
    refine ⟨surface, ?_, hframe⟩
    simp only [makeMoon, hphase, at?, List.get?_eq_getElem?, hname, hset]
    simp only [at?, List.get?_eq_getElem?] at hsurface
    cases hget : surfaces[toSizeT index]? with
    | none => simp [hget] at hsurface
    | some found =>
      simp only [hget, Except.ok.injEq] at hsurface
      subst hsurface
      rfl
  · have hq0 : (0 : ℚ) ≤ (index : ℚ) := by exact_mod_cast h0
    have hq1 : (index : ℚ) < 32 := by exact_mod_cast h32
    constructor
    · positivity
    · rw [div_lt_one (by norm_num)]; exact hq1

/-- The moon phase range at day `50` on the example environment, whose image sets have 32
frames: the indices `18` and `0`, and `makeMoon` returns both moons. -/
theorem moon_phase_range_witness :
    (∃ index : Int, phaseIndex 50 .First = .ok index ∧ (0 ≤ index ∧ index < 32)) ∧
    (∃ index : Int, phaseIndex 50 .Second = .ok index ∧ (0 ≤ index ∧ index < 32)) ∧
    (∃ surface, makeMoon exampleEnv 50 .Second = .ok ⟨surface, .Second⟩) := by
  obtain ⟨i1, a1, b1, _, _, _⟩ :=
    moon_phase_range (α := ℚ) 50 (by decide) (by decide) .First
  obtain ⟨i2, a2, b2, _, c2, _⟩ :=
    moon_phase_range (α := ℚ) 50 (by decide) (by decide) .Second
  obtain ⟨surface, hmoon, _⟩ := c2 exampleEnv "moon2.dfa".toList
    ((List.range 32).map (fun i => ⟨100 * 9 + i⟩)) rfl rfl rfl
  exact ⟨⟨i1, a1, b1⟩, ⟨i2, a2, b2⟩, ⟨surface, hmoon⟩⟩

/-- C19 as stated fails: for `currentDay = -1` the truncating `%` gives the phase index `-1`
for the moon `First`, outside `[0, 32)`, and `makeMoon` fails with `std::out_of_range` on a
32-frame set; for `currentDay = 2147483647`, the largest `int`, the sum `currentDay + 14`
of the moon `Second` overflows and no phase index is computed. -/
theorem moon_phase_range_fails :
    phaseIndex (-1) .First = .ok (-1) ∧
    ¬ (∃ index : Int, phaseIndex (-1) .First = .ok index ∧ 0 ≤ index ∧ index < 32) ∧
    makeMoon exampleEnv (-1) .First = .error .outOfRange ∧
    phaseIndex 2147483647 .Second = .error .signedOverflow ∧
    makeMoon exampleEnv 2147483647 .Second = .error .signedOverflow := by
  refine ⟨rfl, ?_, rfl, rfl, rfl⟩
  rintro ⟨index, hindex, h0, _⟩
  have h1 : phaseIndex (-1) .First = .ok (-1) := rfl
  rw [h1] at hindex
  have h2 : (-1 : Int) = index := Except.ok.inj hindex
  omega

end MoonRangeProofs

section StarFilenameProofs

variable {α : Type}

/-- What `find` returns for a character of the string: its first position. -/
theorem find_mem (c : Char) :
    ∀ l : List Char, c ∈ l →
      ∃ index, find l c = some index ∧ index < l.length ∧ l[index]? = some c ∧
        ∀ j, j < index → l[j]? ≠ some c := by
  intro l
  induction l with
  | nil => intro h; simp at h
  | cons d ds ih =>
    intro h
    by_cases hd : d = c
    · refine ⟨0, by simp [find, hd], by simp, by simp [hd], fun j hj => absurd hj (by omega)⟩
    · have hmem : c ∈ ds := by
        rcases List.mem_cons.mp h with h1 | h1
        · exact absurd h1.symm hd
        · exact h1
      obtain ⟨i, hf, hlt, hget, hfirst⟩ := ih hmem
      refine ⟨i + 1, by simp [find, hd, hf], by simp; omega, by simpa using hget, ?_⟩
      intro j hj
      cases j with
      | zero => simpa using hd
      | succ j => simpa using hfirst j (by omega)

/-- Writing at a position the character already there does not change the string. -/
theorem set_same (l : List Char) (index : Nat) (c : Char) (h : l[index]? = some c) :
    l.set index c = l := by
  apply List.ext_getElem?
  intro j
  by_cases hj : index = j
  · subst hj
    rw [List.getElem?_set_self (by
      rcases Nat.lt_or_ge index l.length with hl | hl
      · exact hl
      · rw [List.getElem?_eq_none hl] at h; cases h), h]
  · rw [List.getElem?_set_ne hj]

/-- The decimal string of a value from `1` to `8` is its single digit character. -/
theorem to_string_digit (v : Int) (h1 : 1 ≤ v) (h8 : v ≤ 8) :
    to_string v = [Nat.digitChar v.toNat] := by
  obtain ⟨n, rfl⟩ : ∃ n : Nat, v = (n : Int) := ⟨v.toNat, by omega⟩
  have hn1 : 1 ≤ n := by omega
  have hn8 : n ≤ 8 := by omega
  interval_cases n <;> rfl

/-- C15: large-star filename. For a star type `t` in `[0, 8)` and a star filename template
that contains the character `'1'`, the `starFilename` lambda returns a name of the length of
the template: the upper-cased template with its first `'1'` replaced by the single decimal
digit `t + 1`; for `t = 0` it is the upper-cased template itself. -/
theorem starFilename_spec (env : InitEnv α) (star : Star)
    (h0 : 0 ≤ star.type) (h8 : star.type < 8) (hmem : '1' ∈ env.starFilename) :
    ∃ index name,
      find env.starFilename '1' = some index ∧
      env.starFilename[index]? = some '1' ∧
      (∀ j, j < index → env.starFilename[j]? ≠ some '1') ∧
      starFilename env star = .ok name ∧
      name.length = env.starFilename.length ∧
      name = String.toUppercase
        (env.starFilename.set index (Nat.digitChar (star.type + 1).toNat)) ∧
      (star.type = 0 → name = String.toUppercase env.starFilename) := by
  obtain ⟨index, hf, hlt, hget, hfirst⟩ := find_mem '1' env.starFilename hmem
  have hstr := to_string_digit (star.type + 1) (by omega) (by omega)
  have hset : env.starFilename.take index ++ to_string (star.type + 1) ++
      env.starFilename.drop (index + 1) =
      env.starFilename.set index (Nat.digitChar (star.type + 1).toNat) := by
    rw [hstr, List.set_eq_take_append_cons_drop, if_pos hlt]
    simp
  refine ⟨index, _, hf, hget, hfirst, ?_, ?_, rfl, ?_⟩
  · simp only [starFilename, hf, hset]
  · simp [String.toUppercase]
  · intro ht
    have hd : Nat.digitChar (star.type + 1).toNat = '1' := by rw [ht]; rfl
    rw [hd, set_same env.starFilename index '1' hget]

/-- The large-star filename for the template `"star1.img"` and the star type `3`:
`"STAR4.IMG"`. -/
theorem starFilename_spec_witness :
    starFilename exampleEnv ⟨1, 2, 3, [], 3⟩ = .ok "STAR4.IMG".toList ∧
    ∃ index name,
      find exampleEnv.starFilename '1' = some index ∧
      starFilename exampleEnv ⟨1, 2, 3, [], 3⟩ = .ok name ∧
      name.length = exampleEnv.starFilename.length := by
  obtain ⟨index, name, hf, _, _, hs, hl, _, _⟩ :=
    starFilename_spec exampleEnv ⟨1, 2, 3, [], 3⟩ (by decide) (by decide) (by decide)
  exact ⟨rfl, index, name, hf, hs, hl⟩

end StarFilenameProofs

section DirectionProofs

/-- The coordinates of the star a returning iteration makes are the first three draws of
`getRndCoord`. -/
theorem makeStar_coords (fuel : Nat) (planets : List Bool) (random : ArenaRandom)
    (spr : Star × List Bool × ArenaRandom) (h : makeStar fuel planets random = .ok spr) :
    spr.1.x = (getRndCoord random).1 ∧
    spr.1.y = (getRndCoord (getRndCoord random).2).1 ∧
    spr.1.z = (getRndCoord (getRndCoord (getRndCoord random).2).2).1 := by
  simp only [makeStar] at h
  split_ifs at h with hsel
  · simp only [Except.ok.injEq] at h
    subst h
    exact ⟨rfl, rfl, rfl⟩
  · split at h
    · exact absurd h (by simp)
    · split_ifs at h
      all_goals
        simp only [Except.ok.injEq] at h
        subst h
        exact ⟨rfl, rfl, rfl⟩

/-- A coordinate is `0` exactly when the output drawn for it is `0x800` modulo `0x1000`. -/
theorem getRndCoord_eq_zero (random : ArenaRandom) :
    (getRndCoord random).1 = 0 ↔ random.next.1 % 4096 = 2048 := by
  rw [getRndCoord_value]
  split_ifs <;> omega

/-- Dividing a real vector with a non-zero component by its length gives a unit vector. -/
theorem normalized_unit (x y z : ℝ) (h : ¬ (x = 0 ∧ y = 0 ∧ z = 0)) :
    (Double3.normalized Real.sqrt ⟨x, y, z⟩).x * (Double3.normalized Real.sqrt ⟨x, y, z⟩).x +
    (Double3.normalized Real.sqrt ⟨x, y, z⟩).y * (Double3.normalized Real.sqrt ⟨x, y, z⟩).y +
    (Double3.normalized Real.sqrt ⟨x, y, z⟩).z * (Double3.normalized Real.sqrt ⟨x, y, z⟩).z
      = 1 := by
  have hpos : 0 < x * x + y * y + z * z := by
    by_contra hle
    have hx := mul_self_nonneg x
    have hy := mul_self_nonneg y
    have hz := mul_self_nonneg z
    have hx0 : x * x = 0 := by linarith
    have hy0 : y * y = 0 := by linarith
    have hz0 : z * z = 0 := by linarith
    exact h ⟨mul_self_eq_zero.mp hx0, mul_self_eq_zero.mp hy0, mul_self_eq_zero.mp hz0⟩
  have hs : Real.sqrt (x * x + y * y + z * z) * Real.sqrt (x * x + y * y + z * z)
      = x * x + y * y + z * z := Real.mul_self_sqrt hpos.le
  have hne : Real.sqrt (x * x + y * y + z * z) ≠ 0 := by
    intro h0
    rw [h0] at hs
    linarith
  simp only [Double3.normalized]
  have hsum : x / Real.sqrt (x * x + y * y + z * z) * (x / Real.sqrt (x * x + y * y + z * z)) +
      y / Real.sqrt (x * x + y * y + z * z) * (y / Real.sqrt (x * x + y * y + z * z)) +
      z / Real.sqrt (x * x + y * y + z * z) * (z / Real.sqrt (x * x + y * y + z * z)) =
      (x * x + y * y + z * z) /
        (Real.sqrt (x * x + y * y + z * z) * Real.sqrt (x * x + y * y + z * z)) := by
    rw [div_mul_div_comm, div_mul_div_comm, div_mul_div_comm, ← add_div, ← add_div]
  rw [hsum, hs, div_self hpos.ne']

/-- C18, as the code has it: star directions. For the star a returning iteration of the
star loop makes, a coordinate is `0` exactly when the generator output drawn for it is
`0x800` modulo `0x1000`; so the integer triple differs from `(0, 0, 0)`, and the
normalized direction is defined and has unit length, whenever one of the three outputs
drawn for the coordinates is not `0x800` modulo `0x1000`. -/
theorem star_direction_unit (fuel : Nat) (planets : List Bool) (random : ArenaRandom)
    (spr : Star × List Bool × ArenaRandom) (h : makeStar fuel planets random = .ok spr) :
    (spr.1.x = 0 ↔ random.next.1 % 4096 = 2048) ∧
    (spr.1.y = 0 ↔ random.next.2.next.1 % 4096 = 2048) ∧
    (spr.1.z = 0 ↔ random.next.2.next.2.next.1 % 4096 = 2048) ∧
    (¬ (random.next.1 % 4096 = 2048 ∧ random.next.2.next.1 % 4096 = 2048 ∧
        random.next.2.next.2.next.1 % 4096 = 2048) →
      ¬ (spr.1.x = 0 ∧ spr.1.y = 0 ∧ spr.1.z = 0) ∧
      (Double3.normalized Real.sqrt ⟨(spr.1.x : ℝ), (spr.1.y : ℝ), (spr.1.z : ℝ)⟩).x *
        (Double3.normalized Real.sqrt ⟨(spr.1.x : ℝ), (spr.1.y : ℝ), (spr.1.z : ℝ)⟩).x +
      (Double3.normalized Real.sqrt ⟨(spr.1.x : ℝ), (spr.1.y : ℝ), (spr.1.z : ℝ)⟩).y *
        (Double3.normalized Real.sqrt ⟨(spr.1.x : ℝ), (spr.1.y : ℝ), (spr.1.z : ℝ)⟩).y +
      (Double3.normalized Real.sqrt ⟨(spr.1.x : ℝ), (spr.1.y : ℝ), (spr.1.z : ℝ)⟩).z *
        (Double3.normalized Real.sqrt ⟨(spr.1.x : ℝ), (spr.1.y : ℝ), (spr.1.z : ℝ)⟩).z
        = 1) := by
  obtain ⟨hx, hy, hz⟩ := makeStar_coords fuel planets random spr h
  have ex : spr.1.x = 0 ↔ random.next.1 % 4096 = 2048 := by
    rw [hx]; exact getRndCoord_eq_zero random
  have ey : spr.1.y = 0 ↔ random.next.2.next.1 % 4096 = 2048 := by
    rw [hy]; exact getRndCoord_eq_zero random.next.2
  have ez : spr.1.z = 0 ↔ random.next.2.next.2.next.1 % 4096 = 2048 := by
    rw [hz]; exact getRndCoord_eq_zero random.next.2.next.2
  refine ⟨ex, ey, ez, fun hne => ?_⟩
  have hnz : ¬ (spr.1.x = 0 ∧ spr.1.y = 0 ∧ spr.1.z = 0) := by
    rw [ex, ey, ez]; exact hne
  refine ⟨hnz, normalized_unit _ _ _ ?_⟩
  intro h0
  apply hnz
  exact ⟨by exact_mod_cast h0.1, by exact_mod_cast h0.2.1, by exact_mod_cast h0.2.2⟩

/-- A star of the example generator: its first three outputs are not all `0x800` modulo
`0x1000`, and its direction has unit length. -/
theorem star_direction_unit_witness :
    ∃ spr, makeStar 10 [false, false, false] (exampleRandom 0x12345679) = .ok spr ∧
      ¬ (spr.1.x = 0 ∧ spr.1.y = 0 ∧ spr.1.z = 0) := by
  have hok : ∃ spr, makeStar 10 [false, false, false] (exampleRandom 0x12345679) = .ok spr := by
    cases hm : makeStar 10 [false, false, false] (exampleRandom 0x12345679) with
    | ok spr => exact ⟨spr, rfl⟩
    | error e =>
      have hb : (makeStar 10 [false, false, false] (exampleRandom 0x12345679)).toBool = true :=
        rfl
      rw [hm] at hb
      exact absurd hb (by simp [Except.toBool])
  obtain ⟨spr, hs⟩ := hok
  exact ⟨spr, hs,
    ((star_direction_unit 10 [false, false, false] (exampleRandom 0x12345679) spr hs).2.2.2
      (by decide)).1⟩

/-- C18 as stated fails: on the generator whose every output is `0x800` (inside
`0..65535`) the star loop returns 40 stars, all with the coordinate triple `(0, 0, 0)`. -/
theorem star_direction_unit_fails :
    ∃ stars, makeStars 1 (constantRandom 2048) = .ok stars ∧ stars.length = 40 ∧
      ∀ s ∈ stars, s.x = 0 ∧ s.y = 0 ∧ s.z = 0 := by
  refine ⟨List.replicate 40 ⟨0, 0, 0, [], 0⟩, rfl, rfl, ?_⟩
  intro s hs
  rw [List.eq_of_mem_replicate hs]
  exact ⟨rfl, rfl, rfl⟩

end DirectionProofs

section SubStarProofs

variable {α : Type}

/-- A returning sub-star loop appends one small star per sub-star, each with the given
direction. -/
theorem convertSubStars_expand (env : InitEnv α) (direction : Double3 α) :
    ∀ (subs : List SubStar) (sky sky' : DistantSky α),
      convertSubStars env direction subs sky = .ok sky' →
      ∃ group, sky'.starObjects = sky.starObjects ++ group ∧ group.length = subs.length ∧
        ∀ o ∈ group, ∃ color, o = StarObject.makeSmall color direction := by
  intro subs
  induction subs with
  | nil =>
    intro sky sky' h
    simp only [convertSubStars, Except.ok.injEq] at h
    subst h
    exact ⟨[], by simp, rfl, by simp⟩
  | cons subStar rest ih =>
    intro sky sky' h
    simp only [convertSubStars] at h
    split at h
    · exact absurd h (by simp)
    · rename_i color _
      obtain ⟨group, hg, hl, hall⟩ := ih _ _ h
      refine ⟨StarObject.makeSmall color direction :: group, ?_, by simp [hl], ?_⟩
      · rw [hg]; simp
      · intro o ho
        rcases List.mem_cons.mp ho with ho | ho
        · exact ⟨color, ho⟩
        · exact hall o ho

end SubStarProofs

section ExpansionProofs

variable {α : Type} [LinearOrderedField α]

/-- The sub-star loop makes one sub-star per iteration. -/
theorem makeSubStars_length (n : Nat) :
    ∀ random : ArenaRandom, (makeSubStars n random).1.length = n := by
  induction n with
  | zero => intro random; rfl
  | succ n ih =>
    intro random
    simp only [makeSubStars, List.length_cons, ih]

/-- The shape of the star a returning iteration makes, by its selector (the fourth output
drawn for the star, modulo `4`). -/
theorem makeStar_shape (fuel : Nat) (planets : List Bool) (random : ArenaRandom)
    (spr : Star × List Bool × ArenaRandom) (h : makeStar fuel planets random = .ok spr) :
    (random.next.2.next.2.next.2.next.1 % 4 ≠ 0 →
      spr.1.type = -1 ∧ 2 ≤ spr.1.subList.length ∧ spr.1.subList.length ≤ 5) ∧
    (random.next.2.next.2.next.2.next.1 % 4 = 0 →
      0 ≤ spr.1.type ∧ spr.1.type < 8 ∧ spr.1.subList = []) := by
  have hsel8 : random.next.2.next.2.next.2.next.1 % 4 % 2 ^ 8 =
      random.next.2.next.2.next.2.next.1 % 4 := by omega
  simp only [makeStar] at h
  have hstate : (getRndCoord (getRndCoord (getRndCoord random).2).2).2 =
      random.next.2.next.2.next.2 := rfl
  rw [hstate, hsel8] at h
  by_cases hsel : random.next.2.next.2.next.2.next.1 % 4 = 0
  · rw [if_neg (by simpa using hsel)] at h
    refine ⟨fun hne => absurd hsel hne, fun _ => ?_⟩
    cases hd : drawStarValue planets fuel random.next.2.next.2.next.2.next.2 with
    | error e => simp [hd] at h
    | ok vr =>
      obtain ⟨hv0, hv8, _⟩ := drawStarValue_spec planets fuel _ vr hd
      simp only [hd] at h
      split_ifs at h
      all_goals
        simp only [Except.ok.injEq] at h
        subst h
        exact ⟨hv0, hv8, rfl⟩
  · rw [if_pos hsel] at h
    refine ⟨fun _ => ?_, fun h0 => absurd h0 hsel⟩
    simp only [Except.ok.injEq] at h
    subst h
    have hn : (toInt32 ((2 + random.next.2.next.2.next.2.next.2.next.1 % 4) % 2 ^ 32)).toNat =
        2 + random.next.2.next.2.next.2.next.2.next.1 % 4 := by
      unfold toInt32
      have hm : (2 + random.next.2.next.2.next.2.next.2.next.1 % 4) % 2 ^ 32 % 2 ^ 32 =
          2 + random.next.2.next.2.next.2.next.2.next.1 % 4 := by omega
      rw [hm, if_pos (by omega), Int.toNat_ofNat]
    refine ⟨rfl, ?_, ?_⟩
    · simp only [makeSubStars_length, hn]; omega
    · simp only [makeSubStars_length, hn]; omega

/-- Every star of a returning star loop has one of the two shapes, and the loop adds one
star per iteration. -/
theorem makeStarsLoop_shape (fuel : Nat) :
    ∀ (remaining : Nat) (stars : List Star) (planets : List Bool) (random : ArenaRandom)
      (res : List Star × List Bool × ArenaRandom),
      (∀ s ∈ stars, StarShape s) →
      makeStarsLoop fuel remaining stars planets random = .ok res →
      (∀ s ∈ res.1, StarShape s) ∧ res.1.length = stars.length + remaining := by
  intro remaining
  induction remaining with
  | zero =>
    intro stars planets random res hall h
    simp only [makeStarsLoop, Except.ok.injEq] at h
    subst h
    exact ⟨hall, rfl⟩
  | succ remaining ih =>
    intro stars planets random res hall h
    simp only [makeStarsLoop] at h
    cases hm : makeStar fuel planets random with
    | error e => simp [hm] at h
    | ok spr =>
      simp only [hm] at h
      obtain ⟨hne, hz⟩ := makeStar_shape fuel planets random spr hm
      have hshape : StarShape spr.1 := by
        by_cases hsel : random.next.2.next.2.next.2.next.1 % 4 = 0
        · exact Or.inr (hz hsel)
        · exact Or.inl (hne hsel)
      have hall' : ∀ s ∈ stars ++ [spr.1], StarShape s := by
        intro s hs
        rcases List.mem_append.mp hs with hs | hs
        · exact hall s hs
        · simp only [List.mem_singleton] at hs; subst hs; exact hshape
      obtain ⟨h1, h2⟩ := ih _ _ _ res hall' h
      refine ⟨h1, ?_⟩
      rw [h2, List.length_append, List.length_singleton]
      omega

/-- A returning conversion of one star appends its expansion. -/
theorem convertStar_expand (env : InitEnv α) (star : Star) (sky sky' : DistantSky α)
    (h : convertStar env star sky = .ok sky') :
    ∃ group, sky'.starObjects = sky.starObjects ++ group ∧ StarExpansion env star group := by
  simp only [convertStar, decide_eq_true_eq] at h
  by_cases hsmall : star.type = -1
  · rw [if_pos hsmall] at h
    obtain ⟨group, hg, hl, hall⟩ := convertSubStars_expand env _ _ _ _ h
    exact ⟨group, hg, Or.inl ⟨hsmall, hl, hall⟩⟩
  · rw [if_neg hsmall] at h
    split at h
    · exact absurd h (by simp)
    · split at h
      · exact absurd h (by simp)
      · rename_i surface _
        simp only [Except.ok.injEq] at h
        subst h
        exact ⟨_, rfl, Or.inr ⟨hsmall, surface, rfl⟩⟩

/-- A returning conversion loop appends the expansions of the stars, in order. -/
theorem convertStars_expand (env : InitEnv α) :
    ∀ (stars : List Star) (sky sky' : DistantSky α),
      convertStars env stars sky = .ok sky' →
      ∃ groups : List (List (StarObject α)),
        sky'.starObjects = sky.starObjects ++ groups.flatten ∧
        List.Forall₂ (StarExpansion env) stars groups := by
  intro stars
  induction stars with
  | nil =>
    intro sky sky' h
    simp only [convertStars, Except.ok.injEq] at h
    subst h
    exact ⟨[], by simp, List.Forall₂.nil⟩
  | cons star rest ih =>
    intro sky sky' h
    simp only [convertStars] at h
    cases hc : convertStar env star sky with
    | error e => simp [hc] at h
    | ok sky1 =>
      simp only [hc] at h
      obtain ⟨group, hg, hexp⟩ := convertStar_expand env star sky sky1 hc
      obtain ⟨groups, hgs, hall⟩ := ih _ _ h
      refine ⟨group :: groups, ?_, List.Forall₂.cons hexp hall⟩
      rw [hgs, hg]; simp

/-- The expansions of stars of the two shapes hold between one and five objects each. -/
theorem expansion_count (env : InitEnv α) :
    ∀ (stars : List Star) (groups : List (List (StarObject α))),
      List.Forall₂ (StarExpansion env) stars groups → (∀ s ∈ stars, StarShape s) →
      stars.length ≤ groups.flatten.length ∧ groups.flatten.length ≤ 5 * stars.length := by
  intro stars
  induction stars with
  | nil =>
    intro groups hall _
    cases hall
    simp
  | cons star rest ih =>
    intro groups hall hshape
    obtain ⟨group, groups', hexp, hrest, rfl⟩ := List.forall₂_cons_left_iff.mp hall
    obtain ⟨h1, h2⟩ := ih groups' hrest (fun s hs => hshape s (List.mem_cons_of_mem _ hs))
    have hg : 1 ≤ group.length ∧ group.length ≤ 5 := by
      rcases hexp with ⟨ht, hl, _⟩ | ⟨hne, surface, hg⟩
      · rcases hshape star (List.mem_cons_self _ _) with ⟨_, h2, h5⟩ | ⟨h0, _, _⟩
        · omega
        · omega
      · rw [hg]; simp
    simp only [List.flatten_cons, List.length_append, List.length_cons]
    omega

end ExpansionProofs

section FrameProofs

variable {α : Type}

/-- Every catalog extends itself. -/
theorem extends_refl (sky : DistantSky α) : sky.Extends sky :=
  ⟨List.prefix_refl _, List.prefix_refl _, List.prefix_refl _, List.prefix_refl _,
    List.prefix_refl _, rfl⟩

/-- Extension of catalogs is transitive. -/
theorem extends_trans {a b c : DistantSky α} (h₁ : a.Extends b) (h₂ : b.Extends c) :
    a.Extends c :=
  ⟨h₁.1.trans h₂.1, h₁.2.1.trans h₂.2.1, h₁.2.2.1.trans h₂.2.2.1,
    h₁.2.2.2.1.trans h₂.2.2.2.1, h₁.2.2.2.2.1.trans h₂.2.2.2.2.1,
    h₂.2.2.2.2.2.trans h₁.2.2.2.2.2⟩

/-- A failed bounds check is not a loader error of another kind. -/
theorem loaderError_outOfRange (env : InitEnv α) : LoaderError env .outOfRange :=
  ⟨by simp, by simp⟩

/-- A failed `assert` is a loader error in the sense of `LoaderError`. -/
theorem loaderError_assertFailed (env : InitEnv α) : LoaderError env .assertFailed :=
  ⟨by simp, by simp⟩

/-- A signed overflow is a loader error in the sense of `LoaderError`. -/
theorem loaderError_signedOverflow (env : InitEnv α) : LoaderError env .signedOverflow :=
  ⟨by simp, by simp⟩

/-- Running out of fuel is a loader error in the sense of `LoaderError`. -/
theorem loaderError_outOfFuel (env : InitEnv α) : LoaderError env .outOfFuel :=
  ⟨by simp, by simp⟩

/-- The only error of `at?` is the failed bounds check. -/
theorem at?_error {β : Type} (xs : List β) (index : Nat) (e : InitError)
    (h : at? xs index = .error e) : e = .outOfRange := by
  simp only [at?] at h
  split at h
  · exact absurd h (by simp)
  · simp only [Except.error.injEq] at h
    exact h.symm

/-- The only error of the write loop of the `filename` lambda is the failed bounds check. -/
theorem writeDigits_error (start : Int) :
    ∀ (ds : List Char) (index : Nat) (name : List Char) (e : InitError),
      writeDigits start ds index name = .error e → e = .outOfRange := by
  intro ds
  induction ds with
  | nil => intro index name e h; simp [writeDigits] at h
  | cons c cs ih =>
    intro index name e h
    simp only [writeDigits] at h
    split_ifs at h
    · exact ih _ _ _ h
    · simp only [Except.error.injEq] at h
      exact h.symm

/-- The only error of the `filename` lambda is the failed bounds check. -/
theorem filename_error (baseFilename : List Char) (pos maxDigits : Int) (ds : List Char)
    (e : InitError) (h : filename baseFilename pos maxDigits ds = .error e) :
    e = .outOfRange := by
  simp only [filename] at h
  split at h
  · exact absurd h (by simp)
  · rename_i e' he
    simp only [Except.error.injEq] at h
    subst h
    exact writeDigits_error _ _ _ _ _ he

/-- The only error of `phaseIndex` is the signed overflow of `currentDay + 14`. -/
theorem phaseIndex_error (currentDay : Int) (type : MoonObjectType) (e : InitError)
    (h : phaseIndex currentDay type = .error e) : e = .signedOverflow := by
  cases type with
  | First => simp [phaseIndex] at h
  | Second =>
    simp only [phaseIndex, addInt] at h
    by_cases hr : (-2 ^ 31 ≤ currentDay + 14 ∧ currentDay + 14 < 2 ^ 31)
    · rw [if_pos hr] at h
      exact absurd h (by simp)
    · rw [if_neg hr] at h
      simp only [Except.error.injEq] at h
      exact h.symm

/-- The errors of `makeMoon`: the signed overflow of the day, a failed bounds check, or the
image set of the moon that the texture manager could not load. -/
theorem makeMoon_error (env : InitEnv α) (currentDay : Int) (type : MoonObjectType)
    (e : InitError) (h : makeMoon env currentDay type = .error e) : LoaderError env e := by
  simp only [makeMoon] at h
  split at h
  · rename_i e' he
    simp only [Except.error.injEq] at h
    subst h
    rw [phaseIndex_error _ _ _ he]
    exact loaderError_signedOverflow env
  · split at h
    · rename_i e' he
      simp only [Except.error.injEq] at h
      subst h
      rw [at?_error _ _ _ he]
      exact loaderError_outOfRange env
    · split at h
      · rename_i hnone
        simp only [Except.error.injEq] at h
        subst h
        refine ⟨by simp, fun name hname => ?_⟩
        simp only [InitError.missingAsset.injEq] at hname
        subst hname
        exact Or.inr hnone
      · split at h
        · rename_i e' he
          simp only [Except.error.injEq] at h
          subst h
          rw [at?_error _ _ _ he]
          exact loaderError_outOfRange env
        · exact absurd h (by simp)

/-- The moon phase: a returning phase extends the catalog and leaves the stars alone; a
failing phase leaves an extension of the catalog and fails with a loader error. -/
theorem placeMoons_frame (env : InitEnv α) (currentDay : Int) (sky : DistantSky α) :
    (∀ sky', placeMoons env currentDay sky = .ok sky' →
      sky.Extends sky' ∧ sky'.starObjects = sky.starObjects) ∧
    (∀ e, placeMoons env currentDay sky = .error e → sky.Extends e.2 ∧ LoaderError env e.1) := by
  constructor
  · intro sky' h
    simp only [placeMoons] at h
    split at h
    · exact absurd h (by simp)
    · split at h
      · exact absurd h (by simp)
      · simp only [Except.ok.injEq] at h
        subst h
        exact ⟨⟨by simp, by simp, by simp, by simp, by simp, rfl⟩, rfl⟩
  · intro e h
    simp only [placeMoons] at h
    split at h
    · rename_i e' he
      simp only [Except.error.injEq] at h
      subst h
      exact ⟨extends_refl sky, makeMoon_error env _ _ _ he⟩
    · split at h
      · rename_i e' he
        simp only [Except.error.injEq] at h
        subst h
        exact ⟨⟨by simp, by simp, by simp, by simp, by simp, rfl⟩, makeMoon_error env _ _ _ he⟩
      · exact absurd h (by simp)

/-- The sub-star loop: a returning loop extends the catalog; a failing loop leaves an
extension of the catalog and its error is the failed palette bounds check. -/
theorem convertSubStars_frame (env : InitEnv α) (direction : Double3 α) :
    ∀ (subs : List SubStar) (sky : DistantSky α),
      (∀ sky', convertSubStars env direction subs sky = .ok sky' → sky.Extends sky') ∧
      (∀ e, convertSubStars env direction subs sky = .error e →
        sky.Extends e.2 ∧ LoaderError env e.1) := by
  intro subs
  induction subs with
  | nil =>
    intro sky
    constructor
    · intro sky' h
      simp only [convertSubStars, Except.ok.injEq] at h
      subst h
      exact extends_refl sky
    · intro e h
      simp [convertSubStars] at h
  | cons subStar rest ih =>
    intro sky
    have hstep : ∀ color, sky.Extends
        { sky with starObjects := sky.starObjects ++ [StarObject.makeSmall color direction] } :=
      fun color => ⟨by simp, by simp, by simp, by simp, by simp, rfl⟩
    constructor
    · intro sky' h
      simp only [convertSubStars] at h
      split at h
      · exact absurd h (by simp)
      · rename_i color _
        exact extends_trans (hstep color) ((ih _).1 sky' h)
    · intro e h
      simp only [convertSubStars] at h
      split at h
      · rename_i e' he
        simp only [Except.error.injEq] at h
        subst h
        rw [at?_error _ _ _ he]
        exact ⟨extends_refl sky, loaderError_outOfRange env⟩
      · rename_i color _
        obtain ⟨h1, h2⟩ := (ih _).2 e h
        exact ⟨extends_trans (hstep color) h1, h2⟩

/-- The sun phase: a failing phase leaves the catalog as it is and fails with the sun image
that the texture manager could not load. -/
theorem placeSun_frame (env : InitEnv α) (sky : DistantSky α) :
    (∀ sky', placeSun env sky = .ok sky' →
      sky'.starObjects = sky.starObjects ∧ sky'.airObjects = sky.airObjects ∧
      env.getSurface (String.toUppercase env.sunFilename) = sky'.sunSurface ∧
      sky'.sunSurface ≠ none) ∧
    (∀ e, placeSun env sky = .error e → sky.Extends e.2 ∧ LoaderError env e.1) := by
  constructor
  · intro sky' h
    simp only [placeSun] at h
    split at h
    · exact absurd h (by simp)
    · rename_i surface hs
      simp only [Except.ok.injEq] at h
      subst h
      exact ⟨rfl, rfl, hs, by simp⟩
  · intro e h
    simp only [placeSun] at h
    split at h
    · rename_i hnone
      simp only [Except.error.injEq] at h
      subst h
      refine ⟨extends_refl sky, by simp, fun name hname => ?_⟩
      simp only [InitError.missingAsset.injEq] at hname
      subst hname
      exact Or.inl hnone
    · exact absurd h (by simp)

/-- The errors of the rejection loop: out of fuel, or a failed bounds check. -/
theorem drawStarValue_error (planets : List Bool) (fuel : Nat) :
    ∀ (random : ArenaRandom) (e : InitError),
      drawStarValue planets fuel random = .error e → e = .outOfFuel ∨ e = .outOfRange := by
  induction fuel with
  | zero =>
    intro random e h
    simp only [drawStarValue, Except.error.injEq] at h
    exact Or.inl h.symm
  | succ fuel ih =>
    intro random e h
    rw [drawStarValue] at h
    generalize ((random.next.1 % 8 : Nat) : Int) = v at h
    by_cases h5 : v ≥ 5
    · rw [if_pos h5] at h
      split at h
      · rename_i e' he
        simp only [Except.error.injEq] at h
        subst h
        exact Or.inr (at?_error _ _ _ he)
      · split_ifs at h
        · exact ih _ _ h
    · rw [if_neg h5] at h
      exact absurd h (by simp)

/-- The errors of one iteration of the star loop: out of fuel, or a failed bounds check. -/
theorem makeStar_error (fuel : Nat) (planets : List Bool) (random : ArenaRandom)
    (e : InitError) (h : makeStar fuel planets random = .error e) :
    e = .outOfFuel ∨ e = .outOfRange := by
  simp only [makeStar] at h
  split_ifs at h with hsel
  split at h
  · rename_i e' he
    simp only [Except.error.injEq] at h
    subst h
    exact drawStarValue_error _ _ _ _ he
  · split_ifs at h
    simp only [Except.error.injEq] at h
    exact Or.inr h.symm

/-- The errors of the star loop: out of fuel, or a failed bounds check. -/
theorem makeStarsLoop_error (fuel : Nat) :
    ∀ (remaining : Nat) (stars : List Star) (planets : List Bool) (random : ArenaRandom)
      (e : InitError),
      makeStarsLoop fuel remaining stars planets random = .error e →
      e = .outOfFuel ∨ e = .outOfRange := by
  intro remaining
  induction remaining with
  | zero => intro stars planets random e h; simp [makeStarsLoop] at h
  | succ remaining ih =>
    intro stars planets random e h
    simp only [makeStarsLoop] at h
    split at h
    · rename_i e' he
      simp only [Except.error.injEq] at h
      subst h
      exact makeStar_error _ _ _ _ he
    · exact ih _ _ _ _ h

/-- The errors of the star generation are loader errors in the sense of `LoaderError`. -/
theorem makeStars_error (env : InitEnv α) (fuel : Nat) (random : ArenaRandom) (e : InitError)
    (h : makeStars fuel random = .error e) : LoaderError env e := by
  simp only [makeStars] at h
  split at h
  · rename_i e' he
    simp only [Except.error.injEq] at h
    subst h
    rcases makeStarsLoop_error _ _ _ _ _ _ he with h1 | h1
    · rw [h1]; exact loaderError_outOfFuel env
    · rw [h1]; exact loaderError_outOfRange env
  · exact absurd h (by simp)

end FrameProofs

section FrameProofs2

variable {α : Type} [LinearOrderedField α]

/-- One iteration of `placeStaticObjects`: a returning iteration extends the catalog and
leaves the stars alone; a failing iteration leaves the catalog as it is and fails with a
loader error. -/
theorem placeStaticObject_frame (env : InitEnv α) (baseFilename : List Char)
    (pos var maxDigits : Int) (randomHeight : Bool) (sky : DistantSky α)
    (random : ArenaRandom) :
    (∀ sr, placeStaticObject env baseFilename pos var maxDigits randomHeight sky random = .ok sr →
      sky.Extends sr.1 ∧ sr.1.starObjects = sky.starObjects) ∧
    (∀ e, placeStaticObject env baseFilename pos var maxDigits randomHeight sky random
        = .error e → e.2 = sky ∧ LoaderError env e.1) := by
  constructor
  · intro sr h
    unfold placeStaticObject at h
    simp only [] at h
    by_cases hassert : (digits random var).1.length ≤ toSizeT maxDigits
    · rw [if_pos hassert] at h
      split at h
      · exact absurd h (by simp)
      · split at h
        · exact absurd h (by simp)
        · cases randomHeight with
          | true =>
            simp only [Bool.not_true, Bool.false_eq_true, if_false, Except.ok.injEq] at h
            subst h
            exact ⟨⟨by simp, by simp, by simp, by simp, by simp, rfl⟩, rfl⟩
          | false =>
            simp only [Bool.not_false, if_true, Except.ok.injEq] at h
            subst h
            exact ⟨⟨by simp, by simp, by simp, by simp, by simp, rfl⟩, rfl⟩
    · rw [if_neg hassert] at h
      exact absurd h (by simp)
  · intro e h
    unfold placeStaticObject at h
    simp only [] at h
    by_cases hassert : (digits random var).1.length ≤ toSizeT maxDigits
    · rw [if_pos hassert] at h
      split at h
      · rename_i e' he
        simp only [Except.error.injEq] at h
        subst h
        rw [filename_error _ _ _ _ _ he]
        exact ⟨rfl, loaderError_outOfRange env⟩
      · split at h
        · rename_i name _ hnone
          simp only [Except.error.injEq] at h
          subst h
          refine ⟨rfl, by simp, fun name' hname => ?_⟩
          simp only [InitError.missingAsset.injEq] at hname
          subst hname
          exact Or.inl hnone
        · cases randomHeight <;> simp at h
    · rw [if_neg hassert] at h
      simp only [Except.error.injEq] at h
      subst h
      exact ⟨rfl, loaderError_assertFailed env⟩

/-- The loop of `placeStaticObjects`: a returning loop extends the catalog and leaves the
stars alone; a failing loop leaves an extension of the catalog and fails with a loader
error. -/
theorem placeStaticObjectsLoop_frame (env : InitEnv α) (baseFilename : List Char)
    (pos var maxDigits : Int) (randomHeight : Bool) :
    ∀ (remaining : Nat) (sky : DistantSky α) (random : ArenaRandom),
      (∀ sr, placeStaticObjectsLoop env baseFilename pos var maxDigits randomHeight remaining
          sky random = .ok sr → sky.Extends sr.1 ∧ sr.1.starObjects = sky.starObjects) ∧
      (∀ e, placeStaticObjectsLoop env baseFilename pos var maxDigits randomHeight remaining
          sky random = .error e → sky.Extends e.2 ∧ LoaderError env e.1) := by
  intro remaining
  induction remaining with
  | zero =>
    intro sky random
    constructor
    · intro sr h
      simp only [placeStaticObjectsLoop, Except.ok.injEq] at h
      subst h
      exact ⟨extends_refl sky, rfl⟩
    · intro e h
      simp [placeStaticObjectsLoop] at h
  | succ remaining ih =>
    intro sky random
    obtain ⟨hok, herr⟩ := placeStaticObject_frame env baseFilename pos var maxDigits
      randomHeight sky random
    constructor
    · intro sr h
      simp only [placeStaticObjectsLoop] at h
      split at h
      · exact absurd h (by simp)
      · rename_i sr1 h1
        obtain ⟨a1, a2⟩ := hok sr1 h1
        obtain ⟨b1, b2⟩ := (ih sr1.1 sr1.2).1 sr h
        exact ⟨extends_trans a1 b1, b2.trans a2⟩
    · intro e h
      simp only [placeStaticObjectsLoop] at h
      split at h
      · rename_i e1 h1
        simp only [Except.error.injEq] at h
        subst h
        obtain ⟨a1, a2⟩ := herr e1 h1
        rw [a1]
        exact ⟨extends_refl sky, a2⟩
      · rename_i sr1 h1
        obtain ⟨a1, _⟩ := hok sr1 h1
        obtain ⟨b1, b2⟩ := (ih sr1.1 sr1.2).2 e h
        exact ⟨extends_trans a1 b1, b2⟩

/-- The cloud phase: a returning phase extends the catalog and leaves the stars alone; a
failing phase leaves an extension of the catalog and fails with a loader error. -/
theorem placeClouds_frame (env : InitEnv α) (weatherType : WeatherType) (currentDay : Int)
    (sky : DistantSky α) (random : ArenaRandom) :
    (∀ sr, placeClouds env weatherType currentDay sky random = .ok sr →
      sky.Extends sr.1 ∧ sr.1.starObjects = sky.starObjects) ∧
    (∀ e, placeClouds env weatherType currentDay sky random = .error e →
      sky.Extends e.2 ∧ LoaderError env e.1) := by
  simp only [placeClouds, decide_eq_true_eq]
  by_cases hclear : weatherType = WeatherType.Clear
  · simp only [if_pos hclear]
    exact placeStaticObjectsLoop_frame env _ _ _ _ _ _ _ _
  · simp only [if_neg hclear]
    constructor
    · intro sr h
      simp only [Except.ok.injEq] at h
      subst h
      exact ⟨extends_refl sky, rfl⟩
    · intro e h
      exact absurd h (by simp)

/-- The animated land phase: a returning phase extends the catalog and leaves the stars
alone; a failing phase leaves the catalog as it is and fails with a loader error. -/
theorem placeAnimLand_frame (env : InitEnv α) (localCityID provinceID : Int)
    (sky : DistantSky α) :
    (∀ sky', placeAnimLand env localCityID provinceID sky = .ok sky' →
      sky.Extends sky' ∧ sky'.starObjects = sky.starObjects) ∧
    (∀ e, placeAnimLand env localCityID provinceID sky = .error e →
      sky.Extends e.2 ∧ LoaderError env e.1) := by
  simp only [placeAnimLand, decide_eq_true_eq]
  by_cases hprov : provinceID = 3
  · simp only [if_pos hprov]
    constructor
    · intro sky' h
      split at h
      · exact absurd h (by simp)
      · split_ifs at h
        all_goals
          split at h
          · exact absurd h (by simp)
          · simp only [Except.ok.injEq] at h
            subst h
            exact ⟨⟨by simp, by simp, by simp, by simp, by simp, rfl⟩, rfl⟩
    · intro e h
      split at h
      · rename_i e' he
        simp only [Except.error.injEq] at h
        subst h
        rw [at?_error _ _ _ he]
        exact ⟨extends_refl sky, loaderError_outOfRange env⟩
      · split_ifs at h
        · split at h
          · rename_i hnone
            simp only [Except.error.injEq] at h
            subst h
            refine ⟨extends_refl sky, by simp, fun name' hname => ?_⟩
            simp only [InitError.missingAsset.injEq] at hname
            subst hname
            exact Or.inr hnone
          · exact absurd h (by simp)
        · split at h
          · rename_i hnone
            simp only [Except.error.injEq] at h
            subst h
            refine ⟨extends_refl sky, by simp, fun name' hname => ?_⟩
            simp only [InitError.missingAsset.injEq] at hname
            subst hname
            exact Or.inl hnone
          · exact absurd h (by simp)
  · simp only [if_neg hprov]
    constructor
    · intro sky' h
      simp only [Except.ok.injEq] at h
      subst h
      exact ⟨extends_refl sky, rfl⟩
    · intro e h
      exact absurd h (by simp)

/-- The conversion of one star: a returning conversion extends the catalog; a failing one
leaves an extension of the catalog and fails with a loader error. -/
theorem convertStar_frame (env : InitEnv α) (star : Star) (sky : DistantSky α) :
    (∀ sky', convertStar env star sky = .ok sky' → sky.Extends sky') ∧
    (∀ e, convertStar env star sky = .error e → sky.Extends e.2 ∧ LoaderError env e.1) := by
  simp only [convertStar, decide_eq_true_eq]
  by_cases hsmall : star.type = -1
  · simp only [if_pos hsmall]
    exact convertSubStars_frame env _ _ _
  · simp only [if_neg hsmall]
    constructor
    · intro sky' h
      split at h
      · exact absurd h (by simp)
      · split at h
        · exact absurd h (by simp)
        · simp only [Except.ok.injEq] at h
          subst h
          exact ⟨by simp, by simp, by simp, by simp, by simp, rfl⟩
    · intro e h
      split at h
      · rename_i e' he
        simp only [Except.error.injEq] at h
        subst h
        refine ⟨extends_refl sky, ?_⟩
        simp only [starFilename] at he
        split at he
        · simp only [Except.error.injEq] at he
          rw [← he]
          exact loaderError_assertFailed env
        · exact absurd he (by simp)
      · split at h
        · rename_i hnone
          simp only [Except.error.injEq] at h
          subst h
          refine ⟨extends_refl sky, by simp, fun name' hname => ?_⟩
          simp only [InitError.missingAsset.injEq] at hname
          subst hname
          exact Or.inl hnone
        · exact absurd h (by simp)

/-- The conversion loop: a returning loop extends the catalog; a failing loop leaves an
extension of the catalog and fails with a loader error. -/
theorem convertStars_frame (env : InitEnv α) :
    ∀ (stars : List Star) (sky : DistantSky α),
      (∀ sky', convertStars env stars sky = .ok sky' → sky.Extends sky') ∧
      (∀ e, convertStars env stars sky = .error e → sky.Extends e.2 ∧ LoaderError env e.1) := by
  intro stars
  induction stars with
  | nil =>
    intro sky
    constructor
    · intro sky' h
      simp only [convertStars, Except.ok.injEq] at h
      subst h
      exact extends_refl sky
    · intro e h
      simp [convertStars] at h
  | cons star rest ih =>
    intro sky
    obtain ⟨hok, herr⟩ := convertStar_frame env star sky
    constructor
    · intro sky' h
      simp only [convertStars] at h
      split at h
      · exact absurd h (by simp)
      · rename_i sky1 h1
        exact extends_trans (hok sky1 h1) ((ih sky1).1 sky' h)
    · intro e h
      simp only [convertStars] at h
      split at h
      · rename_i e1 h1
        simp only [Except.error.injEq] at h
        subst h
        exact herr e1 h1
      · rename_i sky1 h1
        obtain ⟨b1, b2⟩ := (ih sky1).2 e h
        exact ⟨extends_trans (hok sky1 h1) b1, b2⟩

end FrameProofs2

section ClimateProofs

variable {α : Type}

/-- The only errors of the climate selection: the invalid-climate error, exactly for a
climate that is none of the three, and a failed bounds check. -/
theorem climateParameters_error (env : InitEnv α) (climateType : ClimateType) (e : InitError)
    (h : climateParameters env climateType = .error e) :
    (e = .invalidClimate ∧ ∃ raw, climateType = .other raw) ∨ e = .outOfRange := by
  cases climateType with
  | other raw =>
    simp only [climateParameters, Except.error.injEq] at h
    exact Or.inl ⟨h.symm, raw, rfl⟩
  | Temperate =>
    simp only [climateParameters] at h
    split at h
    · exact absurd h (by simp)
    · rename_i e' he
      simp only [Except.error.injEq] at h
      subst h
      exact Or.inr (at?_error _ _ _ he)
  | Desert =>
    simp only [climateParameters] at h
    split at h
    · exact absurd h (by simp)
    · rename_i e' he
      simp only [Except.error.injEq] at h
      subst h
      exact Or.inr (at?_error _ _ _ he)
  | Mountain =>
    simp only [climateParameters] at h
    split at h
    · exact absurd h (by simp)
    · rename_i e' he
      simp only [Except.error.injEq] at h
      subst h
      exact Or.inr (at?_error _ _ _ he)

end ClimateProofs

section InitPhaseProofs

variable {α : Type} [LinearOrderedField α]

/-- The phases of a returning `init`, in order: every phase returned, and each one
started from the catalog and the generator the phase before it left. -/
theorem init_ok_phases (env : InitEnv α) (fuel : Nat) (localCityID provinceID : Int)
    (weatherType : WeatherType) (currentDay : Int) (sky sky' : DistantSky α)
    (h : init env fuel localCityID provinceID weatherType currentDay sky = .ok sky') :
    ∃ params sr1 sr2 sky3 sky4 stars sky5,
      climateParameters env (env.getCityClimateType localCityID provinceID) = .ok params ∧
      placeStaticObjects env
        (toInt32 ((({ recurrence := env.recurrence
                      seed := env.getDistantSkySeed localCityID provinceID % 2 ^ 32 } :
          ArenaRandom).next.1 % 4 + 2) % 2 ^ 32))
        params.1 params.2.1 params.2.2.1 params.2.2.2 false sky
        ({ recurrence := env.recurrence
           seed := env.getDistantSkySeed localCityID provinceID % 2 ^ 32 } :
          ArenaRandom).next.2 = .ok sr1 ∧
      placeClouds env weatherType currentDay sr1.1 sr1.2 = .ok sr2 ∧
      placeAnimLand env localCityID provinceID sr2.1 = .ok sky3 ∧
      placeMoons env currentDay sky3 = .ok sky4 ∧
      makeStars fuel sr2.2 = .ok stars ∧
      convertStars env stars sky4 = .ok sky5 ∧
      placeSun env sky5 = .ok sky' := by
  simp only [init] at h
  split at h
  · exact absurd h (by simp)
  · rename_i params hparams
    split at h
    · exact absurd h (by simp)
    · rename_i sr1 hp1
      split at h
      · exact absurd h (by simp)
      · rename_i sr2 hp2
        split at h
        · exact absurd h (by simp)
        · rename_i sky3 hp3
          split at h
          · exact absurd h (by simp)
          · rename_i sky4 hp4
            split at h
            · exact absurd h (by simp)
            · rename_i stars hstars
              split at h
              · exact absurd h (by simp)
              · rename_i sky5 hp5
                exact ⟨params, sr1, sr2, sky3, sky4, stars, sky5, hparams, hp1, hp2, hp3, hp4,
                  hstars, hp5, h⟩

/-- The error of a failing `init`: the invalid-climate error with the catalog untouched,
for a climate that is none of the three; or a loader error with an extension of the
catalog. -/
theorem init_error_frame (env : InitEnv α) (fuel : Nat) (localCityID provinceID : Int)
    (weatherType : WeatherType) (currentDay : Int) (sky : DistantSky α)
    (e : InitError × DistantSky α)
    (h : init env fuel localCityID provinceID weatherType currentDay sky = .error e) :
    (e.1 = .invalidClimate ∧ e.2 = sky ∧
      ∃ raw, env.getCityClimateType localCityID provinceID = .other raw) ∨
    (sky.Extends e.2 ∧ LoaderError env e.1) := by
  simp only [init] at h
  split at h
  · rename_i e' he
    simp only [Except.error.injEq] at h
    subst h
    rcases climateParameters_error env _ _ he with ⟨h1, h2⟩ | h1
    · exact Or.inl ⟨h1, rfl, h2⟩
    · refine Or.inr ⟨extends_refl sky, ?_⟩
      simp only [h1]
      exact loaderError_outOfRange env
  · rename_i params hparams
    right
    split at h
    · rename_i e' he
      simp only [Except.error.injEq] at h
      subst h
      exact (placeStaticObjectsLoop_frame env _ _ _ _ _ _ _ _).2 _ he
    · rename_i sr1 hp1
      have x1 := ((placeStaticObjectsLoop_frame env _ _ _ _ _ _ _ _).1 _ hp1).1
      split at h
      · rename_i e' he
        simp only [Except.error.injEq] at h
        subst h
        obtain ⟨a, b⟩ := (placeClouds_frame env _ _ _ _).2 _ he
        exact ⟨extends_trans x1 a, b⟩
      · rename_i sr2 hp2
        have x2 := extends_trans x1 ((placeClouds_frame env _ _ _ _).1 _ hp2).1
        split at h
        · rename_i e' he
          simp only [Except.error.injEq] at h
          subst h
          obtain ⟨a, b⟩ := (placeAnimLand_frame env _ _ _).2 _ he
          exact ⟨extends_trans x2 a, b⟩
        · rename_i sky3 hp3
          have x3 := extends_trans x2 ((placeAnimLand_frame env _ _ _).1 _ hp3).1
          split at h
          · rename_i e' he
            simp only [Except.error.injEq] at h
            subst h
            obtain ⟨a, b⟩ := (placeMoons_frame env _ _).2 _ he
            exact ⟨extends_trans x3 a, b⟩
          · rename_i sky4 hp4
            have x4 := extends_trans x3 ((placeMoons_frame env _ _).1 _ hp4).1
            split at h
            · rename_i e' he
              simp only [Except.error.injEq] at h
              subst h
              exact ⟨x4, makeStars_error env _ _ _ he⟩
            · rename_i stars hstars
              split at h
              · rename_i e' he
                simp only [Except.error.injEq] at h
                subst h
                obtain ⟨a, b⟩ := (convertStars_frame env _ _).2 _ he
                exact ⟨extends_trans x4 a, b⟩
              · rename_i sky5 hp5
                have x5 := extends_trans x4 ((convertStars_frame env _ _).1 _ hp5)
                obtain ⟨a, b⟩ := (placeSun_frame env _).2 _ h
                exact ⟨extends_trans x5 a, b⟩

/-- C16: invalid-climate failure. `init` fails with the invalid-climate error exactly when
the climate is none of Temperate, Desert, Mountain. When it does, the catalog in the error
is the catalog `init` was given, and the outcome is the same whatever the generator
recurrence, the seeds and the texture manager are: no generator value and no image enter
it. -/
theorem invalid_climate_iff (env : InitEnv α) (fuel : Nat) (localCityID provinceID : Int)
    (weatherType : WeatherType) (currentDay : Int) (sky : DistantSky α) :
    ((∃ sky', init env fuel localCityID provinceID weatherType currentDay sky
        = .error (.invalidClimate, sky')) ↔
      ∃ raw, env.getCityClimateType localCityID provinceID = .other raw) ∧
    (∀ sky', init env fuel localCityID provinceID weatherType currentDay sky
        = .error (.invalidClimate, sky') → sky' = sky) ∧
    ((∃ raw, env.getCityClimateType localCityID provinceID = .other raw) →
      ∀ (recurrence : Nat → Nat × Nat) (getDistantSkySeed getCitySeed : Int → Int → Nat)
        (getSurface : List Char → Option Surface)
        (getSurfaces : List Char → Option (List Surface)) (fuel' : Nat),
        init { env with
               recurrence := recurrence
               getDistantSkySeed := getDistantSkySeed
               getCitySeed := getCitySeed
               getSurface := getSurface
               getSurfaces := getSurfaces }
          fuel' localCityID provinceID weatherType currentDay sky
          = .error (.invalidClimate, sky)) := by
  have hfail : ∀ (env' : InitEnv α) (fuel' : Nat),
      (∃ raw, env'.getCityClimateType localCityID provinceID = .other raw) →
      init env' fuel' localCityID provinceID weatherType currentDay sky
        = .error (.invalidClimate, sky) := by
    intro env' fuel' hraw
    obtain ⟨raw, hraw⟩ := hraw
    simp only [init, hraw, climateParameters]
  have hkind : ∀ sky', init env fuel localCityID provinceID weatherType currentDay sky
      = .error (.invalidClimate, sky') →
      sky' = sky ∧ ∃ raw, env.getCityClimateType localCityID provinceID = .other raw := by
    intro sky' h
    rcases init_error_frame env fuel _ _ _ _ sky _ h with ⟨_, h2, h3⟩ | ⟨_, h2⟩
    · exact ⟨h2, h3⟩
    · exact absurd rfl h2.1
  refine ⟨⟨fun ⟨sky', h⟩ => (hkind sky' h).2, fun hraw => ⟨sky, hfail env fuel hraw⟩⟩,
    fun sky' h => (hkind sky' h).1, ?_⟩
  intro hraw recurrence getDistantSkySeed getCitySeed getSurface getSurfaces fuel'
  exact hfail _ fuel' hraw

/-- An invalid climate on the example environment: `init` fails with the invalid-climate
error. -/
theorem invalid_climate_iff_witness :
    ∃ sky', init exampleEnvNoClimate 10 5 3 .Clear 10 DistantSky.construct
      = .error (.invalidClimate, sky') :=
  (invalid_climate_iff exampleEnvNoClimate 10 5 3 .Clear 10 DistantSky.construct).1.mpr
    ⟨7, rfl⟩

end InitPhaseProofs

section InitFailureExamples

end InitFailureExamples

section CloudHeightProofs

variable {α : Type} [LinearOrderedField α]

/-- The conversion to `int` of a remainder modulo `64` is the remainder. -/
theorem toInt32_mod64 (r : Nat) : toInt32 (r % 64) = ((r % 64 : Nat) : Int) := by
  unfold toInt32
  have h : r % 64 % 2 ^ 32 = r % 64 := by omega
  rw [h, if_pos (by omega)]

/-- What a returning iteration of `placeStaticObjects` does to the air objects and to the
generator: without `randomHeight` no air object and two draws (digits and angle); with it
one air object of height `k / 64`, `0 ≤ k < 64`, and three draws. -/
theorem placeStaticObject_air (env : InitEnv α) (baseFilename : List Char)
    (pos var maxDigits : Int) (randomHeight : Bool) (sky : DistantSky α) (random : ArenaRandom)
    (sr : DistantSky α × ArenaRandom)
    (h : placeStaticObject env baseFilename pos var maxDigits randomHeight sky random = .ok sr) :
    (randomHeight = false →
      sr.1.airObjects = sky.airObjects ∧ sr.2 = random.next.2.next.2) ∧
    (randomHeight = true →
      sr.2 = random.next.2.next.2.next.2 ∧
      ∃ a : AirObject α, sr.1.airObjects = sky.airObjects ++ [a] ∧
        ∃ k : Int, 0 ≤ k ∧ k < 64 ∧ a.height = (k : α) / 64) := by
  unfold placeStaticObject at h
  simp only [] at h
  by_cases hassert : (digits random var).1.length ≤ toSizeT maxDigits
  · rw [if_pos hassert] at h
    split at h
    · exact absurd h (by simp)
    · split at h
      · exact absurd h (by simp)
      · cases randomHeight with
        | true =>
          simp only [Bool.not_true, Bool.false_eq_true, if_false, if_true,
            Except.ok.injEq] at h
          subst h
          refine ⟨fun hf => absurd hf (by simp), fun _ => ⟨rfl, _, rfl, ?_⟩⟩
          refine ⟨((random.next.2.next.1 % 64 : Nat) : Int), by omega, by omega, ?_⟩
          simp only [digits, toInt32_mod64]
          norm_num
        | false =>
          simp only [Bool.not_false, if_true, Bool.false_eq_true, if_false,
            Except.ok.injEq] at h
          subst h
          exact ⟨fun _ => ⟨rfl, rfl⟩, fun hf => absurd hf (by simp)⟩
  · rw [if_neg hassert] at h
    exact absurd h (by simp)

/-- The air objects a returning loop of `placeStaticObjects` appends: none without
`randomHeight`, and otherwise objects of height `k / 64`, `0 ≤ k < 64`. -/
theorem placeStaticObjectsLoop_air (env : InitEnv α) (baseFilename : List Char)
    (pos var maxDigits : Int) (randomHeight : Bool) :
    ∀ (remaining : Nat) (sky : DistantSky α) (random : ArenaRandom)
      (sr : DistantSky α × ArenaRandom),
      placeStaticObjectsLoop env baseFilename pos var maxDigits randomHeight remaining sky random
        = .ok sr →
      ∃ created : List (AirObject α), sr.1.airObjects = sky.airObjects ++ created ∧
        (randomHeight = false → created = []) ∧
        ∀ a ∈ created, ∃ k : Int, 0 ≤ k ∧ k < 64 ∧ a.height = (k : α) / 64 := by
  intro remaining
  induction remaining with
  | zero =>
    intro sky random sr h
    simp only [placeStaticObjectsLoop, Except.ok.injEq] at h
    subst h
    exact ⟨[], by simp, fun _ => rfl, by simp⟩
  | succ remaining ih =>
    intro sky random sr h
    simp only [placeStaticObjectsLoop] at h
    split at h
    · exact absurd h (by simp)
    · rename_i sr1 h1
      obtain ⟨hland, hair⟩ := placeStaticObject_air env _ _ _ _ _ _ _ sr1 h1
      obtain ⟨created, hc, hnil, hall⟩ := ih _ _ sr h
      cases randomHeight with
      | false =>
        refine ⟨created, ?_, hnil, hall⟩
        rw [hc, (hland rfl).1]
      | true =>
        obtain ⟨_, a, ha, hk⟩ := hair rfl
        refine ⟨a :: created, ?_, fun hf => absurd hf (by simp), ?_⟩
        · rw [hc, ha]; simp
        · intro b hb
          rcases List.mem_cons.mp hb with hb | hb
          · rw [hb]; exact hk
          · exact hall b hb

/-- C12: cloud height range. Every air object a returning `init` creates has the height
`k / 64` for an integer `k` with `0 ≤ k < 64`, so its height lies in `[0, 1)`; and an
iteration of `placeStaticObjects` without `randomHeight` creates no air object and draws
from the generator twice only (digits and angle), with no draw for a height. -/
theorem cloud_height_range (env : InitEnv α) (fuel : Nat) (localCityID provinceID : Int)
    (weatherType : WeatherType) (currentDay : Int) (sky sky' : DistantSky α)
    (h : init env fuel localCityID provinceID weatherType currentDay sky = .ok sky') :
    (∃ created : List (AirObject α), sky'.airObjects = sky.airObjects ++ created ∧
      ∀ a ∈ created, (∃ k : Int, 0 ≤ k ∧ k < 64 ∧ a.height = (k : α) / 64) ∧
        0 ≤ a.height ∧ a.height < 1) ∧
    (∀ (baseFilename : List Char) (pos var maxDigits : Int) (sky₀ : DistantSky α)
      (random : ArenaRandom) (sr : DistantSky α × ArenaRandom),
      placeStaticObject env baseFilename pos var maxDigits false sky₀ random = .ok sr →
      sr.1.airObjects = sky₀.airObjects ∧ sr.2 = random.next.2.next.2) := by
  constructor
  · obtain ⟨params, sr1, sr2, sky3, sky4, stars, sky5, _, hp1, hp2, hp3, hp4, _, hp5, hp6⟩ :=
      init_ok_phases env fuel _ _ _ _ sky sky' h
    obtain ⟨c1, hc1, hnil, _⟩ := placeStaticObjectsLoop_air env _ _ _ _ _ _ _ _ sr1 hp1
    have hc1' : sr1.1.airObjects = sky.airObjects := by rw [hc1, hnil rfl]; simp
    have hclouds : ∃ c2 : List (AirObject α), sr2.1.airObjects = sr1.1.airObjects ++ c2 ∧
        ∀ a ∈ c2, ∃ k : Int, 0 ≤ k ∧ k < 64 ∧ a.height = (k : α) / 64 := by
      simp only [placeClouds, decide_eq_true_eq] at hp2
      by_cases hclear : weatherType = WeatherType.Clear
      · rw [if_pos hclear] at hp2
        obtain ⟨c2, hc2, _, hall⟩ := placeStaticObjectsLoop_air env _ _ _ _ _ _ _ _ sr2 hp2
        exact ⟨c2, hc2, hall⟩
      · rw [if_neg hclear] at hp2
        simp only [Except.ok.injEq] at hp2
        subst hp2
        exact ⟨[], by simp, by simp⟩
    obtain ⟨c2, hc2, hall⟩ := hclouds
    have h3 := (placeAnimLand_effect env _ _ _ sky3 hp3).2.1
    have h4 := (placeMoons_effect env _ _ sky4 hp4).2.1
    have h5 := (convertStars_effect env _ _ sky5 hp5).2.1
    have h6 := ((placeSun_frame env sky5).1 sky' hp6).2.1
    refine ⟨c2, by rw [h6, h5, h4, h3, hc2, hc1'], ?_⟩
    intro a ha
    obtain ⟨k, hk0, hk1, hk⟩ := hall a ha
    have hk0' : (0 : α) ≤ (k : α) := by exact_mod_cast hk0
    have hk1' : (k : α) < 64 := by exact_mod_cast hk1
    refine ⟨⟨k, hk0, hk1, hk⟩, ?_, ?_⟩
    · rw [hk]; positivity
    · rw [hk, div_lt_one (by norm_num)]; exact hk1'
  · intro baseFilename pos var maxDigits sky₀ random sr hs
    exact (placeStaticObject_air env _ _ _ _ _ _ _ sr hs).1 rfl

/-- A returning `init` in clear weather on the example environment: its seven clouds have
heights in `[0, 1)`. -/
theorem cloud_height_range_witness :
    ∃ sky' : DistantSky ℚ,
      init exampleEnv 10 5 3 .Clear 10 DistantSky.construct = .ok sky' ∧
      ∃ created : List (AirObject ℚ),
        sky'.airObjects = (DistantSky.construct : DistantSky ℚ).airObjects ++ created ∧
        ∀ a ∈ created, (∃ k : Int, 0 ≤ k ∧ k < 64 ∧ a.height = (k : ℚ) / 64) ∧
          0 ≤ a.height ∧ a.height < 1 := by
  have hok : ∃ sky', init exampleEnv 10 5 3 .Clear 10 DistantSky.construct = .ok sky' := by
    cases hm : init exampleEnv 10 5 3 .Clear 10 DistantSky.construct with
    | ok sky' => exact ⟨sky', rfl⟩
    | error e =>
      have hb : (init exampleEnv 10 5 3 .Clear 10 DistantSky.construct).toBool = true := rfl
      rw [hm] at hb
      exact absurd hb (by simp [Except.toBool])
  obtain ⟨sky', hs⟩ := hok
  exact ⟨sky', hs, (cloud_height_range exampleEnv 10 5 3 .Clear 10 _ sky' hs).1⟩

end CloudHeightProofs

section StarExpansionProofs

variable {α : Type} [LinearOrderedField α]

/-- A returning star generation makes 40 stars, each of one of the two shapes. -/
theorem makeStars_shape (fuel : Nat) (random : ArenaRandom) (stars : List Star)
    (h : makeStars fuel random = .ok stars) :
    stars.length = 40 ∧ ∀ s ∈ stars, StarShape s := by
  simp only [makeStars] at h
  split at h
  · exact absurd h (by simp)
  · rename_i res hl
    simp only [Except.ok.injEq] at h
    obtain ⟨h1, h2⟩ := makeStarsLoop_shape fuel 40 [] _ _ res (by simp) hl
    rw [h] at h1 h2
    exact ⟨by simpa using h2, h1⟩

/-- The star pass: when the star loop and the conversion loop both return, there are 40
stars of the two shapes, and the conversion appends their expansions in order, between 40
and 200 star objects. -/
theorem star_phase_expansion (env : InitEnv α) (fuel : Nat) (random : ArenaRandom)
    (stars : List Star) (sky sky' : DistantSky α)
    (hgen : makeStars fuel random = .ok stars)
    (hconv : convertStars env stars sky = .ok sky') :
    stars.length = 40 ∧ (∀ s ∈ stars, StarShape s) ∧
    ∃ groups : List (List (StarObject α)),
      List.Forall₂ (StarExpansion env) stars groups ∧
      sky'.starObjects = sky.starObjects ++ groups.flatten ∧
      sky'.getStarObjectCount = sky.getStarObjectCount + (groups.flatten.length : Int) ∧
      40 ≤ groups.flatten.length ∧ groups.flatten.length ≤ 200 := by
  obtain ⟨groups, hg, hexp⟩ := convertStars_expand env stars sky sky' hconv
  obtain ⟨hlen, hshape⟩ := makeStars_shape fuel random stars hgen
  obtain ⟨c1, c2⟩ := expansion_count env stars groups hexp hshape
  refine ⟨hlen, hshape, groups, hexp, hg, ?_, by omega, by omega⟩
  simp only [DistantSky.getStarObjectCount, hg, List.length_append]
  push_cast
  rfl

/-- C14: star expansion. Whenever the star pass of `init` completes (the star loop and the
conversion loop return), exactly 40 stars are generated; a star whose selector (the fourth
output drawn for it, modulo 4) is not `0` is a constellation of 2 to 5 sub-stars and yields
that many small `StarObject`s, all with the star's normalized direction; a star whose
selector is `0` yields exactly one large `StarObject`; the star objects appended to the
catalog are these, in order, so their number lies between 40 and 200. A returning `init` has
run this pass, and the stars of its catalog are those the pass appended. -/
theorem star_expansion (env : InitEnv α) (fuel : Nat) :
    (∀ (random : ArenaRandom) (stars : List Star) (sky sky' : DistantSky α),
      makeStars fuel random = .ok stars → convertStars env stars sky = .ok sky' →
      stars.length = 40 ∧ (∀ s ∈ stars, StarShape s) ∧
      ∃ groups : List (List (StarObject α)),
        List.Forall₂ (StarExpansion env) stars groups ∧
        sky'.starObjects = sky.starObjects ++ groups.flatten ∧
        sky'.getStarObjectCount = sky.getStarObjectCount + (groups.flatten.length : Int) ∧
        40 ≤ groups.flatten.length ∧ groups.flatten.length ≤ 200) ∧
    (∀ (planets : List Bool) (random : ArenaRandom) (spr : Star × List Bool × ArenaRandom),
      makeStar fuel planets random = .ok spr →
      (random.next.2.next.2.next.2.next.1 % 4 ≠ 0 →
        spr.1.type = -1 ∧ 2 ≤ spr.1.subList.length ∧ spr.1.subList.length ≤ 5) ∧
      (random.next.2.next.2.next.2.next.1 % 4 = 0 →
        0 ≤ spr.1.type ∧ spr.1.type < 8 ∧ spr.1.subList = [])) ∧
    (∀ (localCityID provinceID : Int) (weatherType : WeatherType) (currentDay : Int)
      (sky sky' : DistantSky α),
      init env fuel localCityID provinceID weatherType currentDay sky = .ok sky' →
      ∃ (random : ArenaRandom) (stars : List Star) (groups : List (List (StarObject α))),
        makeStars fuel random = .ok stars ∧ stars.length = 40 ∧
        List.Forall₂ (StarExpansion env) stars groups ∧
        sky'.starObjects = sky.starObjects ++ groups.flatten ∧
        sky'.getStarObjectCount = sky.getStarObjectCount + (groups.flatten.length : Int) ∧
        40 ≤ groups.flatten.length ∧ groups.flatten.length ≤ 200) := by
  refine ⟨?_, ?_, ?_⟩
  · intro random stars sky sky' hgen hconv
    exact star_phase_expansion env fuel random stars sky sky' hgen hconv
  · intro planets random spr hs
    exact makeStar_shape fuel planets random spr hs
  · intro localCityID provinceID weatherType currentDay sky sky' h
    obtain ⟨params, sr1, sr2, sky3, sky4, stars, sky5, _, hp1, hp2, hp3, hp4, hst, hp5, hp6⟩ :=
      init_ok_phases env fuel _ _ _ _ sky sky' h
    have s1 := ((placeStaticObjectsLoop_frame env _ _ _ _ _ _ _ _).1 sr1 hp1).2
    have s2 := ((placeClouds_frame env _ _ _ _).1 sr2 hp2).2
    have s3 := ((placeAnimLand_frame env _ _ _).1 sky3 hp3).2
    have s4 := ((placeMoons_frame env _ _).1 sky4 hp4).2
    have s6 := ((placeSun_frame env sky5).1 sky' hp6).1
    obtain ⟨hlen, _, groups, hexp, hg, _, h40, h200⟩ :=
      star_phase_expansion env fuel sr2.2 stars sky4 sky5 hst hp5
    have hstars : sky'.starObjects = sky.starObjects ++ groups.flatten := by
      rw [s6, hg, s4, s3, s2, s1]
    refine ⟨sr2.2, stars, groups, hst, hlen, hexp, hstars, ?_, h40, h200⟩
    simp only [DistantSky.getStarObjectCount, hstars, List.length_append]
    push_cast
    rfl

/-- A returning `init` on the example environment and the expansion of its 40 stars. -/
theorem star_expansion_witness :
    ∃ (sky' : DistantSky ℚ) (stars : List Star) (groups : List (List (StarObject ℚ))),
      init exampleEnv 10 5 3 .Clear 10 DistantSky.construct = .ok sky' ∧
      stars.length = 40 ∧ List.Forall₂ (StarExpansion exampleEnv) stars groups ∧
      sky'.starObjects = (DistantSky.construct : DistantSky ℚ).starObjects ++ groups.flatten ∧
      40 ≤ groups.flatten.length ∧ groups.flatten.length ≤ 200 := by
  have hok : ∃ sky', init exampleEnv 10 5 3 .Clear 10 DistantSky.construct = .ok sky' := by
    cases hm : init exampleEnv 10 5 3 .Clear 10 DistantSky.construct with
    | ok sky' => exact ⟨sky', rfl⟩
    | error e =>
      have hb : (init exampleEnv 10 5 3 .Clear 10 DistantSky.construct).toBool = true := rfl
      rw [hm] at hb
      exact absurd hb (by simp [Except.toBool])
  obtain ⟨sky', hs⟩ := hok
  obtain ⟨_, stars, groups, _, hlen, hexp, hstars, _, h40, h200⟩ :=
    (star_expansion exampleEnv 10).2.2 5 3 .Clear 10 _ sky' hs
  exact ⟨sky', stars, groups, hs, hlen, hexp, hstars, h40, h200⟩

end StarExpansionProofs

section StarFieldSubProofs

variable {α : Type}

/-- With the same palette, two returning sub-star loops append the same small stars. -/
theorem convertSubStars_congr (env₁ env₂ : InitEnv α) (hpal : env₁.palette = env₂.palette)
    (direction : Double3 α) :
    ∀ (subs : List SubStar) (skyA skyB skyA' skyB' : DistantSky α),
      skyA.starObjects = skyB.starObjects →
      convertSubStars env₁ direction subs skyA = .ok skyA' →
      convertSubStars env₂ direction subs skyB = .ok skyB' →
      skyA'.starObjects = skyB'.starObjects := by
  intro subs
  induction subs with
  | nil =>
    intro skyA skyB skyA' skyB' hs hA hB
    simp only [convertSubStars, Except.ok.injEq] at hA hB
    rw [← hA, ← hB]; exact hs
  | cons subStar rest ih =>
    intro skyA skyB skyA' skyB' hs hA hB
    simp only [convertSubStars, hpal] at hA hB
    cases hc : at? env₂.palette subStar.color with
    | error e => simp [hc] at hA
    | ok color =>
      simp only [hc] at hA hB
      exact ih _ _ _ _ (by simp [hs]) hA hB

end StarFieldSubProofs

section StarFieldProofs

variable {α : Type} [LinearOrderedField α]

/-- A returning iteration of `placeStaticObjects` leaves a generator with the same
recurrence. -/
theorem placeStaticObject_recurrence (env : InitEnv α) (baseFilename : List Char)
    (pos var maxDigits : Int) (randomHeight : Bool) (sky : DistantSky α) (random : ArenaRandom)
    (sr : DistantSky α × ArenaRandom)
    (h : placeStaticObject env baseFilename pos var maxDigits randomHeight sky random = .ok sr) :
    sr.2.recurrence = random.recurrence := by
  unfold placeStaticObject at h
  simp only [] at h
  by_cases hassert : (digits random var).1.length ≤ toSizeT maxDigits
  · rw [if_pos hassert] at h
    split at h
    · exact absurd h (by simp)
    · split at h
      · exact absurd h (by simp)
      · cases randomHeight with
        | true =>
          simp only [Bool.not_true, Bool.false_eq_true, if_false, if_true,
            Except.ok.injEq] at h
          subst h
          rfl
        | false =>
          simp only [Bool.not_false, if_true, Bool.false_eq_true, if_false,
            Except.ok.injEq] at h
          subst h
          rfl
  · rw [if_neg hassert] at h
    exact absurd h (by simp)

/-- A returning loop of `placeStaticObjects` leaves a generator with the same recurrence. -/
theorem placeStaticObjectsLoop_recurrence (env : InitEnv α) (baseFilename : List Char)
    (pos var maxDigits : Int) (randomHeight : Bool) :
    ∀ (remaining : Nat) (sky : DistantSky α) (random : ArenaRandom)
      (sr : DistantSky α × ArenaRandom),
      placeStaticObjectsLoop env baseFilename pos var maxDigits randomHeight remaining sky random
        = .ok sr → sr.2.recurrence = random.recurrence := by
  intro remaining
  induction remaining with
  | zero =>
    intro sky random sr h
    simp only [placeStaticObjectsLoop, Except.ok.injEq] at h
    subst h
    rfl
  | succ remaining ih =>
    intro sky random sr h
    simp only [placeStaticObjectsLoop] at h
    split at h
    · exact absurd h (by simp)
    · rename_i sr1 h1
      rw [ih _ _ sr h, placeStaticObject_recurrence env _ _ _ _ _ _ _ sr1 h1]

/-- The star generation only reads the recurrence of the generator it is given: the seed is
replaced by the fixed constant. -/
theorem makeStars_reseed (fuel : Nat) (random₁ random₂ : ArenaRandom)
    (h : random₁.recurrence = random₂.recurrence) :
    makeStars fuel random₁ = makeStars fuel random₂ := by
  have hs : random₁.srand 0x12345679 = random₂.srand 0x12345679 := by
    simp only [ArenaRandom.srand, h]
  simp only [makeStars, hs]

/-- With the same palette, star filename, texture manager and square root, two returning
conversions of a star append the same star objects. -/
theorem convertStar_congr (env₁ env₂ : InitEnv α) (hpal : env₁.palette = env₂.palette)
    (hname : env₁.starFilename = env₂.starFilename)
    (hload : env₁.getSurface = env₂.getSurface) (hsqrt : env₁.sqrt = env₂.sqrt)
    (star : Star) (skyA skyB skyA' skyB' : DistantSky α)
    (hs : skyA.starObjects = skyB.starObjects)
    (hA : convertStar env₁ star skyA = .ok skyA')
    (hB : convertStar env₂ star skyB = .ok skyB') :
    skyA'.starObjects = skyB'.starObjects := by
  simp only [convertStar, decide_eq_true_eq, hsqrt] at hA hB
  by_cases hsmall : star.type = -1
  · rw [if_pos hsmall] at hA hB
    exact convertSubStars_congr env₁ env₂ hpal _ _ _ _ _ _ hs hA hB
  · rw [if_neg hsmall] at hA hB
    have hfile : starFilename env₁ star = starFilename env₂ star := by
      simp only [starFilename, hname]
    rw [hfile, hload] at hA
    cases hf : starFilename env₂ star with
    | error e => simp [hf] at hA
    | ok name =>
      simp only [hf] at hA hB
      cases hg : env₂.getSurface name with
      | none => simp [hg] at hA
      | some surface =>
        simp only [hg, Except.ok.injEq] at hA hB
        rw [← hA, ← hB]
        simp [hs]

/-- With the same palette, star filename, texture manager and square root, two returning
conversion loops append the same star objects. -/
theorem convertStars_congr (env₁ env₂ : InitEnv α) (hpal : env₁.palette = env₂.palette)
    (hname : env₁.starFilename = env₂.starFilename)
    (hload : env₁.getSurface = env₂.getSurface) (hsqrt : env₁.sqrt = env₂.sqrt) :
    ∀ (stars : List Star) (skyA skyB skyA' skyB' : DistantSky α),
      skyA.starObjects = skyB.starObjects →
      convertStars env₁ stars skyA = .ok skyA' →
      convertStars env₂ stars skyB = .ok skyB' →
      skyA'.starObjects = skyB'.starObjects := by
  intro stars
  induction stars with
  | nil =>
    intro skyA skyB skyA' skyB' hs hA hB
    simp only [convertStars, Except.ok.injEq] at hA hB
    rw [← hA, ← hB]; exact hs
  | cons star rest ih =>
    intro skyA skyB skyA' skyB' hs hA hB
    simp only [convertStars] at hA hB
    cases hcA : convertStar env₁ star skyA with
    | error e => simp [hcA] at hA
    | ok skyA1 =>
      cases hcB : convertStar env₂ star skyB with
      | error e => simp [hcB] at hB
      | ok skyB1 =>
        simp only [hcA] at hA
        simp only [hcB] at hB
        exact ih _ _ _ _
          (convertStar_congr env₁ env₂ hpal hname hload hsqrt star _ _ _ _ hs hcA hcB) hA hB

/-- The star phase of a returning `init`: the stars of the final catalog are those the
conversion of the generated stars appended to the stars of the given catalog, and the
generator of the star generation has the recurrence of the environment. -/
theorem init_star_phase (env : InitEnv α) (fuel : Nat) (localCityID provinceID : Int)
    (weatherType : WeatherType) (currentDay : Int) (sky sky' : DistantSky α)
    (h : init env fuel localCityID provinceID weatherType currentDay sky = .ok sky') :
    ∃ (random : ArenaRandom) (stars : List Star) (sky4 sky5 : DistantSky α),
      random.recurrence = env.recurrence ∧
      makeStars fuel random = .ok stars ∧
      convertStars env stars sky4 = .ok sky5 ∧
      sky4.starObjects = sky.starObjects ∧
      sky'.starObjects = sky5.starObjects := by
  obtain ⟨params, sr1, sr2, sky3, sky4, stars, sky5, _, hp1, hp2, hp3, hp4, hst, hp5, hp6⟩ :=
    init_ok_phases env fuel _ _ _ _ sky sky' h
  have r1 := placeStaticObjectsLoop_recurrence env _ _ _ _ _ _ _ _ sr1 hp1
  have r2 : sr2.2.recurrence = sr1.2.recurrence := by
    simp only [placeClouds, placeStaticObjects, decide_eq_true_eq] at hp2
    by_cases hclear : weatherType = WeatherType.Clear
    · rw [if_pos hclear] at hp2
      have r := placeStaticObjectsLoop_recurrence env _ _ _ _ _ _ _ _ sr2 hp2
      rw [r]
      rfl
    · rw [if_neg hclear] at hp2
      simp only [Except.ok.injEq] at hp2
      subst hp2
      rfl
  have s1 := ((placeStaticObjectsLoop_frame env _ _ _ _ _ _ _ _).1 sr1 hp1).2
  have s2 := ((placeClouds_frame env _ _ _ _).1 sr2 hp2).2
  have s3 := ((placeAnimLand_frame env _ _ _).1 sky3 hp3).2
  have s4 := ((placeMoons_frame env _ _).1 sky4 hp4).2
  have s6 := ((placeSun_frame env sky5).1 sky' hp6).1
  refine ⟨sr2.2, stars, sky4, sky5, ?_, hst, hp5, ?_, s6⟩
  · rw [r2, r1]; rfl
  · rw [s4, s3, s2, s1]

/-- C21: the star field is independent of the scene inputs. For two calls of `init` on
fresh catalogs that may differ in city, province, sky seed, weather and day (and fuel), with
the same generator recurrence, palette, star filename template, texture manager and square
root, and that both return, the sequences of star objects (kind, colour or image,
direction) are identical. -/
theorem star_field_independent (env₁ env₂ : InitEnv α) (fuel₁ fuel₂ : Nat)
    (city₁ province₁ city₂ province₂ : Int) (weather₁ weather₂ : WeatherType)
    (day₁ day₂ : Int) (sky₁ sky₂ : DistantSky α)
    (hrec : env₁.recurrence = env₂.recurrence) (hpal : env₁.palette = env₂.palette)
    (hname : env₁.starFilename = env₂.starFilename)
    (hload : env₁.getSurface = env₂.getSurface) (hsqrt : env₁.sqrt = env₂.sqrt)
    (h₁ : init env₁ fuel₁ city₁ province₁ weather₁ day₁ DistantSky.construct = .ok sky₁)
    (h₂ : init env₂ fuel₂ city₂ province₂ weather₂ day₂ DistantSky.construct = .ok sky₂) :
    sky₁.starObjects = sky₂.starObjects := by
  obtain ⟨randomA, starsA, skyA4, skyA5, hrA, hgA, hcA, hsA, hfA⟩ :=
    init_star_phase env₁ fuel₁ _ _ _ _ _ sky₁ h₁
  obtain ⟨randomB, starsB, skyB4, skyB5, hrB, hgB, hcB, hsB, hfB⟩ :=
    init_star_phase env₂ fuel₂ _ _ _ _ _ sky₂ h₂
  have hgen : makeStars fuel₁ randomB = .ok starsA := by
    rw [← makeStars_reseed fuel₁ randomA randomB (by rw [hrA, hrB, hrec])]
    exact hgA
  have hstars : starsA = starsB := makeStars_fuel fuel₁ fuel₂ randomB starsA starsB hgen hgB
  subst hstars
  rw [hfA, hfB]
  exact convertStars_congr env₁ env₂ hpal hname hload hsqrt starsA _ _ _ _
    (by rw [hsA, hsB]) hcA hcB

/-- Two scenes on the example environment, with different city, province, weather and day:
both calls return and their star objects are the same. -/
theorem star_field_independent_witness :
    ∃ sky₁ sky₂ : DistantSky ℚ,
      init exampleEnv 10 5 3 .Clear 10 DistantSky.construct = .ok sky₁ ∧
      init exampleEnv 20 8 1 (.other 2) 77 DistantSky.construct = .ok sky₂ ∧
      sky₁.starObjects = sky₂.starObjects := by
  have hok : ∀ (fuel : Nat) (c p : Int) (w : WeatherType) (d : Int),
      (init exampleEnv fuel c p w d DistantSky.construct).toBool = true →
      ∃ sky, init exampleEnv fuel c p w d DistantSky.construct = .ok sky := by
    intro fuel c p w d hb
    cases hm : init exampleEnv fuel c p w d DistantSky.construct with
    | ok sky => exact ⟨sky, rfl⟩
    | error e => rw [hm] at hb; exact absurd hb (by simp [Except.toBool])
  obtain ⟨sky₁, hs₁⟩ := hok 10 5 3 .Clear 10 rfl
  obtain ⟨sky₂, hs₂⟩ := hok 20 8 1 (.other 2) 77 rfl
  exact ⟨sky₁, sky₂, hs₁, hs₂,
    star_field_independent exampleEnv exampleEnv 10 20 5 3 8 1 .Clear (.other 2) 10 77
      sky₁ sky₂ rfl rfl rfl rfl rfl hs₁ hs₂⟩

end StarFieldProofs

section SplitProofs

/-- The pieces `split` makes once the piece in progress is `cur`: the unfolding of the loop
from a vector of one string. -/
theorem split_fold_cons (separator : Char) (cur : List Char) (c : Char) (rest : List Char) :
    List.foldl (String.splitStep separator) [cur] (c :: rest) =
      if c = separator then cur :: List.foldl (String.splitStep separator) [[]] rest
      else List.foldl (String.splitStep separator) [cur ++ [c]] rest := by
  have hprefix : ∀ (rest : List Char) (init : List (List Char)) (last : List Char),
      List.foldl (String.splitStep separator) (init ++ [last]) rest =
        init ++ List.foldl (String.splitStep separator) [last] rest := by
    intro rest
    induction rest with
    | nil => intro init last; rfl
    | cons d ds ih =>
      intro init last
      simp only [List.foldl_cons, String.splitStep]
      by_cases hd : d = separator
      · simp only [if_pos hd]
        have e1 := ih (init ++ [last]) []
        have e2 := ih [last] []
        rw [e1, e2]
        simp
      · simp only [if_neg hd, List.dropLast_concat, List.getLastD_concat]
        have h1 : ([last] : List (List Char)).dropLast = [] := rfl
        have h2 : ([last] : List (List Char)).getLastD [] = last := rfl
        rw [h1, h2, List.nil_append, ih init (last ++ [d])]
  simp only [List.foldl_cons, String.splitStep]
  by_cases hc : c = separator
  · simp only [if_pos hc]
    exact hprefix rest [cur] []
  · simp only [if_neg hc]
    rfl

/-- Joining with a separator: the first piece, the separator, then the joined rest. -/
theorem intercalate_cons_cons (sep x y : List Char) (l : List (List Char)) :
    List.intercalate sep (x :: y :: l) = x ++ sep ++ List.intercalate sep (y :: l) := by
  simp [List.intercalate, List.intersperse]

/-- The pieces made from a piece in progress `cur` and the rest of the input: their number,
their join, and the absence of the separator in them. -/
theorem split_fold_spec (separator : Char) :
    ∀ (rest cur : List Char), separator ∉ cur →
      List.foldl (String.splitStep separator) [cur] rest ≠ [] ∧
      (List.foldl (String.splitStep separator) [cur] rest).length =
        1 + rest.count separator ∧
      (∀ piece ∈ List.foldl (String.splitStep separator) [cur] rest, separator ∉ piece) ∧
      List.intercalate [separator] (List.foldl (String.splitStep separator) [cur] rest) =
        cur ++ rest := by
  intro rest
  induction rest with
  | nil =>
    intro cur hcur
    refine ⟨by simp, by simp, ?_, by simp [List.intercalate]⟩
    intro piece hp
    simp only [List.foldl_nil, List.mem_singleton] at hp
    rw [hp]; exact hcur
  | cons c rest ih =>
    intro cur hcur
    rw [split_fold_cons]
    by_cases hc : c = separator
    · simp only [if_pos hc]
      obtain ⟨hne, hlen, hall, hjoin⟩ := ih [] (by simp)
      refine ⟨by simp, ?_, ?_, ?_⟩
      · rw [List.length_cons, hlen, hc, List.count_cons_self]; omega
      · intro piece hp
        rcases List.mem_cons.mp hp with hp | hp
        · rw [hp]; exact hcur
        · exact hall piece hp
      · obtain ⟨y, l, hyl⟩ := List.exists_cons_of_ne_nil hne
        rw [hyl, intercalate_cons_cons, ← hyl, hjoin, hc]
        simp
    · simp only [if_neg hc]
      have hcur' : separator ∉ cur ++ [c] := by
        simp only [List.mem_append, List.mem_singleton, not_or]
        exact ⟨hcur, fun h => hc h.symm⟩
      obtain ⟨hne, hlen, hall, hjoin⟩ := ih (cur ++ [c]) hcur'
      refine ⟨hne, ?_, hall, ?_⟩
      · rw [hlen, List.count_cons_of_ne (fun h => hc h.symm)]
      · rw [hjoin]; simp

/-- C22: round trip of `String::split`. For every string and separator, `split` returns
`1 +` (the number of occurrences of the separator) pieces, no piece contains the separator,
and joining the pieces with the separator gives the string back; the empty string yields
one empty piece; and `split(str)` is `split(str, ' ')`. -/
theorem split_round_trip (str : List Char) (separator : Char) :
    (String.split str separator).length = 1 + str.count separator ∧
    (∀ piece ∈ String.split str separator, separator ∉ piece) ∧
    List.intercalate [separator] (String.split str separator) = str ∧
    String.split [] separator = [[]] ∧
    String.splitSpaces str = String.split str ' ' := by
  obtain ⟨_, hlen, hall, hjoin⟩ := split_fold_spec separator str [] (by simp)
  exact ⟨hlen, hall, by simpa using hjoin, rfl, rfl⟩

end SplitProofs

section ReplaceProofs

/-- Skipping `k` characters in the scan is scanning the string without its first `k`
characters. -/
theorem replaceScan_skip (a b : List Char) :
    ∀ (k : Nat) (s : List Char), replaceScan a b k s = replaceScan a b 0 (s.drop k) := by
  intro k
  induction k with
  | zero => intro s; rfl
  | succ k ih =>
    intro s
    cases s with
    | nil => simp [replaceScan]
    | cons c cs => simp only [replaceScan, List.drop_succ_cons]; exact ih cs

/-- The count with `k` characters to skip is the count on the string without its first `k`
characters. -/
theorem countScan_skip (a : List Char) :
    ∀ (k : Nat) (s : List Char), countScan a k s = countScan a 0 (s.drop k) := by
  intro k
  induction k with
  | zero => intro s; rfl
  | succ k ih =>
    intro s
    cases s with
    | nil => simp [countScan]
    | cons c cs => simp only [countScan, List.drop_succ_cons]; exact ih cs

/-- The scan at a character, with nothing to skip. -/
theorem replaceScan_zero_cons (a b : List Char) (c : Char) (cs : List Char) :
    replaceScan a b 0 (c :: cs)
      = if a.isPrefixOf (c :: cs) = true then b ++ replaceScan a b (a.length - 1) cs
        else c :: replaceScan a b 0 cs := by
  rw [replaceScan]

/-- The count at a character, with nothing to skip. -/
theorem countScan_zero_cons (a : List Char) (c : Char) (cs : List Char) :
    countScan a 0 (c :: cs)
      = if a.isPrefixOf (c :: cs) = true then 1 + countScan a (a.length - 1) cs
        else countScan a 0 cs := by
  rw [countScan]

/-- The search at a character. -/
theorem findAt_cons (a : List Char) (c : Char) (cs : List Char) (index : Nat) :
    findAt a (c :: cs) index
      = if a.isPrefixOf (c :: cs) = true then some index else findAt a cs (index + 1) := by
  rw [findAt]

/-- The scan at an occurrence: `b` is written and the scan goes on behind the occurrence. -/
theorem replaceScan_append (a b : List Char) (ha : a ≠ []) (post : List Char) :
    replaceScan a b 0 (a ++ post) = b ++ replaceScan a b 0 post := by
  cases a with
  | nil => exact absurd rfl ha
  | cons x xs =>
    have hp : (x :: xs).isPrefixOf (x :: (xs ++ post)) = true := by
      rw [List.isPrefixOf_iff_prefix]
      exact ⟨post, rfl⟩
    show replaceScan (x :: xs) b 0 (x :: (xs ++ post)) = b ++ replaceScan (x :: xs) b 0 post
    rw [replaceScan_zero_cons, if_pos hp, replaceScan_skip, List.length_cons,
      Nat.add_sub_cancel, List.drop_left]

/-- The scan at a position where `a` does not start: the character is copied. -/
theorem replaceScan_cons (a b : List Char) (c : Char) (cs : List Char)
    (h : ¬ a <+: c :: cs) :
    replaceScan a b 0 (c :: cs) = c :: replaceScan a b 0 cs := by
  have hp : ¬ (a.isPrefixOf (c :: cs) = true) := by
    rw [List.isPrefixOf_iff_prefix]; exact h
  rw [replaceScan_zero_cons, if_neg hp]

/-- The count at an occurrence. -/
theorem countScan_append (a : List Char) (ha : a ≠ []) (post : List Char) :
    countScan a 0 (a ++ post) = 1 + countScan a 0 post := by
  cases a with
  | nil => exact absurd rfl ha
  | cons x xs =>
    have hp : (x :: xs).isPrefixOf (x :: (xs ++ post)) = true := by
      rw [List.isPrefixOf_iff_prefix]
      exact ⟨post, rfl⟩
    show countScan (x :: xs) 0 (x :: (xs ++ post)) = 1 + countScan (x :: xs) 0 post
    rw [countScan_zero_cons, if_pos hp, countScan_skip, List.length_cons,
      Nat.add_sub_cancel, List.drop_left]

/-- The count at a position where `a` does not start. -/
theorem countScan_cons (a : List Char) (c : Char) (cs : List Char) (h : ¬ a <+: c :: cs) :
    countScan a 0 (c :: cs) = countScan a 0 cs := by
  have hp : ¬ (a.isPrefixOf (c :: cs) = true) := by
    rw [List.isPrefixOf_iff_prefix]; exact h
  rw [countScan_zero_cons, if_neg hp]

/-- The induction along the scan: a property of the empty string that goes from `post` to
`a ++ post` and from `cs` to `c :: cs` where `a` does not start holds of every string. -/
theorem scan_induction (a : List Char) (ha : a ≠ []) (P : List Char → Prop)
    (hnil : P [])
    (hocc : ∀ post, P post → P (a ++ post))
    (hcopy : ∀ c cs, ¬ a <+: c :: cs → P cs → P (c :: cs)) :
    ∀ s, P s := by
  have key : ∀ (n : Nat) (s : List Char), s.length = n → P s := by
    intro n
    induction n using Nat.strong_induction_on with
    | _ n ih =>
      intro s hn
      cases s with
      | nil => exact hnil
      | cons c cs =>
        by_cases hp : a <+: c :: cs
        · obtain ⟨post, hpost⟩ := hp
          rw [← hpost]
          have hlen : post.length < n := by
            have h1 : (a ++ post).length = n := by rw [hpost]; exact hn
            have h2 : 0 < a.length := List.length_pos.mpr ha
            rw [List.length_append] at h1
            omega
          exact hocc post (ih post.length hlen post rfl)
        · have hlen : cs.length < n := by
            rw [← hn, List.length_cons]; omega
          exact hcopy c cs hp (ih cs.length hlen cs rfl)
  intro s
  exact key s.length s rfl

/-- Where `a` does not occur the scan copies the string. -/
theorem replaceScan_of_not_infix (a b : List Char) :
    ∀ s : List Char, ¬ a <:+: s → replaceScan a b 0 s = s := by
  intro s
  induction s with
  | nil => intro _; rfl
  | cons c cs ih =>
    intro h
    rw [List.infix_cons_iff, not_or] at h
    rw [replaceScan_cons a b c cs h.1, ih h.2]

/-- Where `a` does not occur the count is zero. -/
theorem countScan_of_not_infix (a : List Char) :
    ∀ s : List Char, ¬ a <:+: s → countScan a 0 s = 0 := by
  intro s
  induction s with
  | nil => intro _; rfl
  | cons c cs ih =>
    intro h
    rw [List.infix_cons_iff, not_or] at h
    rw [countScan_cons a c cs h.1, ih h.2]

/-- Replacing `a` by itself in the scan copies the string. -/
theorem replaceScan_self (a : List Char) (ha : a ≠ []) (s : List Char) :
    replaceScan a a 0 s = s := by
  refine scan_induction a ha (fun s => replaceScan a a 0 s = s) rfl ?_ ?_ s
  · intro post ih
    show replaceScan a a 0 (a ++ post) = a ++ post
    rw [replaceScan_append a a ha, ih]
  · intro c cs hp ih
    show replaceScan a a 0 (c :: cs) = c :: cs
    rw [replaceScan_cons a a c cs hp, ih]

/-- The length of the scan result. -/
theorem replaceScan_length (a b : List Char) (ha : a ≠ []) (s : List Char) :
    ((replaceScan a b 0 s).length : Int)
      = (s.length : Int) + (countScan a 0 s : Int) * ((b.length : Int) - (a.length : Int)) := by
  refine scan_induction a ha
    (fun s => ((replaceScan a b 0 s).length : Int)
      = (s.length : Int) + (countScan a 0 s : Int) * ((b.length : Int) - (a.length : Int)))
    ?_ ?_ ?_ s
  · simp [replaceScan, countScan]
  · intro post ih
    show ((replaceScan a b 0 (a ++ post)).length : Int)
      = ((a ++ post).length : Int)
        + (countScan a 0 (a ++ post) : Int) * ((b.length : Int) - (a.length : Int))
    rw [replaceScan_append a b ha, countScan_append a ha, List.length_append,
      List.length_append]
    push_cast
    rw [ih]
    ring
  · intro c cs hp ih
    show ((replaceScan a b 0 (c :: cs)).length : Int)
      = ((c :: cs).length : Int)
        + (countScan a 0 (c :: cs) : Int) * ((b.length : Int) - (a.length : Int))
    rw [replaceScan_cons a b c cs hp, countScan_cons a c cs hp, List.length_cons,
      List.length_cons]
    push_cast
    rw [ih]
    ring

/-- The search of `find`: either `a` is not found and the scan copies the rest, or the rest
is `pre ++ a ++ post` with the occurrence found behind `pre`, and the scan copies `pre`,
writes `b` and goes on with `post`. -/
theorem findAt_spec (a b : List Char) (ha : a ≠ []) :
    ∀ (rest : List Char) (i : Nat),
      (findAt a rest i = none ∧ replaceScan a b 0 rest = rest) ∨
      (∃ pre post, rest = pre ++ a ++ post ∧ findAt a rest i = some (i + pre.length) ∧
        replaceScan a b 0 rest = pre ++ b ++ replaceScan a b 0 post) := by
  intro rest
  induction rest with
  | nil =>
    intro i
    left
    have hp : ¬ (a.isPrefixOf [] = true) := by
      rw [List.isPrefixOf_iff_prefix, List.prefix_nil]; exact ha
    exact ⟨by rw [findAt, if_neg hp], rfl⟩
  | cons c cs ih =>
    intro i
    by_cases hp : a <+: c :: cs
    · right
      obtain ⟨post, hpost⟩ := hp
      refine ⟨[], post, by simpa using hpost.symm, ?_, ?_⟩
      · have hb : a.isPrefixOf (c :: cs) = true := by
          rw [List.isPrefixOf_iff_prefix]; exact ⟨post, hpost⟩
        rw [findAt_cons, if_pos hb]; rfl
      · rw [← hpost, replaceScan_append a b ha]; rfl
    · have hb : ¬ (a.isPrefixOf (c :: cs) = true) := by
        rw [List.isPrefixOf_iff_prefix]; exact hp
      rcases ih (i + 1) with ⟨hnone, hscan⟩ | ⟨pre, post, hrest, hfind, hscan⟩
      · left
        refine ⟨by rw [findAt_cons, if_neg hb]; exact hnone, ?_⟩
        rw [replaceScan_cons a b c cs hp, hscan]
      · right
        refine ⟨c :: pre, post, by simp [hrest], ?_, ?_⟩
        · rw [findAt_cons, if_neg hb, hfind, List.length_cons]
          congr 1
          omega
        · rw [replaceScan_cons a b c cs hp, hscan]; rfl

/-- With nothing found the loop of `replace` is left at once. -/
theorem replaceLoop_none (a b : List Char) (fuel : Nat) (newStr : List Char) :
    String.replaceLoop a b fuel newStr none = some newStr := by
  cases fuel <;> rfl

/-- The search of `find` from the end of the part already handled. -/
theorem findString_append (a done rest : List Char) :
    findString (done ++ rest) a done.length = findAt a rest done.length := by
  have h : done.length ≤ (done ++ rest).length := by simp
  simp only [findString, h, if_true, List.drop_left]

/-- The loop of `replace` from a state `done ++ rest`, with the search started at the end
of `done`: with fuel for the rest it returns `done` followed by the scan of `rest`, and a
run that returns returns that. -/
theorem replaceLoop_spec (a b : List Char) (ha : a ≠ []) :
    ∀ (fuel : Nat) (done rest : List Char),
      (rest.length ≤ fuel →
        String.replaceLoop a b fuel (done ++ rest) (findAt a rest done.length)
          = some (done ++ replaceScan a b 0 rest)) ∧
      (∀ r, String.replaceLoop a b fuel (done ++ rest) (findAt a rest done.length) = some r →
        r = done ++ replaceScan a b 0 rest) := by
  intro fuel
  induction fuel with
  | zero =>
    intro done rest
    rcases findAt_spec a b ha rest done.length with
      ⟨hnone, hscan⟩ | ⟨pre, post, hrest, hfind, hscan⟩
    · rw [hnone, hscan, replaceLoop_none]
      exact ⟨fun _ => rfl, fun r h => (Option.some.inj h).symm⟩
    · rw [hfind]
      constructor
      · intro hlen
        have h2 : 0 < a.length := List.length_pos.mpr ha
        rw [hrest] at hlen
        simp only [List.length_append] at hlen
        omega
      · intro r h
        exact absurd h (by simp [String.replaceLoop])
  | succ fuel ih =>
    intro done rest
    rcases findAt_spec a b ha rest done.length with
      ⟨hnone, hscan⟩ | ⟨pre, post, hrest, hfind, hscan⟩
    · rw [hnone, hscan, replaceLoop_none]
      exact ⟨fun _ => rfl, fun r h => (Option.some.inj h).symm⟩
    · have htake : (done ++ rest).take (done.length + pre.length) = done ++ pre := by
        rw [hrest]
        have e : done ++ (pre ++ a ++ post) = (done ++ pre) ++ (a ++ post) := by simp
        rw [e]
        exact List.take_left' (by simp)
      have hdrop : (done ++ rest).drop (done.length + pre.length + a.length) = post := by
        rw [hrest]
        have e : done ++ (pre ++ a ++ post) = (done ++ pre ++ a) ++ post := by simp
        rw [e]
        exact List.drop_left' (by simp [Nat.add_assoc])
      have hlen : (done ++ pre ++ b).length = done.length + pre.length + b.length := by
        simp [Nat.add_assoc]
      have hstep : String.replaceLoop a b (fuel + 1) (done ++ rest) (findAt a rest done.length)
          = String.replaceLoop a b fuel ((done ++ pre ++ b) ++ post)
              (findAt a post (done ++ pre ++ b).length) := by
        rw [hfind]
        simp only [String.replaceLoop]
        rw [htake, hdrop, ← hlen, findString_append]
      rw [hstep, hscan]
      have hih := ih (done ++ pre ++ b) post
      have hassoc : done ++ pre ++ b ++ replaceScan a b 0 post
          = done ++ (pre ++ b ++ replaceScan a b 0 post) := by simp
      rw [← hassoc]
      constructor
      · intro hle
        apply hih.1
        have h2 : 0 < a.length := List.length_pos.mpr ha
        rw [hrest] at hle
        simp only [List.length_append] at hle
        omega
      · exact hih.2

/-- C23: `String::replace(str, a, b)` replaces all instances. For a non-empty `a` the code,
with fuel for the length of `str`, returns the left-to-right, non-overlapping scan of `str`
with each occurrence of `a` replaced by `b` (the search goes on behind the inserted `b`),
and every run that returns returns it; the result is `str` when `a` does not occur in `str`
and when `b` is `a`, and its length is `length str + m * (length b - length a)` for the
number `m` of occurrences the scan finds. -/
theorem replace_all_instances (str a b : List Char) (ha : a ≠ []) :
    (∀ fuel, str.length ≤ fuel →
        String.replace fuel str a b = some (replaceScan a b 0 str)) ∧
      (∀ fuel r, String.replace fuel str a b = some r → r = replaceScan a b 0 str) ∧
      (¬ a <:+: str → ∀ fuel, String.replace fuel str a b = some str) ∧
      (∀ fuel, str.length ≤ fuel → String.replace fuel str a a = some str) ∧
      (∀ fuel r, String.replace fuel str a b = some r →
        (r.length : Int)
          = (str.length : Int)
            + (countScan a 0 str : Int) * ((b.length : Int) - (a.length : Int))) ∧
      (¬ a <:+: str → countScan a 0 str = 0) := by
  have hrun : ∀ (b : List Char) (fuel : Nat),
      String.replace fuel str a b
        = String.replaceLoop a b fuel ([] ++ str) (findAt a str ([] : List Char).length) := by
    intro b fuel
    have h := findString_append a [] str
    simp only [List.nil_append, List.length_nil] at h
    simp only [String.replace, List.nil_append, List.length_nil, h]
  have hfull : ∀ (b : List Char) (fuel : Nat), str.length ≤ fuel →
      String.replace fuel str a b = some (replaceScan a b 0 str) := by
    intro b fuel hle
    rw [hrun b fuel]
    exact (replaceLoop_spec a b ha fuel [] str).1 hle
  have hany : ∀ fuel r, String.replace fuel str a b = some r → r = replaceScan a b 0 str := by
    intro fuel r h
    rw [hrun b fuel] at h
    exact (replaceLoop_spec a b ha fuel [] str).2 r h
  refine ⟨hfull b, hany, ?_, ?_, ?_, countScan_of_not_infix a str⟩
  · intro hno fuel
    rw [hrun b fuel]
    rcases findAt_spec a b ha str 0 with ⟨hnone, _⟩ | ⟨pre, post, hrest, _, _⟩
    · simp only [List.length_nil, hnone, replaceLoop_none, List.nil_append]
    · exact absurd ⟨pre, post, hrest.symm⟩ hno
  · intro fuel hle
    rw [hfull a fuel hle, replaceScan_self a ha]
  · intro fuel r h
    rw [hany fuel r h]
    exact replaceScan_length a b ha str

/-- The replacement of "X" by "YY" in "aXbXXc": three occurrences, the result has
`6 + 3 * (2 - 1)` characters. -/
theorem replace_all_instances_witness :
    "X".toList ≠ [] ∧
      String.replace 6 "aXbXXc".toList "X".toList "YY".toList = some "aYYbYYYYc".toList ∧
      countScan "X".toList 0 "aXbXXc".toList = 3 :=
  ⟨by decide,
    (replace_all_instances "aXbXXc".toList "X".toList "YY".toList (by decide)).1 6 (by decide),
    by decide⟩

end ReplaceProofs

section PaletteIndexProofs

variable {α : Type}

/-- C24: palette index of a sub-star. For the generator output `r` drawn for the colour,
the stored index is `(r mod 10) + 64`: it lies in `[64, 73]`, fits in 8 bits without
truncation, and the bounds-checked lookup in a palette of 256 entries succeeds. -/
theorem substar_color_range (random : ArenaRandom) :
    (makeSubStar random).1.color = random.next.2.next.2.next.1 % 10 + 64 ∧
    64 ≤ (makeSubStar random).1.color ∧ (makeSubStar random).1.color ≤ 73 ∧
    (makeSubStar random).1.color < 2 ^ 8 ∧
    ∀ env : InitEnv α, env.palette.length = 256 →
      ∃ color, at? env.palette (makeSubStar random).1.color = .ok color := by
  have hcolor : (makeSubStar random).1.color = random.next.2.next.2.next.1 % 10 + 64 := by
    simp only [makeSubStar]
    omega
  have hlt := Nat.mod_lt random.next.2.next.2.next.1 (show 0 < 10 by decide)
  refine ⟨hcolor, by omega, by omega, by omega, ?_⟩
  intro env hlen
  have hin : (makeSubStar random).1.color < env.palette.length := by omega
  exact ⟨env.palette[(makeSubStar random).1.color], by
    simp [at?, List.getElem?_eq_getElem hin]⟩

end PaletteIndexProofs

section DayProofs

variable {α : Type} [LinearOrderedField α]

/-- For a non-negative day, the truncating remainder modulo `32` has period `32`. -/
theorem tmod_add_period (d : Int) (h : 0 ≤ d) : Int.tmod (d + 32) 32 = Int.tmod d 32 := by
  rw [Int.tmod_eq_emod (by omega) (by decide), Int.tmod_eq_emod h (by decide)]
  omega

/-- C25: day periodicity of the catalog. For `currentDay ≥ 0` with `currentDay + 46` inside
the range of `int`, and all other inputs fixed, `init` with `currentDay + 32` and `init`
with `currentDay` have the same outcome, hence the same catalog: the day enters only
through `currentDay % 32` in the cloud seed and through the two moon phase indices. -/
theorem init_day_periodic (env : InitEnv α) (fuel : Nat) (localCityID provinceID : Int)
    (weatherType : WeatherType) (currentDay : Int) (h : 0 ≤ currentDay)
    (hmax : currentDay + 46 < 2 ^ 31) (sky : DistantSky α) :
    init env fuel localCityID provinceID weatherType (currentDay + 32) sky =
      init env fuel localCityID provinceID weatherType currentDay sky := by
  have hphase : ∀ type, phaseIndex (currentDay + 32) type = phaseIndex currentDay type := by
    intro type
    cases type
    · rw [phaseIndex_first, phaseIndex_first, tmod_add_period currentDay h]
    · rw [phaseIndex_second (currentDay + 32) (by omega) (by omega),
        phaseIndex_second currentDay (by omega) (by omega)]
      have := tmod_add_period (currentDay + 14) (by omega)
      rw [← this]
      congr 2
      ring
  have hmoon : ∀ type, makeMoon env (currentDay + 32) type = makeMoon env currentDay type := by
    intro type
    simp only [makeMoon, hphase]
  have hmoons : ∀ s : DistantSky α, placeMoons env (currentDay + 32) s
      = placeMoons env currentDay s := by
    intro s
    simp only [placeMoons, hmoon]
  have hclouds : ∀ (s : DistantSky α) (random : ArenaRandom),
      placeClouds env weatherType (currentDay + 32) s random =
        placeClouds env weatherType currentDay s random := by
    intro s random
    simp only [placeClouds, tmod_add_period currentDay h]
  simp only [init, hmoons, hclouds]

/-- The days `10` and `42` on the example environment: the same outcome of `init`. -/
theorem init_day_periodic_witness :
    init exampleEnv 10 5 3 .Clear (10 + 32) DistantSky.construct =
      init exampleEnv 10 5 3 .Clear 10 DistantSky.construct :=
  init_day_periodic exampleEnv 10 5 3 .Clear 10 (by decide) (by decide) DistantSky.construct

end DayProofs

section WidthProofs

variable {α : Type} [LinearOrderedField α]

/-- The variant value lies in `[1, var]` for `1 ≤ var` inside the range of `int`. -/
theorem variantValue_range (r : Nat) (var : Int) (h1 : 1 ≤ var) (h2 : var < 2 ^ 31) :
    1 ≤ variantValue r var ∧ variantValue r var ≤ var := by
  obtain ⟨m, rfl⟩ : ∃ m : Nat, var = (m : Int) := ⟨var.toNat, by omega⟩
  have hconv : toUInt32 (m : Int) = m := by
    unfold toUInt32
    rw [Int.emod_eq_of_lt (by omega) (by omega), Int.toNat_ofNat]
  have hlt : r % m < m := Nat.mod_lt _ (by omega)
  have hto : toInt32 (r % m) = ((r % m : Nat) : Int) := by
    unfold toInt32
    have : r % m % 2 ^ 32 = r % m := Nat.mod_eq_of_lt (by omega)
    rw [this, if_pos (by omega)]
  unfold variantValue
  rw [hconv, hto]
  have hv0 : (0 : Int) ≤ ((r % m : Nat) : Int) := Int.natCast_nonneg _
  have hv1 : ((r % m : Nat) : Int) < (m : Int) := by exact_mod_cast hlt
  generalize ((r % m : Nat) : Int) = v at hv0 hv1 ⊢
  show 1 ≤ (if v = 0 then (m : Int) else v) ∧ (if v = 0 then (m : Int) else v) ≤ (m : Int)
  split_ifs with h0
  · omega
  · omega

/-- The decimal string of a value from `1` to `9` has one character, that of a value from
`10` to `17` two. -/
theorem to_string_length_small (v : Int) (h1 : 1 ≤ v) (h17 : v ≤ 17) :
    (v ≤ 9 → (to_string v).length = 1) ∧ (to_string v).length ≤ 2 := by
  obtain ⟨n, rfl⟩ : ∃ n : Nat, v = (n : Int) := ⟨v.toNat, by omega⟩
  have hn1 : 1 ≤ n := by omega
  have hn17 : n ≤ 17 := by omega
  interval_cases n <;> exact ⟨by decide, by decide⟩

/-- C26: validity of the width assertion of `placeStaticObjects`. For each parameter set
`init` uses, `(var, maxDigits)` = `(10, 2)`, `(4, 1)`, `(11, 2)` (the climates) and
`(17, 2)` (the clouds), and for every generator state, the decimal string of the chosen
variant has at most `maxDigits` characters: the asserted comparison holds, the write offset
`maxDigits - digitCount` is not negative, and an iteration never fails on the `assert`. -/
theorem width_assertion_valid (env : InitEnv α) :
    (∀ (var maxDigits : Int) (random : ArenaRandom),
      (var, maxDigits) ∈ [((10 : Int), (2 : Int)), (4, 1), (11, 2), (17, 2)] →
      ((digits random var).1.length : Int) ≤ maxDigits ∧
      (digits random var).1.length ≤ toSizeT maxDigits ∧
      0 ≤ maxDigits - ((digits random var).1.length : Int) ∧
      ∀ (baseFilename : List Char) (pos : Int) (randomHeight : Bool) (sky : DistantSky α)
        (e : InitError × DistantSky α),
        placeStaticObject env baseFilename pos var maxDigits randomHeight sky random
          = .error e → e.1 ≠ .assertFailed) ∧
    (∀ (climateType : ClimateType) (params : List Char × Int × Int × Int),
      climateParameters env climateType = .ok params →
      (params.2.2.1, params.2.2.2) ∈ [((10 : Int), (2 : Int)), (4, 1), (11, 2)]) := by
  constructor
  · intro var maxDigits random hmem
    have hcases : (var = 10 ∧ maxDigits = 2) ∨ (var = 4 ∧ maxDigits = 1) ∨
        (var = 11 ∧ maxDigits = 2) ∨ (var = 17 ∧ maxDigits = 2) := by
      simpa using hmem
    have hlen : ((digits random var).1.length : Int) ≤ maxDigits ∧
        (digits random var).1.length ≤ toSizeT maxDigits := by
      simp only [digits]
      rcases hcases with ⟨rfl, rfl⟩ | ⟨rfl, rfl⟩ | ⟨rfl, rfl⟩ | ⟨rfl, rfl⟩
      · obtain ⟨a, b⟩ := variantValue_range random.next.1 10 (by decide) (by decide)
        have := (to_string_length_small _ a (by omega)).2
        exact ⟨by omega, by rw [show toSizeT 2 = 2 by decide]; exact this⟩
      · obtain ⟨a, b⟩ := variantValue_range random.next.1 4 (by decide) (by decide)
        have := (to_string_length_small _ a (by omega)).1 (by omega)
        exact ⟨by omega, by rw [show toSizeT 1 = 1 by decide]; omega⟩
      · obtain ⟨a, b⟩ := variantValue_range random.next.1 11 (by decide) (by decide)
        have := (to_string_length_small _ a (by omega)).2
        exact ⟨by omega, by rw [show toSizeT 2 = 2 by decide]; exact this⟩
      · obtain ⟨a, b⟩ := variantValue_range random.next.1 17 (by decide) (by decide)
        have := (to_string_length_small _ a (by omega)).2
        exact ⟨by omega, by rw [show toSizeT 2 = 2 by decide]; exact this⟩
    refine ⟨hlen.1, hlen.2, by omega, ?_⟩
    intro baseFilename pos randomHeight sky e he
    unfold placeStaticObject at he
    simp only [] at he
    rw [if_pos hlen.2] at he
    split at he
    · rename_i e' hf
      simp only [Except.error.injEq] at he
      subst he
      rw [filename_error _ _ _ _ _ hf]
      simp
    · split at he
      · simp only [Except.error.injEq] at he
        subst he
        simp
      · cases randomHeight <;> simp at he
  · intro climateType params hp
    cases climateType with
    | other raw => simp [climateParameters] at hp
    | Temperate =>
      simp only [climateParameters] at hp
      split at hp
      · simp only [Except.ok.injEq] at hp
        subst hp
        simp
      · exact absurd hp (by simp)
    | Desert =>
      simp only [climateParameters] at hp
      split at hp
      · simp only [Except.ok.injEq] at hp
        subst hp
        simp
      · exact absurd hp (by simp)
    | Mountain =>
      simp only [climateParameters] at hp
      split at hp
      · simp only [Except.ok.injEq] at hp
        subst hp
        simp
      · exact absurd hp (by simp)

end WidthProofs

section ReplaceEmptyProofs

/-- The search for the empty string succeeds at its starting index. -/
theorem findAt_nil (s : List Char) (index : Nat) : findAt [] s index = some index := by
  cases s <;> simp [findAt]

/-- The search for the empty string from a position inside the string returns that
position. -/
theorem findString_nil (s : List Char) (pos : Nat) (h : pos ≤ s.length) :
    findString s [] pos = some pos := by
  simp [findString, h, findAt_nil]

/-- With the empty pattern the loop of `replace` never leaves: every fuel is used up. -/
theorem replaceLoop_nil (b : List Char) :
    ∀ (fuel : Nat) (newStr : List Char) (index : Nat), index ≤ newStr.length →
      String.replaceLoop [] b fuel newStr (some index) = none := by
  intro fuel
  induction fuel with
  | zero => intro newStr index _; rfl
  | succ fuel ih =>
    intro newStr index h
    have hlen : index + b.length ≤ (newStr.take index ++ b ++ newStr.drop (index + 0)).length := by
      simp only [List.length_append, List.length_take, List.length_drop, Nat.add_zero]
      omega
    simp only [String.replaceLoop, List.length_nil]
    rw [findString_nil _ _ hlen]
    exact ih _ _ hlen

/-- C27: `replace` with an empty pattern does not return. The search for the empty string
succeeds at every index, so the loop condition never fails: for every fuel the run of
`String.replace str "" b` is still inside the loop, in particular for "abc" with an empty
replacement. -/
theorem replace_empty_pattern_diverges :
    (∀ (fuel : Nat) (str b : List Char), String.replace fuel str [] b = none) ∧
      (∀ fuel : Nat, String.replace fuel "abc".toList [] [] = none) := by
  have h : ∀ (fuel : Nat) (str b : List Char), String.replace fuel str [] b = none := by
    intro fuel str b
    simp only [String.replace]
    rw [findString_nil _ _ (Nat.zero_le _)]
    exact replaceLoop_nil b fuel str 0 (Nat.zero_le _)
  exact ⟨h, fun fuel => h fuel _ _⟩

end ReplaceEmptyProofs

section DistributeProofs

/-- Inserting after the first `k + 2` characters of the looping state. -/
theorem insertIdx_state (k : Nat) :
    ('a' :: 'b' :: (List.replicate k '\n' ++ ['c'])).insertIdx (k + 2) '\n'
      = 'a' :: 'b' :: (List.replicate (k + 1) '\n' ++ ['c']) := by
  have h : ∀ (k : Nat) (rest : List Char),
      (List.replicate k '\n' ++ rest).insertIdx k '\n' = List.replicate (k + 1) '\n' ++ rest := by
    intro k
    induction k with
    | zero => intro rest; rfl
    | succ k ih =>
      intro rest
      simp only [List.replicate_succ, List.cons_append, List.insertIdx_succ_cons, ih]
  simp only [List.insertIdx_succ_cons, h]

/-- The character read in the looping state is a newline, not a space. -/
theorem state_getElem (k : Nat) :
    ('a' :: 'b' :: (List.replicate k '\n' ++ ['c']))[k + 1]? ≠ some ' ' := by
  cases k with
  | zero => simp
  | succ k =>
    simp only [List.getElem?_cons_succ]
    rw [List.getElem?_append_left (by simp)]
    simp [List.getElem?_replicate]

/-- The looping state of `distributeNewlines` on "abc" with limit 1: after `k` insertions
the index is `k + 1`, one character before the last, and the next iteration inserts again. -/
theorem distributeLoop_state :
    ∀ (fuel k : Nat),
      String.distributeLoop 1 fuel ('a' :: 'b' :: (List.replicate k '\n' ++ ['c'])) (-1) 1 (k + 1)
        = none := by
  intro fuel
  induction fuel with
  | zero =>
    intro k
    simp [String.distributeLoop]
  | succ fuel ih =>
    intro k
    have hlt : k + 1 < ('a' :: 'b' :: (List.replicate k '\n' ++ ['c'])).length := by simp
    have hne : ((k + 1 : Nat) : Int)
        ≠ ((('a' :: 'b' :: (List.replicate k '\n' ++ ['c'])).length - 1 : Nat) : Int) := by
      simp
    rw [String.distributeLoop]
    rw [if_pos hlt, if_neg (state_getElem k)]
    rw [if_pos ⟨rfl, hne⟩, if_pos rfl, insertIdx_state k]
    exact ih (k + 1)

/-- C28: `distributeNewlines` does not return for "abc" with limit 1. After the first
character the line is full at index 1; no space was seen, so a newline is inserted after the
index and the index moves onto it with the line length back at 1; the string grew by one, so
the index is again one before the last and the step repeats for ever. -/
theorem distributeNewlines_diverges :
    ∀ fuel : Nat, String.distributeNewlines fuel "abc".toList 1 = none := by
  intro fuel
  cases fuel with
  | zero => rfl
  | succ fuel =>
    have h := distributeLoop_state fuel 0
    simp only [String.distributeNewlines]
    rw [String.distributeLoop]
    simpa using h

end DistributeProofs

section TrimProofs

/-- C29, at the input where the code leaves defined behaviour: on the empty string and on a
string of spaces and tabs only, `trimFront` calls `front()` on an empty string, while
`trimFrontInPlace` tests the size first and returns. -/
theorem trimFront_front_of_empty :
    String.trimFront [] = .error .frontOfEmpty ∧
    String.trimFront " \t ".toList = .error .frontOfEmpty ∧
    String.trimFrontInPlace [] = [] ∧
    String.trimFrontInPlace "  ".toList = [] := by
  refine ⟨rfl, rfl, rfl, rfl⟩

/-- On a string of spaces and tabs only, `trimFront` reaches `front()` on an empty string. -/
theorem trimFront_all_whitespace :
    ∀ str : List Char, (∀ c ∈ str, c = ' ' ∨ c = '\t') →
      String.trimFront str = .error .frontOfEmpty := by
  intro str
  induction str with
  | nil => intro _; rfl
  | cons c cs ih =>
    intro h
    have hc := h c (List.mem_cons_self _ _)
    simp only [String.trimFront, if_pos hc]
    exact ih (fun d hd => h d (List.mem_cons_of_mem _ hd))

/-- On a string with a character that is neither a space nor a tab, `trimFront` returns the
string without its leading spaces and tabs, and never calls `front()` on an empty string. -/
theorem trimFront_returns :
    ∀ str : List Char, (∃ c ∈ str, ¬ (c = ' ' ∨ c = '\t')) →
      String.trimFront str =
        .ok (str.dropWhile (fun c => decide (c = ' ' ∨ c = '\t'))) := by
  intro str
  induction str with
  | nil => intro h; obtain ⟨c, hc, _⟩ := h; simp at hc
  | cons c cs ih =>
    intro h
    by_cases hc : c = ' ' ∨ c = '\t'
    · simp only [String.trimFront, if_pos hc, List.dropWhile_cons, decide_eq_true hc, if_true]
      apply ih
      obtain ⟨d, hd, hnd⟩ := h
      rcases List.mem_cons.mp hd with hd | hd
      · rw [hd] at hnd; exact absurd hc hnd
      · exact ⟨d, hd, hnd⟩
    · simp only [String.trimFront, if_neg hc, List.dropWhile_cons, decide_eq_false hc]
      simp

end TrimProofs

section MoonFormulaProofs

variable {α : Type} [LinearOrderedField α]

/-- The moons of a returning `init`: the catalog's moons, then the moon `First` and the moon
`Second` that `makeMoon` returned. -/
theorem init_moons (env : InitEnv α) (fuel : Nat) (localCityID provinceID : Int)
    (weatherType : WeatherType) (currentDay : Int) (sky sky' : DistantSky α)
    (h : init env fuel localCityID provinceID weatherType currentDay sky = .ok sky') :
    ∃ first second, makeMoon env currentDay .First = .ok first ∧
      makeMoon env currentDay .Second = .ok second ∧
      sky'.moonObjects = sky.moonObjects ++ [first, second] := by
  obtain ⟨params, sr1, sr2, sky3, sky4, stars, sky5, _, hp1, hp2, hp3, hp4, _, hp5, hp6⟩ :=
    init_ok_phases env fuel _ _ _ _ sky sky' h
  obtain ⟨_, _, _, a4⟩ := placeStaticObjectsLoop_effect env _ _ _ _ _ _ _ _ sr1 hp1
  obtain ⟨_, _, _, b4⟩ := placeClouds_effect env _ _ _ _ sr2 hp2
  obtain ⟨_, _, _, c4⟩ := placeAnimLand_effect env _ _ _ sky3 hp3
  obtain ⟨_, _, _, first, second, hfirst, hsecond, d4⟩ := placeMoons_effect env _ _ sky4 hp4
  obtain ⟨_, _, _, e4⟩ := convertStars_effect env _ _ sky5 hp5
  have f4 : sky'.moonObjects = sky5.moonObjects := by
    simp only [placeSun] at hp6
    split at hp6
    · exact absurd hp6 (by simp)
    · simp only [Except.ok.injEq] at hp6
      subst hp6
      rfl
  exact ⟨first, second, hfirst, hsecond, by rw [f4, e4, d4, c4, b4, a4]⟩

/-- C4, as the code has it: moon phase formula. For `currentDay ≥ 0` with `currentDay + 14`
inside the range of `int`, the phase index of the moon `First` is `currentDay mod 32`, that
of the moon `Second` is `(currentDay + 14) mod 32`, which is `(First index + 14) mod 32`;
and a returning `init` has appended exactly the moon `First` with the frame at the first
index of the image set loaded for the first moon filename, then the moon `Second` with the
frame at the second index of the image set loaded for the second moon filename. -/
theorem moon_phase_formula (currentDay : Int) (h0 : 0 ≤ currentDay)
    (hmax : currentDay + 14 < 2 ^ 31) :
    phaseIndex currentDay .First = .ok (currentDay % 32) ∧
    phaseIndex currentDay .Second = .ok ((currentDay + 14) % 32) ∧
    (currentDay + 14) % 32 = (currentDay % 32 + 14) % 32 ∧
    ∀ (env : InitEnv α) (fuel : Nat) (localCityID provinceID : Int)
      (weatherType : WeatherType) (sky sky' : DistantSky α),
      init env fuel localCityID provinceID weatherType currentDay sky = .ok sky' →
      ∃ (name₁ name₂ : List Char) (frames₁ frames₂ : List Surface) (surface₁ surface₂ : Surface),
        env.moonFilenames[0]? = some name₁ ∧ env.moonFilenames[1]? = some name₂ ∧
        env.getSurfaces (String.toUppercase name₁) = some frames₁ ∧
        env.getSurfaces (String.toUppercase name₂) = some frames₂ ∧
        frames₁[(currentDay % 32).toNat]? = some surface₁ ∧
        frames₂[((currentDay + 14) % 32).toNat]? = some surface₂ ∧
        sky'.moonObjects = sky.moonObjects ++
          [⟨surface₁, MoonObjectType.First⟩, ⟨surface₂, MoonObjectType.Second⟩] := by
  obtain ⟨hfirst, hsecond⟩ := phaseIndex_nonneg currentDay h0 hmax
  refine ⟨hfirst, hsecond, by omega, ?_⟩
  intro env fuel localCityID provinceID weatherType sky sky' h
  obtain ⟨first, second, hm1, hm2, hmoons⟩ := init_moons env fuel _ _ _ _ sky sky' h
  obtain ⟨t1, i1, name₁, frames₁, hi1, hn1, hs1, hf1⟩ := makeMoon_ok env currentDay .First first hm1
  obtain ⟨t2, i2, name₂, frames₂, hi2, hn2, hs2, hf2⟩ :=
    makeMoon_ok env currentDay .Second second hm2
  rw [hfirst] at hi1
  rw [hsecond] at hi2
  have e1 : currentDay % 32 = i1 := Except.ok.inj hi1
  have e2 : (currentDay + 14) % 32 = i2 := Except.ok.inj hi2
  subst e1
  subst e2
  rw [toSizeT_small _ (by omega) (by omega)] at hf1 hf2
  have hz0 : toSizeT MoonObjectType.First.toInt = 0 := by decide
  have hz1 : toSizeT MoonObjectType.Second.toInt = 1 := by decide
  rw [hz0] at hn1
  rw [hz1] at hn2
  refine ⟨name₁, name₂, frames₁, frames₂, first.surface, second.surface, hn1, hn2, hs1, hs2,
    hf1, hf2, ?_⟩
  rw [hmoons]
  have g1 : first = ⟨first.surface, MoonObjectType.First⟩ := by
    cases first; simp only at t1; subst t1; rfl
  have g2 : second = ⟨second.surface, MoonObjectType.Second⟩ := by
    cases second; simp only at t2; subst t2; rfl
  rw [← g1, ← g2]

/-- The examples of the moon phase formula: day `10` gives the indices `10` and `24`, day
`50` gives `18` and `0`; on the example environment, whose image set for a moon filename of
nine characters holds the frames `900` to `931`, `init` at day `50` returns the moon
`First` with frame `918` and the moon `Second` with frame `900`. -/
theorem moon_phase_formula_witness :
    (phaseIndex 10 .First = .ok 10 ∧ phaseIndex 10 .Second = .ok 24) ∧
    (phaseIndex 50 .First = .ok 18 ∧ phaseIndex 50 .Second = .ok 0) ∧
    ∃ sky' : DistantSky ℚ,
      init exampleEnv 10 5 3 .Clear 50 DistantSky.construct = .ok sky' ∧
      sky'.moonObjects = [⟨⟨918⟩, MoonObjectType.First⟩, ⟨⟨900⟩, MoonObjectType.Second⟩] := by
  refine ⟨⟨rfl, rfl⟩, ⟨rfl, rfl⟩, ?_⟩
  have hok : ∃ sky', init exampleEnv 10 5 3 .Clear 50 DistantSky.construct = .ok sky' := by
    cases hm : init exampleEnv 10 5 3 .Clear 50 DistantSky.construct with
    | ok sky => exact ⟨sky, rfl⟩
    | error e =>
      have hb : (init exampleEnv 10 5 3 .Clear 50 DistantSky.construct).toBool = true := rfl
      rw [hm] at hb
      exact absurd hb (by simp [Except.toBool])
  obtain ⟨sky', hs⟩ := hok
  obtain ⟨name₁, name₂, frames₁, frames₂, surface₁, surface₂, hn1, hn2, hs1, hs2, hf1, hf2,
    hmoons⟩ := (moon_phase_formula (α := ℚ) 50 (by decide) (by decide)).2.2.2
      exampleEnv 10 5 3 .Clear DistantSky.construct sky' hs
  refine ⟨sky', hs, ?_⟩
  have e1 : name₁ = "moon1.dfa".toList := (Option.some.inj hn1).symm
  have e2 : name₂ = "moon2.dfa".toList := (Option.some.inj hn2).symm
  subst e1
  subst e2
  have k1 : frames₁ = (List.range 32).map (fun i => ⟨100 * 9 + i⟩) := (Option.some.inj hs1).symm
  have k2 : frames₂ = (List.range 32).map (fun i => ⟨100 * 9 + i⟩) := (Option.some.inj hs2).symm
  subst k1
  subst k2
  have j1 : surface₁ = ⟨918⟩ := (Option.some.inj hf1).symm
  have j2 : surface₂ = ⟨900⟩ := (Option.some.inj hf2).symm
  rw [hmoons, j1, j2]
  rfl

/-- C4 as stated fails: for `currentDay = 2147483647`, the largest `int`, the sum
`currentDay + 14` overflows; no phase index is computed for the moon `Second`, and `init`
on the example environment does not return. -/
theorem moon_phase_formula_fails :
    0 ≤ (2147483647 : Int) ∧
    phaseIndex 2147483647 .Second = .error .signedOverflow ∧
    phaseIndex 2147483647 .Second ≠ .ok ((2147483647 + 14) % 32) ∧
    ∃ partialSky : DistantSky ℚ,
      init exampleEnv 10 5 3 .Clear 2147483647 DistantSky.construct
        = .error (.signedOverflow, partialSky) := by
  refine ⟨by decide, rfl, by simp [phaseIndex, addInt], ?_⟩
  have hcheck : (match init exampleEnv 10 5 3 .Clear 2147483647 DistantSky.construct with
      | .error (.signedOverflow, _) => true
      | _ => false) = true := rfl
  cases hm : init exampleEnv 10 5 3 .Clear 2147483647 DistantSky.construct with
  | ok s => rw [hm] at hcheck; exact absurd hcheck (by simp)
  | error e =>
    obtain ⟨err, s⟩ := e
    rw [hm] at hcheck
    cases err with
    | signedOverflow => exact ⟨s, rfl⟩
    | missingAsset name => exact absurd hcheck (by simp)
    | invalidClimate => exact absurd hcheck (by simp)
    | outOfRange => exact absurd hcheck (by simp)
    | assertFailed => exact absurd hcheck (by simp)
    | outOfFuel => exact absurd hcheck (by simp)

end MoonFormulaProofs

section SameInputsSubProofs

variable {α : Type}

/-- The climate selection reads the table of the land filenames only. -/
theorem climateParameters_same (env₁ env₂ : InitEnv α)
    (h : env₁.distantMountainFilenames = env₂.distantMountainFilenames)
    (climateType : ClimateType) :
    climateParameters env₁ climateType = climateParameters env₂ climateType := by
  simp only [climateParameters, h]

/-- The lambda `makeMoon` reads the moon filenames and the image sets only. -/
theorem makeMoon_same (env₁ env₂ : InitEnv α) (hnames : env₁.moonFilenames = env₂.moonFilenames)
    (hsets : env₁.getSurfaces = env₂.getSurfaces) (currentDay : Int) (type : MoonObjectType) :
    makeMoon env₁ currentDay type = makeMoon env₂ currentDay type := by
  simp only [makeMoon, hnames, hsets]

/-- The moon phase reads the moon filenames and the image sets only. -/
theorem placeMoons_same (env₁ env₂ : InitEnv α) (hnames : env₁.moonFilenames = env₂.moonFilenames)
    (hsets : env₁.getSurfaces = env₂.getSurfaces) (currentDay : Int) (sky : DistantSky α) :
    placeMoons env₁ currentDay sky = placeMoons env₂ currentDay sky := by
  simp only [placeMoons, makeMoon_same env₁ env₂ hnames hsets]

/-- The sub-star loop reads the palette only. -/
theorem convertSubStars_same (env₁ env₂ : InitEnv α) (hpal : env₁.palette = env₂.palette)
    (direction : Double3 α) :
    ∀ (subs : List SubStar) (sky : DistantSky α),
      convertSubStars env₁ direction subs sky = convertSubStars env₂ direction subs sky := by
  intro subs
  induction subs with
  | nil => intro sky; rfl
  | cons subStar rest ih =>
    intro sky
    simp only [convertSubStars, hpal]
    cases at? env₂.palette subStar.color with
    | error e => rfl
    | ok color => exact ih _

/-- The sun phase reads the sun filename and the image loader only. -/
theorem placeSun_same (env₁ env₂ : InitEnv α) (hname : env₁.sunFilename = env₂.sunFilename)
    (hload : env₁.getSurface = env₂.getSurface) (sky : DistantSky α) :
    placeSun env₁ sky = placeSun env₂ sky := by
  simp only [placeSun, hname, hload]

end SameInputsSubProofs

section SameInputsProofs

variable {α : Type} [LinearOrderedField α]

/-- An iteration of `placeStaticObjects` reads the image loader and `π` only. -/
theorem placeStaticObject_same (env₁ env₂ : InitEnv α) (hload : env₁.getSurface = env₂.getSurface)
    (hpi : env₁.pi = env₂.pi) (baseFilename : List Char) (pos var maxDigits : Int)
    (randomHeight : Bool) (sky : DistantSky α) (random : ArenaRandom) :
    placeStaticObject env₁ baseFilename pos var maxDigits randomHeight sky random =
      placeStaticObject env₂ baseFilename pos var maxDigits randomHeight sky random := by
  simp only [placeStaticObject, hload, hpi]

/-- The loop of `placeStaticObjects` reads the image loader and `π` only. -/
theorem placeStaticObjectsLoop_same (env₁ env₂ : InitEnv α)
    (hload : env₁.getSurface = env₂.getSurface) (hpi : env₁.pi = env₂.pi)
    (baseFilename : List Char) (pos var maxDigits : Int) (randomHeight : Bool) :
    ∀ (remaining : Nat) (sky : DistantSky α) (random : ArenaRandom),
      placeStaticObjectsLoop env₁ baseFilename pos var maxDigits randomHeight remaining sky random
        = placeStaticObjectsLoop env₂ baseFilename pos var maxDigits randomHeight remaining sky
            random := by
  intro remaining
  induction remaining with
  | zero => intro sky random; rfl
  | succ remaining ih =>
    intro sky random
    simp only [placeStaticObjectsLoop, placeStaticObject_same env₁ env₂ hload hpi]
    cases placeStaticObject env₂ baseFilename pos var maxDigits randomHeight sky random with
    | error e => rfl
    | ok sr => exact ih _ _

/-- The cloud phase reads the cloud filename, the image loader and `π` only. -/
theorem placeClouds_same (env₁ env₂ : InitEnv α) (hname : env₁.cloudFilename = env₂.cloudFilename)
    (hload : env₁.getSurface = env₂.getSurface) (hpi : env₁.pi = env₂.pi)
    (weatherType : WeatherType) (currentDay : Int) (sky : DistantSky α) (random : ArenaRandom) :
    placeClouds env₁ weatherType currentDay sky random =
      placeClouds env₂ weatherType currentDay sky random := by
  simp only [placeClouds, placeStaticObjects, hname,
    placeStaticObjectsLoop_same env₁ env₂ hload hpi]

/-- The animated land phase reads the city only through its position and its distance to
the animated land, and only in the province `3`. -/
theorem placeAnimLand_same (env₁ env₂ : InitEnv α) (city₁ city₂ provinceID : Int)
    (hnames : env₁.animDistantMountainFilenames = env₂.animDistantMountainFilenames)
    (hload : env₁.getSurface = env₂.getSurface) (hsets : env₁.getSurfaces = env₂.getSurfaces)
    (hatan : env₁.atan2 = env₂.atan2)
    (hcity : provinceID = 3 →
      env₁.getLocalCityPoint (env₁.getCitySeed city₁ provinceID) =
        env₂.getLocalCityPoint (env₂.getCitySeed city₂ provinceID) ∧
      env₁.getDistance (env₁.getLocalCityPoint (env₁.getCitySeed city₁ provinceID)) ⟨132, 52⟩ =
        env₂.getDistance (env₂.getLocalCityPoint (env₂.getCitySeed city₂ provinceID)) ⟨132, 52⟩)
    (sky : DistantSky α) :
    placeAnimLand env₁ city₁ provinceID sky = placeAnimLand env₂ city₂ provinceID sky := by
  by_cases hp : provinceID = 3
  · obtain ⟨hpoint, hdist⟩ := hcity hp
    rw [hpoint] at hdist
    simp only [placeAnimLand, hnames, hload, hsets, hatan, hpoint, hdist]
  · simp only [placeAnimLand, decide_eq_true_eq, if_neg hp]

/-- The conversion of a star reads the palette, the star filename, the image loader and the
square root only. -/
theorem convertStar_same (env₁ env₂ : InitEnv α) (hpal : env₁.palette = env₂.palette)
    (hname : env₁.starFilename = env₂.starFilename)
    (hload : env₁.getSurface = env₂.getSurface) (hsqrt : env₁.sqrt = env₂.sqrt)
    (star : Star) (sky : DistantSky α) :
    convertStar env₁ star sky = convertStar env₂ star sky := by
  simp only [convertStar, starFilename, hname, hload, hsqrt,
    convertSubStars_same env₁ env₂ hpal]

/-- The conversion loop reads the palette, the star filename, the image loader and the
square root only. -/
theorem convertStars_same (env₁ env₂ : InitEnv α) (hpal : env₁.palette = env₂.palette)
    (hname : env₁.starFilename = env₂.starFilename)
    (hload : env₁.getSurface = env₂.getSurface) (hsqrt : env₁.sqrt = env₂.sqrt) :
    ∀ (stars : List Star) (sky : DistantSky α),
      convertStars env₁ stars sky = convertStars env₂ stars sky := by
  intro stars
  induction stars with
  | nil => intro sky; rfl
  | cons star rest ih =>
    intro sky
    simp only [convertStars, convertStar_same env₁ env₂ hpal hname hload hsqrt]
    cases convertStar env₂ star sky with
    | error e => rfl
    | ok sky1 => exact ih _

/-- Two calls of `init` that read the same inputs have the same outcome. -/
theorem init_same (env₁ env₂ : InitEnv α) (city₁ city₂ provinceID : Int)
    (h : env₁.SameInputs env₂ city₁ city₂ provinceID) (fuel : Nat)
    (weatherType : WeatherType) (currentDay : Int) (sky : DistantSky α) :
    init env₁ fuel city₁ provinceID weatherType currentDay sky =
      init env₂ fuel city₂ provinceID weatherType currentDay sky := by
  obtain ⟨hseed, hrec, hclimate, hland, hcloud, hanim, hmoon, hstar, hsun, hpal, hload, hsets,
    hpi, hatan, hsqrt, hcity⟩ := h
  simp only [init, placeStaticObjects, hseed, hrec, hclimate,
    climateParameters_same env₁ env₂ hland,
    placeStaticObjectsLoop_same env₁ env₂ hload hpi,
    placeClouds_same env₁ env₂ hcloud hload hpi,
    placeAnimLand_same env₁ env₂ city₁ city₂ provinceID hanim hload hsets hatan hcity,
    placeMoons_same env₁ env₂ hmoon hsets,
    convertStars_same env₁ env₂ hpal hstar hload hsqrt,
    placeSun_same env₁ env₂ hsun hload]

/-- C7, as the code has it: determinism of generation. Two runs of `init`, each with its own
services, city and fuel, that read the same sky seed, generator recurrence, climate,
weather, province, day, filename tables, palette and image loader, the same `π`, `atan2`
and square root, and, in the province of the animated land, the same position of the city
and distance to the animated land, have the same outcome for the same fuel, and when both
return on freshly constructed catalogs the catalogs are identical: every collection, with
its angles, heights, images, star kinds, colours and directions, and the sun. -/
theorem init_deterministic (env₁ env₂ : InitEnv α) (city₁ city₂ provinceID : Int)
    (weatherType : WeatherType) (currentDay : Int)
    (h : env₁.SameInputs env₂ city₁ city₂ provinceID) :
    (∀ (fuel : Nat) (sky : DistantSky α),
      init env₁ fuel city₁ provinceID weatherType currentDay sky =
        init env₂ fuel city₂ provinceID weatherType currentDay sky) ∧
    (∀ (fuel₁ fuel₂ : Nat) (sky₁ sky₂ : DistantSky α),
      init env₁ fuel₁ city₁ provinceID weatherType currentDay DistantSky.construct = .ok sky₁ →
      init env₂ fuel₂ city₂ provinceID weatherType currentDay DistantSky.construct = .ok sky₂ →
      sky₁ = sky₂) := by
  refine ⟨fun fuel sky => init_same env₁ env₂ city₁ city₂ provinceID h fuel _ _ sky, ?_⟩
  intro fuel₁ fuel₂ sky₁ sky₂ h₁ h₂
  rw [← init_same env₁ env₂ city₁ city₂ provinceID h fuel₂] at h₂
  exact init_fuel_independent env₁ fuel₁ fuel₂ city₁ provinceID weatherType currentDay
    sky₁ sky₂ h₁ h₂

/-- Two runs on the example environment and on the example environment with other seed
tables, for the cities `5` and `99` of the province `3` and with different fuel: the inputs
read are the same, both runs return, and the catalogs are equal. -/
theorem init_deterministic_witness :
    exampleEnv.SameInputs exampleEnvOtherTables 5 99 3 ∧
    ∃ sky₁ sky₂ : DistantSky ℚ,
      init exampleEnv 10 5 3 .Clear 10 DistantSky.construct = .ok sky₁ ∧
      init exampleEnvOtherTables 20 99 3 .Clear 10 DistantSky.construct = .ok sky₂ ∧
      sky₁ = sky₂ := by
  have hsame : exampleEnv.SameInputs exampleEnvOtherTables 5 99 3 :=
    ⟨rfl, rfl, rfl, rfl, rfl, rfl, rfl, rfl, rfl, rfl, rfl, rfl, rfl, rfl, rfl,
      fun _ => ⟨rfl, rfl⟩⟩
  have hok : ∀ (env : InitEnv ℚ) (fuel : Nat) (city : Int),
      (init env fuel city 3 .Clear 10 DistantSky.construct).toBool = true →
      ∃ sky, init env fuel city 3 .Clear 10 DistantSky.construct = .ok sky := by
    intro env fuel city hb
    cases hm : init env fuel city 3 .Clear 10 DistantSky.construct with
    | ok sky => exact ⟨sky, rfl⟩
    | error e => rw [hm] at hb; exact absurd hb (by simp [Except.toBool])
  obtain ⟨sky₁, hs₁⟩ := hok exampleEnv 10 5 rfl
  obtain ⟨sky₂, hs₂⟩ := hok exampleEnvOtherTables 20 99 rfl
  exact ⟨hsame, sky₁, sky₂, hs₁, hs₂,
    (init_deterministic exampleEnv exampleEnvOtherTables 5 99 3 .Clear 10 hsame).2
      10 20 sky₁ sky₂ hs₁ hs₂⟩

/-- C7 as stated fails: the inputs the claim fixes do not determine the catalog. In an
environment whose sky seed depends on the province only, the cities `5` and `8` of the
province `3` have the same sky seed, generator, climate, weather, province, day, filename
tables, palette and image loader; the runs for the two cities both return, and the catalogs
differ: the city `5`, far from the animated land, gets a single image, the city `8` an
image set of 32 frames. -/
theorem init_deterministic_fails :
    exampleEnvProvinceSeed.getDistantSkySeed 5 3 = exampleEnvProvinceSeed.getDistantSkySeed 8 3 ∧
    exampleEnvProvinceSeed.getCityClimateType 5 3 =
      exampleEnvProvinceSeed.getCityClimateType 8 3 ∧
    ∃ sky₁ sky₂ : DistantSky ℚ,
      init exampleEnvProvinceSeed 10 5 3 .Clear 10 DistantSky.construct = .ok sky₁ ∧
      init exampleEnvProvinceSeed 10 8 3 .Clear 10 DistantSky.construct = .ok sky₂ ∧
      sky₁.animLandObjects.map (fun o => o.surfaces.length) = [1] ∧
      sky₂.animLandObjects.map (fun o => o.surfaces.length) = [32] ∧
      sky₁ ≠ sky₂ := by
  refine ⟨rfl, rfl, ?_⟩
  have hcheck : ∀ (city : Int) (n : Nat),
      (match init exampleEnvProvinceSeed 10 city 3 .Clear 10 DistantSky.construct with
        | .ok s => decide (s.animLandObjects.map (fun o => o.surfaces.length) = [n])
        | .error _ => false) = true →
      ∃ sky, init exampleEnvProvinceSeed 10 city 3 .Clear 10 DistantSky.construct = .ok sky ∧
        sky.animLandObjects.map (fun o => o.surfaces.length) = [n] := by
    intro city n hb
    cases hm : init exampleEnvProvinceSeed 10 city 3 .Clear 10 DistantSky.construct with
    | ok sky =>
      rw [hm] at hb
      exact ⟨sky, rfl, by simpa using hb⟩
    | error e => rw [hm] at hb; exact absurd hb (by simp)
  obtain ⟨sky₁, hs₁, hl₁⟩ := hcheck 5 1 rfl
  obtain ⟨sky₂, hs₂, hl₂⟩ := hcheck 8 32 rfl
  refine ⟨sky₁, sky₂, hs₁, hs₂, hl₁, hl₂, ?_⟩
  intro heq
  rw [heq, hl₂] at hl₁
  exact absurd hl₁ (by decide)

end SameInputsProofs

section MissingSubProofs

variable {α : Type}

end MissingSubProofs

section MissingProofs

variable {α : Type} [LinearOrderedField α]

end MissingProofs

section DoubleProofs
open Double

/-- The rounding to the nearest integer, from the floor: down below the half, up above it,
to the even neighbour at the half. -/
theorem nearestEven_of_floor (s : ℚ) (f : Int) (h1 : (f : ℚ) ≤ s) (h2 : s < (f : ℚ) + 1) :
    nearestEven s =
      if s - (f : ℚ) < 1 / 2 then f
      else if 1 / 2 < s - (f : ℚ) then f + 1
      else if f % 2 = 0 then f else f + 1 := by
  have hf : ⌊s⌋ = f := Int.floor_eq_iff.mpr ⟨h1, h2⟩
  simp only [nearestEven, hf]

/-- An integer is its own rounding. -/
theorem nearestEven_intCast (n : Int) : nearestEven (n : ℚ) = n := by
  rw [nearestEven_of_floor (n : ℚ) n le_rfl (by linarith)]
  simp

/-- A representable rational is its own rounding: an operation whose exact result is a
`double` has no rounding error. -/
theorem round_representable (q : ℚ) (h : Representable q) : Double.round q = .finite q := by
  obtain ⟨m, e, hm, he, hmax, rfl⟩ := h
  by_cases hm0 : m = 0
  · subst hm0
    simp [Double.round]
  · have h2pos : ∀ z : Int, (0 : ℚ) < 2 ^ z := fun z => zpow_pos (by norm_num) z
    have hq0 : (m : ℚ) * 2 ^ e ≠ 0 :=
      mul_ne_zero (by exact_mod_cast hm0) (h2pos e).ne'
    have habs : |(m : ℚ) * 2 ^ e| = ((|m| : Int) : ℚ) * 2 ^ e := by
      rw [abs_mul, abs_of_pos (h2pos e), Int.cast_abs]
    have hapos : (0 : ℚ) < ((|m| : Int) : ℚ) * 2 ^ e :=
      mul_pos (by exact_mod_cast abs_pos.mpr hm0) (h2pos e)
    have hlt : ((|m| : Int) : ℚ) * 2 ^ e < 2 ^ (e + 53) := by
      have hm' : ((|m| : Int) : ℚ) < 2 ^ (53 : Int) := by exact_mod_cast hm
      calc ((|m| : Int) : ℚ) * 2 ^ e < 2 ^ (53 : Int) * 2 ^ e :=
            mul_lt_mul_of_pos_right hm' (h2pos e)
        _ = 2 ^ (e + 53) := by rw [← zpow_add₀ (by norm_num), add_comm]
    have hlog : Int.log 2 (((|m| : Int) : ℚ) * 2 ^ e) < e + 53 :=
      (Int.lt_zpow_iff_log_lt (by norm_num) hapos).mp (by exact_mod_cast hlt)
    have hg : gridExponent (((|m| : Int) : ℚ) * 2 ^ e) ≤ e := by
      simp only [gridExponent]
      exact max_le (by omega) he
    obtain ⟨k, hk⟩ : ∃ k : Nat, e = gridExponent (((|m| : Int) : ℚ) * 2 ^ e) + (k : Int) :=
      ⟨(e - gridExponent (((|m| : Int) : ℚ) * 2 ^ e)).toNat, by omega⟩
    have hscaled : ((|m| : Int) : ℚ) * 2 ^ e / 2 ^ gridExponent (((|m| : Int) : ℚ) * 2 ^ e)
        = ((|m| * 2 ^ k : Int) : ℚ) := by
      rw [div_eq_iff (h2pos _).ne']
      nth_rewrite 1 [hk]
      rw [zpow_add₀ (by norm_num)]
      push_cast
      rw [zpow_natCast]
      ring
    have hback : ((|m| * 2 ^ k : Int) : ℚ) * 2 ^ gridExponent (((|m| : Int) : ℚ) * 2 ^ e)
        = ((|m| : Int) : ℚ) * 2 ^ e := by
      rw [← hscaled, div_mul_cancel₀ _ (h2pos _).ne']
    have hfin : ¬ ((2 : ℚ) ^ (1024 : Int) ≤ ((|m| : Int) : ℚ) * 2 ^ e) := by
      rw [not_le]
      calc ((|m| : Int) : ℚ) * 2 ^ e < 2 ^ (e + 53) := hlt
        _ ≤ 2 ^ (1024 : Int) := zpow_le_zpow_right₀ (by norm_num) hmax
    simp only [Double.round, if_neg hq0, habs, hscaled, nearestEven_intCast, hback, if_neg hfin]
    congr 1
    by_cases hneg : (m : ℚ) * 2 ^ e < 0
    · rw [if_pos hneg, ← habs, abs_of_neg hneg, neg_neg]
    · rw [if_neg hneg, ← habs, abs_of_nonneg (not_lt.mp hneg)]

/-- The binade of a positive rational: `⌊log₂ q⌋ = e` when `2 ^ e ≤ q < 2 ^ (e + 1)`. -/
theorem log_eq_of_bounds (q : ℚ) (e : Int) (hq : 0 < q) (hlo : (2 : ℚ) ^ e ≤ q)
    (hhi : q < (2 : ℚ) ^ (e + 1)) : Int.log 2 q = e := by
  have h1 : e ≤ Int.log 2 q := (Int.zpow_le_iff_le_log (by norm_num) hq).mp (by exact_mod_cast hlo)
  have h2 : Int.log 2 q < e + 1 :=
    (Int.lt_zpow_iff_log_lt (by norm_num) hq).mp (by exact_mod_cast hhi)
  omega

/-- The rounding of a positive rational of a normal binade: the nearest multiple of
`2 ^ (e - 52)`, when that is below `2 ^ 1024`. -/
theorem round_pos_eq (q : ℚ) (e m : Int) (hq : 0 < q) (hlo : (2 : ℚ) ^ e ≤ q)
    (hhi : q < (2 : ℚ) ^ (e + 1)) (hnormal : -1074 ≤ e - 52)
    (hm : nearestEven (q / 2 ^ (e - 52)) = m)
    (hfin : (m : ℚ) * 2 ^ (e - 52) < 2 ^ (1024 : Int)) :
    Double.round q = .finite ((m : ℚ) * 2 ^ (e - 52)) := by
  have habs : |q| = q := abs_of_pos hq
  have hgrid : gridExponent q = e - 52 := by
    simp only [gridExponent, log_eq_of_bounds q e hq hlo hhi]
    exact max_eq_left hnormal
  simp only [Double.round, habs, hgrid, hm, if_neg hq.ne', if_neg (not_le.mpr hfin),
    if_neg (not_lt.mpr hq.le)]

end DoubleProofs

section UpdateDoubleProofs

open AnimatedLandObject

/-- One iteration of the loop of `update` in `double` arithmetic, on finite values with the
time at least the frame time. -/
theorem updateLoopDouble_step (n : Int) (fuel : Nat) (obj : AnimatedLandObject Double)
    (T c : ℚ) (hT : obj.targetFrameTime = .finite T) (hc : obj.currentFrameTime = .finite c)
    (hge : T ≤ c) :
    updateLoopDouble n (fuel + 1) obj =
      updateLoopDouble n fuel
        { obj with
          currentFrameTime := Double.round (c + -T)
          index := if obj.index < n - 1 then obj.index + 1 else 0 } := by
  rw [updateLoopDouble]
  simp only [hT, hc, Double.ge, Double.sub, Double.neg, Double.add, decide_eq_true_eq,
    if_pos hge]

/-- The exit of the loop of `update` in `double` arithmetic, on finite values with the time
below the frame time. -/
theorem updateLoopDouble_exit (n : Int) (fuel : Nat) (obj : AnimatedLandObject Double)
    (T c : ℚ) (hT : obj.targetFrameTime = .finite T) (hc : obj.currentFrameTime = .finite c)
    (hlt : c < T) :
    updateLoopDouble n (fuel + 1) obj = some obj := by
  rw [updateLoopDouble]
  simp only [hT, hc, Double.ge, decide_eq_true_eq, if_neg (not_le.mpr hlt)]

/-- The loop of `update` in `double` arithmetic runs for exactly `k` advances when
`k * T ≤ c < (k + 1) * T` and the `k` differences `c - j * T` are representable. -/
theorem updateLoopDouble_exact (n : Int) (k : Nat) :
    ∀ (obj : AnimatedLandObject Double) (T c : ℚ),
      obj.targetFrameTime = .finite T → obj.currentFrameTime = .finite c → 0 < T →
      (k : ℚ) * T ≤ c → c < ((k : ℚ) + 1) * T →
      (∀ j : Nat, 1 ≤ j → j ≤ k → Double.Representable (c - (j : ℚ) * T)) →
      ∀ fuel, k < fuel →
        updateLoopDouble n fuel obj = some
          { obj with
            currentFrameTime := .finite (c - (k : ℚ) * T)
            index := (fun j : Int => if j < n - 1 then j + 1 else 0)^[k] obj.index } := by
  induction k with
  | zero =>
    intro obj T c hT hc _ _ hlt _ fuel hfuel
    obtain ⟨f, rfl⟩ : ∃ f, fuel = f + 1 := ⟨fuel - 1, by omega⟩
    rw [updateLoopDouble_exit n f obj T c hT hc (by simpa using hlt)]
    cases obj
    simp only at hc
    simp [hc]
  | succ k ih =>
    intro obj T c hT hc hTpos hle hlt hrep fuel hfuel
    obtain ⟨f, rfl⟩ : ∃ f, fuel = f + 1 := ⟨fuel - 1, by omega⟩
    have hcast : ((k + 1 : Nat) : ℚ) = (k : ℚ) + 1 := by push_cast; ring
    have hk0 : (0 : ℚ) ≤ (k : ℚ) := Nat.cast_nonneg k
    have hkT : 0 ≤ (k : ℚ) * T := mul_nonneg hk0 hTpos.le
    rw [hcast] at hle hlt
    have hge : T ≤ c := by
      have : ((k : ℚ) + 1) * T = (k : ℚ) * T + T := by ring
      linarith
    have hfirst : Double.round (c + -T) = .finite (c - T) := by
      have h1 := hrep 1 le_rfl (by omega)
      have e1 : c - ((1 : Nat) : ℚ) * T = c + -T := by push_cast; ring
      rw [e1] at h1
      rw [round_representable _ h1]
      congr 1
      ring
    rw [updateLoopDouble_step n f obj T c hT hc hge, hfirst]
    have key := ih
      { obj with
        currentFrameTime := .finite (c - T)
        index := if obj.index < n - 1 then obj.index + 1 else 0 }
      T (c - T) hT rfl hTpos (by linarith) (by linarith)
      (by
        intro j hj1 hjk
        have h2 := hrep (j + 1) (by omega) (by omega)
        have e2 : c - ((j + 1 : Nat) : ℚ) * T = c - T - (j : ℚ) * T := by push_cast; ring
        rw [e2] at h2
        exact h2)
      f (by omega)
    rw [key]
    have h2 : c - T - (k : ℚ) * T = c - ((k + 1 : Nat) : ℚ) * T := by
      rw [hcast]; ring
    simp only [h2, Function.iterate_succ_apply]

/-- C1, as the code has it: catch-up of `AnimatedLandObject::update` where the `double`
arithmetic is exact. For an object with `n ≥ 1` frames, a finite target frame time `T > 0`,
an index `i` in `[0, n)`, a finite accumulated time `t ≥ 0` and a finite `dt ≥ 0` such that
the sum `t + dt` and the differences `t + dt - j * T` for `j = 1 .. k`, with
`k = ⌊(t + dt) / T⌋`, are representable (are formed without rounding), `update(dt)` returns
(for every large enough fuel) and leaves `index = (i + k) mod n` and
`currentFrameTime = t + dt - k * T`. -/
theorem update_catch_up_exact (obj : AnimatedLandObject Double) (T t dt : ℚ)
    (hT' : obj.targetFrameTime = .finite T) (ht' : obj.currentFrameTime = .finite t)
    (hn : 1 ≤ (obj.surfaces.length : Int)) (hT : 0 < T)
    (hi0 : 0 ≤ obj.index) (hin : obj.index < (obj.surfaces.length : Int))
    (ht : 0 ≤ t) (hdt : 0 ≤ dt)
    (hsum : Double.Representable (t + dt))
    (hdiff : ∀ j : Nat, 1 ≤ j → (j : Int) ≤ ⌊(t + dt) / T⌋ →
      Double.Representable (t + dt - (j : ℚ) * T)) :
    ∃ fuel, ∀ fuel', fuel ≤ fuel' →
      obj.updateDouble fuel' (.finite dt) = some
        { obj with
          currentFrameTime := .finite (t + dt - ((⌊(t + dt) / T⌋ : Int) : ℚ) * T)
          index := (obj.index + ⌊(t + dt) / T⌋) % (obj.surfaces.length : Int) } := by
  obtain ⟨hk0, hkcast, hle, hlt⟩ := frames_bounds (t + dt) T (add_nonneg ht hdt) hT
  refine ⟨⌊(t + dt) / T⌋.toNat + 1, ?_⟩
  intro fuel' hfuel
  have hpos : (obj.surfaces.length : Int) > 0 := by omega
  have hadd : Double.add obj.currentFrameTime (.finite dt) = .finite (t + dt) := by
    rw [ht']
    exact round_representable _ hsum
  have key := updateLoopDouble_exact (obj.surfaces.length : Int) ⌊(t + dt) / T⌋.toNat
    { obj with currentFrameTime := .finite (t + dt) } T (t + dt) hT' rfl hT
    (by rw [hkcast]; exact hle) (by rw [hkcast]; exact hlt)
    (by
      intro j hj1 hjk
      exact hdiff j hj1 (by omega))
    fuel' (by omega)
  simp only [updateDouble, hpos, if_true, hadd]
  rw [key, advance_iterate _ _ _ hi0 hin, hkcast, Int.toNat_of_nonneg hk0]

/-- The catch-up on binary fractions: four frames, frame time `1/8`, at frame `0`, time `0`,
`dt = 7/16`; the sum and the three differences are representable, and `update` leaves the
index `3` and the time `1/16`. -/
theorem update_catch_up_exact_witness :
    ∃ fuel, ∀ fuel', fuel ≤ fuel' →
      AnimatedLandObject.updateDouble fuel'
        ({ surfaces := [⟨0⟩, ⟨1⟩, ⟨2⟩, ⟨3⟩], angleRadians := .finite 0,
           targetFrameTime := .finite (1 / 8), currentFrameTime := .finite 0, index := 0 } :
          AnimatedLandObject Double) (.finite (7 / 16)) = some
        { surfaces := [⟨0⟩, ⟨1⟩, ⟨2⟩, ⟨3⟩], angleRadians := .finite 0,
          targetFrameTime := .finite (1 / 8), currentFrameTime := .finite (1 / 16),
          index := 3 } := by
  have hfloor : ⌊((0 : ℚ) + 7 / 16) / (1 / 8)⌋ = 3 := by
    rw [Int.floor_eq_iff]; norm_num
  obtain ⟨fuel, h⟩ := update_catch_up_exact
    ({ surfaces := [⟨0⟩, ⟨1⟩, ⟨2⟩, ⟨3⟩], angleRadians := .finite 0,
       targetFrameTime := .finite (1 / 8), currentFrameTime := .finite 0, index := 0 } :
      AnimatedLandObject Double) (1 / 8) 0 (7 / 16) rfl rfl
    (by decide) (by norm_num) (by decide) (by decide) (by norm_num) (by norm_num)
    ⟨7, -4, by norm_num, by norm_num, by norm_num, by norm_num⟩
    (by
      intro j hj1 hj3
      rw [hfloor] at hj3
      have hj : j = 1 ∨ j = 2 ∨ j = 3 := by omega
      rcases hj with rfl | rfl | rfl
      · exact ⟨5, -4, by norm_num, by norm_num, by norm_num, by norm_num⟩
      · exact ⟨3, -4, by norm_num, by norm_num, by norm_num, by norm_num⟩
      · exact ⟨1, -4, by norm_num, by norm_num, by norm_num, by norm_num⟩)
  refine ⟨fuel, fun fuel' hf => ?_⟩
  rw [h fuel' hf]
  simp only [hfloor]
  norm_num

/-- Non-termination of `update` in `double` arithmetic: with the frame time `1`, the time `0`
and `dt = 1e17`, the difference `1e17 - 1` rounds back to `1e17`, so the time never falls
below the frame time and the loop does not exit, whatever the fuel. -/
theorem updateDouble_diverges (obj : AnimatedLandObject Double)
    (hT : obj.targetFrameTime = .finite 1) (ht : obj.currentFrameTime = .finite 0)
    (hn : 1 ≤ (obj.surfaces.length : Int)) :
    ∀ fuel, obj.updateDouble fuel (.finite (10 ^ 17)) = none := by
  have hround : Double.round ((10 : ℚ) ^ 17 + -1) = .finite (10 ^ 17) := by
    have hm : Double.nearestEven (((10 : ℚ) ^ 17 + -1) / 2 ^ ((56 : Int) - 52))
        = 6250000000000000 := by
      rw [nearestEven_of_floor _ 6249999999999999 (by norm_num) (by norm_num)]
      norm_num
    rw [round_pos_eq _ 56 6250000000000000 (by norm_num) (by norm_num) (by norm_num)
      (by norm_num) hm (by norm_num)]
    norm_num
  have hloop : ∀ (fuel : Nat) (o : AnimatedLandObject Double),
      o.targetFrameTime = .finite 1 → o.currentFrameTime = .finite (10 ^ 17) →
      updateLoopDouble (obj.surfaces.length : Int) fuel o = none := by
    intro fuel
    induction fuel with
    | zero => intro o _ _; rfl
    | succ fuel ih =>
      intro o hoT hoc
      rw [updateLoopDouble_step _ fuel o 1 (10 ^ 17) hoT hoc (by norm_num), hround]
      exact ih _ hoT rfl
  intro fuel
  have hadd : Double.add obj.currentFrameTime (.finite (10 ^ 17)) = .finite (10 ^ 17) := by
    rw [ht]
    have h := round_representable ((0 : ℚ) + 10 ^ 17)
      ⟨762939453125, 17, by norm_num, by norm_num, by norm_num, by norm_num⟩
    simp only [Double.add]
    rw [h]
    norm_num
  have hpos : (obj.surfaces.length : Int) > 0 := by omega
  simp only [updateDouble, hpos, if_true, hadd]
  exact hloop fuel _ hT rfl

end UpdateDoubleProofs

section DefaultFrameTimeProofs

open AnimatedLandObject

/-- The `double` of `1.0 / 18.0`, the default frame time. -/
theorem round_default_frame_time :
    Double.round ((1 / 18 : ℚ))
      = .finite (2001599834386887 / 36028797018963968) := by
  have hm : Double.nearestEven
      (((1 / 18 : ℚ)) / 2 ^ ((-5 : Int) - 52))
      = 8006399337547548 := by
    rw [nearestEven_of_floor _ 8006399337547548 (by norm_num) (by norm_num)]
    norm_num
  rw [round_pos_eq _ (-5) 8006399337547548 (by norm_num) (by norm_num) (by norm_num)
    (by norm_num) hm (by norm_num)]
  norm_num

/-- Subtraction 1 of the default frame time from the time `1/2`, rounded. -/
theorem round_default_step1 :
    Double.round ((1 / 2 : ℚ) + -(2001599834386887 / 36028797018963968))
      = .finite (2001599834386887 / 4503599627370496) := by
  have hm : Double.nearestEven
      (((1 / 2 : ℚ) + -(2001599834386887 / 36028797018963968)) / 2 ^ ((-2 : Int) - 52))
      = 8006399337547548 := by
    rw [nearestEven_of_floor _ 8006399337547548 (by norm_num) (by norm_num)]
    norm_num
  rw [round_pos_eq _ (-2) 8006399337547548 (by norm_num) (by norm_num) (by norm_num)
    (by norm_num) hm (by norm_num)]
  norm_num

/-- Subtraction 2 of the default frame time from the time `1/2`, rounded. -/
theorem round_default_step2 :
    Double.round ((2001599834386887 / 4503599627370496 : ℚ)
      + -(2001599834386887 / 36028797018963968))
      = .finite (875699927544263 / 2251799813685248) := by
  have hm : Double.nearestEven
      (((2001599834386887 / 4503599627370496 : ℚ)
        + -(2001599834386887 / 36028797018963968)) / 2 ^ ((-2 : Int) - 52))
      = 7005599420354104 := by
    rw [nearestEven_of_floor _ 7005599420354104 (by norm_num) (by norm_num)]
    norm_num
  rw [round_pos_eq _ (-2) 7005599420354104 (by norm_num) (by norm_num) (by norm_num)
    (by norm_num) hm (by norm_num)]
  norm_num

/-- Subtraction 3 of the default frame time from the time `1/2`, rounded. -/
theorem round_default_step3 :
    Double.round ((875699927544263 / 2251799813685248 : ℚ)
      + -(2001599834386887 / 36028797018963968))
      = .finite (1501199875790165 / 4503599627370496) := by
  have hm : Double.nearestEven
      (((875699927544263 / 2251799813685248 : ℚ)
        + -(2001599834386887 / 36028797018963968)) / 2 ^ ((-2 : Int) - 52))
      = 6004799503160660 := by
    rw [nearestEven_of_floor _ 6004799503160660 (by norm_num) (by norm_num)]
    norm_num
  rw [round_pos_eq _ (-2) 6004799503160660 (by norm_num) (by norm_num) (by norm_num)
    (by norm_num) hm (by norm_num)]
  norm_num

/-- Subtraction 4 of the default frame time from the time `1/2`, rounded. -/
theorem round_default_step4 :
    Double.round ((1501199875790165 / 4503599627370496 : ℚ)
      + -(2001599834386887 / 36028797018963968))
      = .finite (312749974122951 / 1125899906842624) := by
  have hm : Double.nearestEven
      (((1501199875790165 / 4503599627370496 : ℚ)
        + -(2001599834386887 / 36028797018963968)) / 2 ^ ((-2 : Int) - 52))
      = 5003999585967216 := by
    rw [nearestEven_of_floor _ 5003999585967216 (by norm_num) (by norm_num)]
    norm_num
  rw [round_pos_eq _ (-2) 5003999585967216 (by norm_num) (by norm_num) (by norm_num)
    (by norm_num) hm (by norm_num)]
  norm_num

/-- Subtraction 5 of the default frame time from the time `1/2`, rounded. -/
theorem round_default_step5 :
    Double.round ((312749974122951 / 1125899906842624 : ℚ)
      + -(2001599834386887 / 36028797018963968))
      = .finite (8006399337547545 / 36028797018963968) := by
  have hm : Double.nearestEven
      (((312749974122951 / 1125899906842624 : ℚ)
        + -(2001599834386887 / 36028797018963968)) / 2 ^ ((-3 : Int) - 52))
      = 8006399337547545 := by
    rw [nearestEven_of_floor _ 8006399337547545 (by norm_num) (by norm_num)]
    norm_num
  rw [round_pos_eq _ (-3) 8006399337547545 (by norm_num) (by norm_num) (by norm_num)
    (by norm_num) hm (by norm_num)]
  norm_num

/-- Subtraction 6 of the default frame time from the time `1/2`, rounded. -/
theorem round_default_step6 :
    Double.round ((8006399337547545 / 36028797018963968 : ℚ)
      + -(2001599834386887 / 36028797018963968))
      = .finite (3002399751580329 / 18014398509481984) := by
  have hm : Double.nearestEven
      (((8006399337547545 / 36028797018963968 : ℚ)
        + -(2001599834386887 / 36028797018963968)) / 2 ^ ((-3 : Int) - 52))
      = 6004799503160658 := by
    rw [nearestEven_of_floor _ 6004799503160658 (by norm_num) (by norm_num)]
    norm_num
  rw [round_pos_eq _ (-3) 6004799503160658 (by norm_num) (by norm_num) (by norm_num)
    (by norm_num) hm (by norm_num)]
  norm_num

/-- Subtraction 7 of the default frame time from the time `1/2`, rounded. -/
theorem round_default_step7 :
    Double.round ((3002399751580329 / 18014398509481984 : ℚ)
      + -(2001599834386887 / 36028797018963968))
      = .finite (4003199668773771 / 36028797018963968) := by
  have hm : Double.nearestEven
      (((3002399751580329 / 18014398509481984 : ℚ)
        + -(2001599834386887 / 36028797018963968)) / 2 ^ ((-4 : Int) - 52))
      = 8006399337547542 := by
    rw [nearestEven_of_floor _ 8006399337547542 (by norm_num) (by norm_num)]
    norm_num
  rw [round_pos_eq _ (-4) 8006399337547542 (by norm_num) (by norm_num) (by norm_num)
    (by norm_num) hm (by norm_num)]
  norm_num

/-- Subtraction 8 of the default frame time from the time `1/2`, rounded. -/
theorem round_default_step8 :
    Double.round ((4003199668773771 / 36028797018963968 : ℚ)
      + -(2001599834386887 / 36028797018963968))
      = .finite (500399958596721 / 9007199254740992) := by
  have hm : Double.nearestEven
      (((4003199668773771 / 36028797018963968 : ℚ)
        + -(2001599834386887 / 36028797018963968)) / 2 ^ ((-5 : Int) - 52))
      = 8006399337547536 := by
    rw [nearestEven_of_floor _ 8006399337547536 (by norm_num) (by norm_num)]
    norm_num
  rw [round_pos_eq _ (-5) 8006399337547536 (by norm_num) (by norm_num) (by norm_num)
    (by norm_num) hm (by norm_num)]
  norm_num

/-- One iteration of the loop on the example object, at the index `i` and the time `c`. -/
theorem updateLoopDouble_default_step (fuel : Nat) (i : Int) (c c' : ℚ)
    (hge : (2001599834386887 / 36028797018963968 : ℚ) ≤ c)
    (hround : Double.round (c + -(2001599834386887 / 36028797018963968)) = .finite c') :
    updateLoopDouble 32 (fuel + 1)
        { exampleAnimDouble with currentFrameTime := .finite c, index := i } =
      updateLoopDouble 32 fuel
        { exampleAnimDouble with
          currentFrameTime := .finite c'
          index := if i < 32 - 1 then i + 1 else 0 } := by
  rw [updateLoopDouble_step 32 fuel _ (2001599834386887 / 36028797018963968) c
    round_default_frame_time rfl hge, hround]

/-- C1 as stated fails on the `double` arithmetic of the code. The object has 32 frames, the
default frame time (the `double` of `1.0 / 18.0`), the index `0` and the time `0`; for
`dt = 0.5` the claim gives `k = ⌊(0 + 1/2) / T⌋ = 9`, the index `9` and the time
`1/2 - 9 * T`, but four of the subtractions of the loop round down and `update` returns
after eight advances, at the index `8`. -/
theorem update_catch_up_rounds :
    exampleAnimDouble.targetFrameTime = .finite (2001599834386887 / 36028797018963968) ∧
    exampleAnimDouble.updateDouble 10 (.finite (1 / 2)) = some
      { exampleAnimDouble with
        currentFrameTime := .finite (500399958596721 / 9007199254740992)
        index := 8 } ∧
    (exampleAnimDouble.index + ⌊((0 : ℚ) + 1 / 2) / (2001599834386887 / 36028797018963968)⌋) % 32
      = 9 ∧
    ((0 : ℚ) + 1 / 2)
        - ((⌊((0 : ℚ) + 1 / 2) / (2001599834386887 / 36028797018963968)⌋ : Int) : ℚ)
          * (2001599834386887 / 36028797018963968)
      ≠ 500399958596721 / 9007199254740992 := by
  have hfloor : ⌊((0 : ℚ) + 1 / 2) / (2001599834386887 / 36028797018963968)⌋ = 9 := by
    rw [Int.floor_eq_iff]; norm_num
  have hadd : Double.add exampleAnimDouble.currentFrameTime (.finite (1 / 2))
      = .finite (1 / 2) := by
    have h := round_representable ((0 : ℚ) + 1 / 2)
      ⟨1, -1, by norm_num, by norm_num, by norm_num, by norm_num⟩
    have e : exampleAnimDouble.currentFrameTime = .finite 0 := rfl
    rw [e]
    simp only [Double.add]
    rw [h]
    norm_num
  have s1 : updateLoopDouble 32 10
      { exampleAnimDouble with
        currentFrameTime := .finite (1 / 2)
        index := 0 }
      = updateLoopDouble 32 9
        { exampleAnimDouble with
          currentFrameTime := .finite (2001599834386887 / 4503599627370496)
          index := 1 } :=
    updateLoopDouble_default_step 9 0 (1 / 2)
      (2001599834386887 / 4503599627370496) (by norm_num) round_default_step1
  have s2 : updateLoopDouble 32 9
      { exampleAnimDouble with
        currentFrameTime := .finite (2001599834386887 / 4503599627370496)
        index := 1 }
      = updateLoopDouble 32 8
        { exampleAnimDouble with
          currentFrameTime := .finite (875699927544263 / 2251799813685248)
          index := 2 } :=
    updateLoopDouble_default_step 8 1 (2001599834386887 / 4503599627370496)
      (875699927544263 / 2251799813685248) (by norm_num) round_default_step2
  have s3 : updateLoopDouble 32 8
      { exampleAnimDouble with
        currentFrameTime := .finite (875699927544263 / 2251799813685248)
        index := 2 }
      = updateLoopDouble 32 7
        { exampleAnimDouble with
          currentFrameTime := .finite (1501199875790165 / 4503599627370496)
          index := 3 } :=
    updateLoopDouble_default_step 7 2 (875699927544263 / 2251799813685248)
      (1501199875790165 / 4503599627370496) (by norm_num) round_default_step3
  have s4 : updateLoopDouble 32 7
      { exampleAnimDouble with
        currentFrameTime := .finite (1501199875790165 / 4503599627370496)
        index := 3 }
      = updateLoopDouble 32 6
        { exampleAnimDouble with
          currentFrameTime := .finite (312749974122951 / 1125899906842624)
          index := 4 } :=
    updateLoopDouble_default_step 6 3 (1501199875790165 / 4503599627370496)
      (312749974122951 / 1125899906842624) (by norm_num) round_default_step4
  have s5 : updateLoopDouble 32 6
      { exampleAnimDouble with
        currentFrameTime := .finite (312749974122951 / 1125899906842624)
        index := 4 }
      = updateLoopDouble 32 5
        { exampleAnimDouble with
          currentFrameTime := .finite (8006399337547545 / 36028797018963968)
          index := 5 } :=
    updateLoopDouble_default_step 5 4 (312749974122951 / 1125899906842624)
      (8006399337547545 / 36028797018963968) (by norm_num) round_default_step5
  have s6 : updateLoopDouble 32 5
      { exampleAnimDouble with
        currentFrameTime := .finite (8006399337547545 / 36028797018963968)
        index := 5 }
      = updateLoopDouble 32 4
        { exampleAnimDouble with
          currentFrameTime := .finite (3002399751580329 / 18014398509481984)
          index := 6 } :=
    updateLoopDouble_default_step 4 5 (8006399337547545 / 36028797018963968)
      (3002399751580329 / 18014398509481984) (by norm_num) round_default_step6
  have s7 : updateLoopDouble 32 4
      { exampleAnimDouble with
        currentFrameTime := .finite (3002399751580329 / 18014398509481984)
        index := 6 }
      = updateLoopDouble 32 3
        { exampleAnimDouble with
          currentFrameTime := .finite (4003199668773771 / 36028797018963968)
          index := 7 } :=
    updateLoopDouble_default_step 3 6 (3002399751580329 / 18014398509481984)
      (4003199668773771 / 36028797018963968) (by norm_num) round_default_step7
  have s8 : updateLoopDouble 32 3
      { exampleAnimDouble with
        currentFrameTime := .finite (4003199668773771 / 36028797018963968)
        index := 7 }
      = updateLoopDouble 32 2
        { exampleAnimDouble with
          currentFrameTime := .finite (500399958596721 / 9007199254740992)
          index := 8 } :=
    updateLoopDouble_default_step 2 7 (4003199668773771 / 36028797018963968)
      (500399958596721 / 9007199254740992) (by norm_num) round_default_step8
  have s9 : updateLoopDouble 32 2
      { exampleAnimDouble with
        currentFrameTime := .finite (500399958596721 / 9007199254740992)
        index := 8 }
      = some
        { exampleAnimDouble with
          currentFrameTime := .finite (500399958596721 / 9007199254740992)
          index := 8 } :=
    updateLoopDouble_exit 32 1 _ (2001599834386887 / 36028797018963968)
      (500399958596721 / 9007199254740992) round_default_frame_time rfl (by norm_num)
  refine ⟨round_default_frame_time, ?_, ?_, ?_⟩
  · have hstart : exampleAnimDouble.updateDouble 10 (.finite (1 / 2))
        = updateLoopDouble 32 10
          { exampleAnimDouble with
            currentFrameTime := .finite (1 / 2)
            index := 0 } := by
      have hpos : ((exampleAnimDouble.surfaces.length : Nat) : Int) > 0 := by decide
      simp only [updateDouble, hpos, if_true, hadd]
      rfl
    rw [hstart, s1, s2, s3, s4, s5, s6, s7, s8, s9]
  · rw [hfloor]; rfl
  · rw [hfloor]; norm_num

end DefaultFrameTimeProofs

section DecimalProofs

open AnimatedLandObject

/-- The `double` of `0.1`. -/
theorem round_tenth :
    Double.round ((1 / 10 : ℚ))
      = .finite (3602879701896397 / 36028797018963968) := by
  have hm : Double.nearestEven
      (((1 / 10 : ℚ)) / 2 ^ ((-4 : Int) - 52))
      = 7205759403792794 := by
    rw [nearestEven_of_floor _ 7205759403792793 (by norm_num) (by norm_num)]
    norm_num
  rw [round_pos_eq _ (-4) 7205759403792794 (by norm_num) (by norm_num) (by norm_num)
    (by norm_num) hm (by norm_num)]
  norm_num

/-- The `double` of `0.35`. -/
theorem round_decimal_dt :
    Double.round ((7 / 20 : ℚ))
      = .finite (3152519739159347 / 9007199254740992) := by
  have hm : Double.nearestEven
      (((7 / 20 : ℚ)) / 2 ^ ((-2 : Int) - 52))
      = 6305039478318694 := by
    rw [nearestEven_of_floor _ 6305039478318694 (by norm_num) (by norm_num)]
    norm_num
  rw [round_pos_eq _ (-2) 6305039478318694 (by norm_num) (by norm_num) (by norm_num)
    (by norm_num) hm (by norm_num)]
  norm_num

/-- Subtraction 1 of the `double` of `0.1` from the `double` of `0.35`, rounded. -/
theorem round_decimal_step1 :
    Double.round ((3152519739159347 / 9007199254740992 : ℚ)
      + -(3602879701896397 / 36028797018963968))
      = .finite (9007199254740991 / 36028797018963968) := by
  have hm : Double.nearestEven
      (((3152519739159347 / 9007199254740992 : ℚ)
        + -(3602879701896397 / 36028797018963968)) / 2 ^ ((-3 : Int) - 52))
      = 9007199254740991 := by
    rw [nearestEven_of_floor _ 9007199254740991 (by norm_num) (by norm_num)]
    norm_num
  rw [round_pos_eq _ (-3) 9007199254740991 (by norm_num) (by norm_num) (by norm_num)
    (by norm_num) hm (by norm_num)]
  norm_num

/-- Subtraction 2 of the `double` of `0.1` from the `double` of `0.35`, rounded. -/
theorem round_decimal_step2 :
    Double.round ((9007199254740991 / 36028797018963968 : ℚ)
      + -(3602879701896397 / 36028797018963968))
      = .finite (2702159776422297 / 18014398509481984) := by
  have hm : Double.nearestEven
      (((9007199254740991 / 36028797018963968 : ℚ)
        + -(3602879701896397 / 36028797018963968)) / 2 ^ ((-3 : Int) - 52))
      = 5404319552844594 := by
    rw [nearestEven_of_floor _ 5404319552844594 (by norm_num) (by norm_num)]
    norm_num
  rw [round_pos_eq _ (-3) 5404319552844594 (by norm_num) (by norm_num) (by norm_num)
    (by norm_num) hm (by norm_num)]
  norm_num

/-- Subtraction 3 of the `double` of `0.1` from the `double` of `0.35`, rounded. -/
theorem round_decimal_step3 :
    Double.round ((2702159776422297 / 18014398509481984 : ℚ)
      + -(3602879701896397 / 36028797018963968))
      = .finite (1801439850948197 / 36028797018963968) := by
  have hm : Double.nearestEven
      (((2702159776422297 / 18014398509481984 : ℚ)
        + -(3602879701896397 / 36028797018963968)) / 2 ^ ((-5 : Int) - 52))
      = 7205759403792788 := by
    rw [nearestEven_of_floor _ 7205759403792788 (by norm_num) (by norm_num)]
    norm_num
  rw [round_pos_eq _ (-5) 7205759403792788 (by norm_num) (by norm_num) (by norm_num)
    (by norm_num) hm (by norm_num)]
  norm_num

/-- The catch-up example of the specification in `double` arithmetic: four frames, the
frame time the `double` of `0.1`, at frame `0`, time `0`, and `dt` the `double` of `0.35`.
The call of `update` returns at the index `3`; the time it leaves is within `2 ^ (-53)` of
`1/20` and is not `1/20`. -/
theorem update_catch_up_decimal :
    AnimatedLandObject.updateDouble 5
      { surfaces := [⟨0⟩, ⟨1⟩, ⟨2⟩, ⟨3⟩], angleRadians := .finite 0,
        targetFrameTime := Double.round (1 / 10),
        currentFrameTime := .finite 0, index := 0 }
      (Double.round (7 / 20)) = some
      { surfaces := [⟨0⟩, ⟨1⟩, ⟨2⟩, ⟨3⟩], angleRadians := .finite 0,
        targetFrameTime := .finite (3602879701896397 / 36028797018963968),
        currentFrameTime := .finite (1801439850948197 / 36028797018963968), index := 3 } ∧
    |(1801439850948197 / 36028797018963968 : ℚ) - 1 / 20| < 1 / 2 ^ 53 ∧
    (1801439850948197 / 36028797018963968 : ℚ) ≠ 1 / 20 := by
  have s1 : updateLoopDouble 4 5
      { surfaces := [⟨0⟩, ⟨1⟩, ⟨2⟩, ⟨3⟩], angleRadians := .finite 0,
        targetFrameTime := .finite (3602879701896397 / 36028797018963968),
        currentFrameTime := .finite (3152519739159347 / 9007199254740992), index := 0 }
      = updateLoopDouble 4 4
        { surfaces := [⟨0⟩, ⟨1⟩, ⟨2⟩, ⟨3⟩], angleRadians := .finite 0,
          targetFrameTime := .finite (3602879701896397 / 36028797018963968),
          currentFrameTime := .finite (9007199254740991 / 36028797018963968), index := 1 } :=
    (updateLoopDouble_step 4 4 _ (3602879701896397 / 36028797018963968)
      (3152519739159347 / 9007199254740992) rfl rfl (by norm_num)).trans
      (by rw [round_decimal_step1]; rfl)
  have s2 : updateLoopDouble 4 4
      { surfaces := [⟨0⟩, ⟨1⟩, ⟨2⟩, ⟨3⟩], angleRadians := .finite 0,
        targetFrameTime := .finite (3602879701896397 / 36028797018963968),
        currentFrameTime := .finite (9007199254740991 / 36028797018963968), index := 1 }
      = updateLoopDouble 4 3
        { surfaces := [⟨0⟩, ⟨1⟩, ⟨2⟩, ⟨3⟩], angleRadians := .finite 0,
          targetFrameTime := .finite (3602879701896397 / 36028797018963968),
          currentFrameTime := .finite (2702159776422297 / 18014398509481984), index := 2 } :=
    (updateLoopDouble_step 4 3 _ (3602879701896397 / 36028797018963968)
      (9007199254740991 / 36028797018963968) rfl rfl (by norm_num)).trans
      (by rw [round_decimal_step2]; rfl)
  have s3 : updateLoopDouble 4 3
      { surfaces := [⟨0⟩, ⟨1⟩, ⟨2⟩, ⟨3⟩], angleRadians := .finite 0,
        targetFrameTime := .finite (3602879701896397 / 36028797018963968),
        currentFrameTime := .finite (2702159776422297 / 18014398509481984), index := 2 }
      = updateLoopDouble 4 2
        { surfaces := [⟨0⟩, ⟨1⟩, ⟨2⟩, ⟨3⟩], angleRadians := .finite 0,
          targetFrameTime := .finite (3602879701896397 / 36028797018963968),
          currentFrameTime := .finite (1801439850948197 / 36028797018963968), index := 3 } :=
    (updateLoopDouble_step 4 2 _ (3602879701896397 / 36028797018963968)
      (2702159776422297 / 18014398509481984) rfl rfl (by norm_num)).trans
      (by rw [round_decimal_step3]; rfl)
  have s4 : updateLoopDouble 4 2
      { surfaces := [⟨0⟩, ⟨1⟩, ⟨2⟩, ⟨3⟩], angleRadians := .finite 0,
        targetFrameTime := .finite (3602879701896397 / 36028797018963968),
        currentFrameTime := .finite (1801439850948197 / 36028797018963968), index := 3 }
      = some
        { surfaces := [⟨0⟩, ⟨1⟩, ⟨2⟩, ⟨3⟩], angleRadians := .finite 0,
          targetFrameTime := .finite (3602879701896397 / 36028797018963968),
          currentFrameTime := .finite (1801439850948197 / 36028797018963968), index := 3 } :=
    updateLoopDouble_exit 4 1 _ (3602879701896397 / 36028797018963968)
      (1801439850948197 / 36028797018963968) rfl rfl (by norm_num)
  have hadd : Double.add (.finite 0) (.finite (3152519739159347 / 9007199254740992))
      = .finite (3152519739159347 / 9007199254740992) := by
    have h := round_representable ((0 : ℚ) + 3152519739159347 / 9007199254740992)
      ⟨3152519739159347, -53, by norm_num, by norm_num, by norm_num,
        by norm_num⟩
    simp only [Double.add]
    rw [h]
    norm_num
  refine ⟨?_, ?_, by norm_num⟩
  · rw [round_tenth, round_decimal_dt]
    have hstart : AnimatedLandObject.updateDouble 5
        { surfaces := [⟨0⟩, ⟨1⟩, ⟨2⟩, ⟨3⟩], angleRadians := .finite 0,
          targetFrameTime := .finite (3602879701896397 / 36028797018963968),
          currentFrameTime := .finite 0, index := 0 }
        (.finite (3152519739159347 / 9007199254740992))
        = updateLoopDouble 4 5
          { surfaces := [⟨0⟩, ⟨1⟩, ⟨2⟩, ⟨3⟩], angleRadians := .finite 0,
            targetFrameTime := .finite (3602879701896397 / 36028797018963968),
            currentFrameTime := .finite (3152519739159347 / 9007199254740992), index := 0 } := by
      simp only [updateDouble, hadd]
      rfl
    rw [hstart, s1, s2, s3, s4]
  · rw [abs_lt]; constructor <;> norm_num

end DecimalProofs

end OpenTESArena
